import Mathlib

/-!
Verification of libDiscordBot: gateway client, voice socket and playback loop.

A shallow embedding of `src/VoiceSocket.cpp` and `src/DiscordClient.cpp`.

Conventions of the embedding
* A C++ `int`, `short`, `uint16_t`, `uint32_t` is the natural number of its bit
  pattern, reduced `% 2 ^ w` wherever the C++ value is narrowed or may wrap.
* A `std::map<std::string, V>` is a finite lookup `String → Option V`.
* A `std::shared_ptr<T>` is `Option T` (`none` is the null handle).
* Calls into the websocket, UDP socket, threads and user callbacks are
  recorded, in program order, in a log carried by the object's state.
* What an external collaborator returns (the audio source, the Opus encoder,
  libsodium, the JSON codec) is an input of the function that consumes it.
-/

namespace DiscordBot

/-! ## Host memory and byte order (`VoiceSocket.cpp`, lines 35-49) -/

/-- The machine the library runs on; only its byte order matters. -/
structure Host where
  littleEndian : Bool
deriving DecidableEq, Repr

/-- The `n` bytes of the value `v`, least significant byte first. -/
def leBytes (n v : Nat) : List Nat :=
  (List.range n).map fun i => v / 256 ^ i % 256

/-- The bytes an `n`-byte integer object holding `v` occupies in memory, in
address order: this is what `(char *)&x` walks over. -/
def objectBytes (h : Host) (n v : Nat) : List Nat :=
  if h.littleEndian then leBytes n v else (leBytes n v).reverse

/-- The `n` bytes of the value `v`, most significant byte first: the big-endian
encoding the wire formats ask for. -/
def beBytes (n v : Nat) : List Nat := (leBytes n v).reverse

/-- The function `IsLittleEndian()`: `short t = 1; return ((char*)&t)[0];`. -/
def IsLittleEndian (h : Host) : Bool :=
  (objectBytes h 2 1).headD 0 != 0

/-- The function `short ChangeEndianess(short Val)` on 16-bit patterns. The argument is
promoted to `int` (sign extended), both masks cut the extension off again, and
the `int` result is narrowed to `short`. -/
def ChangeEndianess_short (Val : Nat) : Nat :=
  (((Val <<< 8) &&& 0xFF00) ||| ((Val >>> 8) &&& 0xFF)) % 2 ^ 16

/-- The function `int ChangeEndianess(int Val)` on 32-bit patterns. `>>` on a negative `int`
shifts copies of the sign bit in, which the masks `0xFF` and `0xFF00` remove, so
the logical shift of the pattern gives the same bits. -/
def ChangeEndianess_int (Val : Nat) : Nat :=
  (((Val <<< 24) &&& 0xFF000000) ||| ((Val >>> 24) &&& 0xFF)
    ||| ((Val <<< 8) &&& 0x00FF0000) ||| ((Val >>> 8) &&& 0xFF00)) % 2 ^ 32

/-! ## The playback loop (`CVoiceSocket::Playback`, lines 128-253) -/

def FREQUENCY : Nat := 48000
def CHANNEL : Nat := 2
def MILLISECONDS : Nat := 20

/-- The constant `size_t Size = FREQUENCY * CHANNEL * MILLISECONDS / 1000;`. -/
def Size : Nat := FREQUENCY * CHANNEL * MILLISECONDS / 1000

def RTPHeaderSize : Nat := 12

/-- The constant `const int NonceSize = RTPHeaderSize * 2;`. -/
def NonceSize : Nat := RTPHeaderSize * 2

/-- The libsodium constant `crypto_secretbox_MACBYTES`. -/
def crypto_secretbox_MACBYTES : Nat := 16

/-- One datagram handed to `m_UDPSocket.sendto`, together with the values the
loop variables `Seq`, `Timestamp` and `Ret` had when it was built. -/
structure Frame where
  Seq : Nat
  Timestamp : Nat
  Ret : Nat
  Data : List Nat
deriving DecidableEq, Repr

/-- What one pass through the body of `while (!m_Stop)` observes.
* `paused`: `m_Pause` was set, the pass sleeps 100 ms and continues.
* `read Ret OpusSize cipher`: `m_Source->OnRead(Buf, Size / 2)` returned `Ret`,
  `opus_encode` returned `OpusSize`, and `crypto_secretbox_easy` wrote `cipher`
  behind the RTP header. -/
inductive Iteration where
  | paused
  | read (Ret : Nat) (OpusSize : Int) (cipher : List Nat)
deriving DecidableEq, Repr

/-- How the loop was left. -/
inductive LoopExit where
  /-- The loop condition `while (!m_Stop)` found the flag set. -/
  | stopped
  /-- The call `opus_encode` returned no data: the `else` branch breaks. -/
  | encodeError
  /-- The statement `if (Ret < (Size / 2)) break;`. -/
  | finished
deriving DecidableEq, Repr

/-- The 12 header bytes written into `Data[0 .. 11]` (lines 175-200).

`SeqBig` is a `uint16_t`. In `SeqBig = ChangeEndianess(SeqBig)` the overloads are
`ChangeEndianess(short)` and `ChangeEndianess(int)`; `uint16_t → int` is an
integral promotion and `uint16_t → short` an integral conversion, so overload
resolution picks `ChangeEndianess(int)`, and the `int` it returns is narrowed
back to `uint16_t`. -/
def rtpHeader (h : Host) (Seq Timestamp SSRC : Nat) : List Nat :=
  let SeqBig := if IsLittleEndian h then ChangeEndianess_int Seq % 2 ^ 16 else Seq
  let TimestampBig := if IsLittleEndian h then ChangeEndianess_int Timestamp else Timestamp
  let SSRCBig := if IsLittleEndian h then ChangeEndianess_int SSRC else SSRC
  [0x80, 0x78] ++ objectBytes h 2 SeqBig ++ objectBytes h 4 TimestampBig
    ++ objectBytes h 4 SSRCBig

/-- The `n` bytes of `Data` behind the header: a zero-filled string that
`crypto_secretbox_easy` overwrites from its start. -/
def boxBytes (n : Nat) (cipher : List Nat) : List Nat :=
  (cipher ++ List.replicate n 0).take n

/-- The datagram of one pass whose encode succeeded (lines 173-208); `Seq` is the
value after `++Seq`. -/
def buildFrame (h : Host) (SSRC Seq Timestamp Ret : Nat) (OpusSize : Int)
    (cipher : List Nat) : Frame :=
  { Seq := Seq, Timestamp := Timestamp, Ret := Ret,
    Data := rtpHeader h Seq Timestamp SSRC
      ++ boxBytes (OpusSize.toNat + crypto_secretbox_MACBYTES) cipher }

/-- The loop `while (!m_Stop) { ... }` of `Playback` (lines 161-243), started
with the given `Seq` and `Timestamp`. Every element of the list is one pass made
with `m_Stop` clear; when the list is used up the loop condition finds `m_Stop`
set. The result is the datagrams sent, in order, and the way the loop ended.
`Seq` is a `uint16_t`, so `++Seq` wraps at `2 ^ 16`; `Timestamp += Ret` adds a
`uint32_t` to an `int`, which wraps at `2 ^ 32`. -/
def PlaybackLoop (h : Host) (SSRC : Nat) : Nat → Nat → List Iteration → List Frame × LoopExit
  | _, _, [] => ([], LoopExit.stopped)
  | Seq, Timestamp, Iteration.paused :: rest => PlaybackLoop h SSRC Seq Timestamp rest
  | Seq, Timestamp, Iteration.read Ret0 OpusSize cipher :: rest =>
    let Ret := Ret0 % 2 ^ 32
    if OpusSize > 0 then
      let Seq1 := (Seq + 1) % 2 ^ 16
      let frame := buildFrame h SSRC Seq1 Timestamp Ret OpusSize cipher
      let Timestamp1 := (Timestamp + Ret) % 2 ^ 32
      if Ret < Size / 2 then
        ([frame], LoopExit.finished)
      else
        let r := PlaybackLoop h SSRC Seq1 Timestamp1 rest
        (frame :: r.1, r.2)
    else
      ([], LoopExit.encodeError)

/-- One run of the loop as `Playback` enters it: `uint16_t Seq = 0;` and
`int Timestamp = 0;`. -/
def PlaybackRun (h : Host) (SSRC : Nat) (its : List Iteration) : List Frame × LoopExit :=
  PlaybackLoop h SSRC 0 0 its

/-- Bytes 2-3 of a datagram: the RTP sequence number field. -/
def seqField (f : Frame) : List Nat := (f.Data.drop 2).take 2

/-- Bytes 4-7 of a datagram: the RTP timestamp field. -/
def timestampField (f : Frame) : List Nat := (f.Data.drop 4).take 4

/-- Bytes 8-11 of a datagram: the RTP SSRC field. -/
def ssrcField (f : Frame) : List Nat := (f.Data.drop 8).take 4

/-- The value a list of bytes denotes when read most significant byte first. -/
def beValue (bs : List Nat) : Nat := bs.foldl (fun acc b => acc * 256 + b) 0

/-! ## The voice socket (`VoiceSocket.cpp`) -/

/-- What the libraries `Playback` initialises answer on this machine. -/
structure Runtime where
  host : Host
  /-- Result of `sodium_init()`. -/
  sodium_init : Int
  /-- The `err` that `opus_encoder_create` stores. -/
  opus_err : Int
deriving DecidableEq, Repr

/-- The type `AudioSource` is a `std::shared_ptr`: `none` is the null handle, `some n`
the source object number `n`. -/
abbrev AudioSource := Option Nat

namespace CVoiceSocket

/-- Modelled from the spec: the enum `CVoiceSocket::OPCodes` is declared in
`VoiceSocket.hpp`, which is not part of the sources; section 4.2 of the spec
lists its members (`SESSION_DESCIPTION` is spelled as the code spells it). -/
inductive OPCodes where
  | IDENTIFY | SELECT_PROTOCOL | READY | HEARTBEAT | SESSION_DESCIPTION
  | SPEAKING | HEARTBEAT_ACK | RESUME | HELLO | RESUMED
deriving DecidableEq, Repr

/-- The `d` member of an outgoing payload, before it is serialised. -/
inductive Payload where
  /-- From `SetSpeaking`: `{speaking, delay, ssrc}`. -/
  | speaking (speaking delay ssrc : Nat)
  /-- The receiver thread: `address`, `port`, `mode`, `protocol` and the nested
  `data` object built from the first three. -/
  | selectProtocol (address : List Nat) (port : Int) (mode protocol : String)
  /-- From `HELLO`, first connect: `{server_id, session_id, token, user_id}`. -/
  | identify (server_id session_id token user_id : String)
  /-- From `HELLO`, reconnect: `{server_id, session_id, token}`. -/
  | resume (server_id session_id token : String)
  /-- From `Heartbeat`: the literal string passed as `D`. -/
  | heartbeat (d : String)
deriving DecidableEq, Repr

/-- The calls the voice socket makes on its collaborators. -/
inductive Action where
  /-- The call `m_Socket.send(json.Serialize(Pay))` in `SendOP`. -/
  | SendOP (OP : OPCodes) (D : Payload)
  /-- The call `m_UDPSocket.init(ip, port, errmsg)`. -/
  | udpInit (ip : String) (port : Int)
  /-- The call `m_UDPSocket.sendto(Data)`. -/
  | sendto (Data : List Nat)
  /-- The call `m_Playback = std::thread(&CVoiceSocket::Playback, this)`. -/
  | startPlayback
  /-- The call `m_Playback.join()`. -/
  | joinPlayback
  /-- The detached receiver thread of the `READY` handler. -/
  | startReceiver
  /-- The call `m_Heartbeat = std::thread(&CVoiceSocket::Heartbeat, this)`. -/
  | startHeartbeat
  /-- The call `m_Heartbeat.join()`. -/
  | joinHeartbeat
  /-- The call `m_Socket.start()`. -/
  | socketStart
  /-- The call `m_Socket.close()`. -/
  | socketClose
  /-- The call `m_Callback(m_GuildID)`. -/
  | Callback (GuildID : String)
  /-- The call `std::this_thread::sleep_for(std::chrono::milliseconds(ms))`. -/
  | sleep (ms : Nat)
deriving DecidableEq, Repr

/-- The `std::thread m_Playback` member. -/
inductive Thread where
  /-- No thread: `joinable()` is false. -/
  | idle
  /-- Created by `StartSpeaking`; its body has not been executed yet. -/
  | started
  /-- Its body has returned; it is still joinable. -/
  | finished
deriving DecidableEq, Repr

end CVoiceSocket

/-- The members of `CVoiceSocket` and the log of its calls. -/
structure CVoiceSocket where
  m_Token : String
  m_GuildID : String
  m_SessionID : String
  m_ClientID : String
  m_Url : String
  m_Terminate : Bool
  m_HeartACKReceived : Bool
  m_LastSeqNum : Int
  m_Stop : Bool
  m_Reconnect : Bool
  m_Pause : Bool
  m_SecKey : List Nat
  m_Source : AudioSource
  m_SSRC : Nat
  m_HeartbeatInterval : Nat
  m_Playback : CVoiceSocket.Thread
  /-- The value of `m_Heartbeat.joinable()`. -/
  m_Heartbeat : Bool
  /-- Number of detached receiver threads still waiting for a datagram. -/
  receivers : Nat
  log : List CVoiceSocket.Action
deriving DecidableEq, Repr

namespace CVoiceSocket

/-- The fields of the JSON object the constructor reads. -/
structure ServerUpdate where
  token : String
  guild_id : String
  endpoint : String
deriving DecidableEq, Repr

/-- The members the constructor leaves without an initial value. -/
structure Indeterminate where
  m_Pause : Bool
  m_SSRC : Nat
  m_HeartbeatInterval : Nat
deriving DecidableEq, Repr

/-- The constructor `CVoiceSocket::CVoiceSocket` (lines 54-68). `m_SecKey` is an
empty vector and `m_Source` a null handle by default construction. -/
def create (json : ServerUpdate) (SessionID ClientID : String) (u : Indeterminate) :
    CVoiceSocket :=
  { m_Token := json.token, m_GuildID := json.guild_id, m_SessionID := SessionID,
    m_ClientID := ClientID,
    m_Url := "wss://" ++ String.mk (json.endpoint.toList.takeWhile (fun ch => ch != ':')) ++ "/?v=4",
    m_Terminate := false, m_HeartACKReceived := false, m_LastSeqNum := -1, m_Stop := true,
    m_Reconnect := false, m_Pause := u.m_Pause, m_SecKey := [], m_Source := none,
    m_SSRC := u.m_SSRC, m_HeartbeatInterval := u.m_HeartbeatInterval,
    m_Playback := Thread.idle, m_Heartbeat := false, receivers := 0,
    log := [Action.socketStart] }

/-- Append one call to the log. -/
def emit (s : CVoiceSocket) (a : Action) : CVoiceSocket :=
  { s with log := s.log ++ [a] }

/-- The function `SendOP` (lines 258-273); serialising the payload is taken to succeed. -/
def SendOP (s : CVoiceSocket) (OP : OPCodes) (D : Payload) : CVoiceSocket :=
  s.emit (Action.SendOP OP D)

/-- The function `SetSpeaking` (lines 113-126). -/
def SetSpeaking (s : CVoiceSocket) (Speak : Bool) : CVoiceSocket :=
  s.SendOP OPCodes.SPEAKING (Payload.speaking (if Speak then 5 else 0) 0 s.m_SSRC)

/-- The body of the playback thread, `Playback` (lines 128-253). The passes of
the loop are `its`; a thread that finds `m_Stop` already set makes none. Every
pass that is not paused calls `m_Source->OnRead` (line 169) and nothing tests
the handle: the result is `none` when such a pass is made with a null
`m_Source`. -/
def Playback (rt : Runtime) (s : CVoiceSocket) (its : List Iteration) : Option CVoiceSocket :=
  if rt.sodium_init < 0 then
    some { s with m_Playback := Thread.finished }
  else if rt.opus_err ≠ 0 then
    some { s with m_Playback := Thread.finished }
  else
    let passes := if s.m_Stop then [] else its
    if s.m_Source.isNone && passes.any (fun it => it != Iteration.paused) then none
    else
      let run := PlaybackRun rt.host s.m_SSRC passes
      let s1 := { s with log := s.log ++ run.1.map fun (f : Frame) => Action.sendto f.Data }
      let s2 := s1.SetSpeaking false
      let s3 := s2.emit (Action.Callback s2.m_GuildID)
      some { s3 with m_Source := none, m_Playback := Thread.finished }

/-- The function `StopSpeaking` (lines 103-111). Joining a thread whose body has
not run yet lets it run first; it finds `m_Stop` set, makes no pass and so
reads from no source. -/
def StopSpeaking (rt : Runtime) (s : CVoiceSocket) : CVoiceSocket :=
  let s1 := { s with m_Stop := true }
  let s2 :=
    match s1.m_Playback with
    | Thread.idle => s1
    | Thread.started =>
      match Playback rt s1 [] with
      | some t => { t.emit Action.joinPlayback with m_Playback := Thread.idle }
      | none => s1
    | Thread.finished => { s1.emit Action.joinPlayback with m_Playback := Thread.idle }
  let s3 := s2.SetSpeaking false
  { s3 with m_Source := none }

/-- The function `StartSpeaking` (lines 70-89). -/
def StartSpeaking (rt : Runtime) (s : CVoiceSocket) (Source : AudioSource) : CVoiceSocket :=
  if s.m_SecKey.isEmpty then
    { s with m_Source := Source }
  else
    let s1 := if !s.m_Stop then StopSpeaking rt s else s
    let s2 := { s1 with m_Pause := false, m_Stop := false, m_Source := Source }
    let s3 := s2.SetSpeaking true
    let s4 := s3.emit (Action.sleep 100)
    { s4.emit Action.startPlayback with m_Playback := Thread.started }

/-- The function `PauseSpeaking` (lines 91-95). -/
def PauseSpeaking (s : CVoiceSocket) : CVoiceSocket :=
  ({ s with m_Pause := true }).SetSpeaking true

/-- The function `ResumeSpeaking` (lines 97-101). -/
def ResumeSpeaking (s : CVoiceSocket) : CVoiceSocket :=
  { s.SetSpeaking true with m_Pause := false }

/-- The IP discovery request of the `READY` handler (lines 331-343). -/
def discoveryPacket (h : Host) (m_SSRC : Nat) : List Nat :=
  let Packet := List.replicate 74 0
  let Packet := Packet.set 1 0x1
  let Packet := Packet.set 3 70
  let SSRCBig := if IsLittleEndian h then ChangeEndianess_int m_SSRC else m_SSRC
  let SSRC := objectBytes h 4 SSRCBig
  (List.range 4).foldl (fun P i => P.set (i + 4) (SSRC.getD i 0)) Packet

/-- The value of a `short` assigned from an `int` with the given bit pattern. -/
def toShort (v : Nat) : Int :=
  if v % 2 ^ 16 < 2 ^ 15 then (v % 2 ^ 16 : Nat) else ((v % 2 ^ 16 : Nat) : Int) - 2 ^ 16

/-- The 74 bytes of the receive buffer `Data` after `recvfrom`: the vector is
created with `sizeof(Packet)` zero bytes and the datagram is written over it. -/
def receiveBuffer (datagram : List Nat) : List Nat :=
  ((datagram.map fun b => b % 256) ++ List.replicate 74 0).take 74

/-- The external address read from the reply (lines 355-362): the bytes from
offset 8 up to the first zero byte. -/
def discoveryIP (Data : List Nat) : List Nat :=
  (Data.drop 8).takeWhile fun b => b != 0

/-- The external port read from the reply (lines 364-371):
`for (size_t i = 72; i < Data.size(); i++) { Port = (Data[i] << Shift); Shift -= Shift; }`
with `short Port; char Shift = 8;`. -/
def discoveryPort (Data : List Nat) : Int :=
  (((List.range (Data.length - 72)).map fun k => k + 72).foldl
    (fun (st : Int × Nat) i => (toShort (Data.getD i 0 <<< st.2), st.2 - st.2))
    ((0 : Int), 8)).1

/-- One wake-up of a receiver thread (lines 350-390): `recvfrom` returned `Ret`
after storing `datagram`; `waitNeeded` is `m_UDPSocket.isWaitNeeded()`. -/
def Receive (s : CVoiceSocket) (Ret : Int) (waitNeeded : Bool) (datagram : List Nat) :
    CVoiceSocket :=
  if s.receivers = 0 then s
  else if Ret > 0 then
    let Data := receiveBuffer datagram
    let s1 := s.SendOP OPCodes.SELECT_PROTOCOL
      (Payload.selectProtocol (discoveryIP Data) (discoveryPort Data) "xsalsa20_poly1305" "udp")
    { s1 with receivers := s1.receivers - 1 }
  else if Ret < 0 && waitNeeded then
    s.emit (Action.sleep 1)
  else if Ret < 0 then
    { s with receivers := s.receivers - 1 }
  else s

/-- The fields the `READY` handler reads from `d`. -/
structure ReadyJson where
  ssrc : Nat
  ip : String
  port : Int
deriving DecidableEq, Repr

/-- A text frame as `OnWebsocketEvent` sees it after the JSON codec has run. For
the `d` of an opcode `none` says that parsing it raised `CJSONException`. -/
inductive Message where
  /-- The call `json.Deserialize<SPayload>` raised. -/
  | malformed
  | SESSION_DESCIPTION (secret_key : Option (List Nat))
  /-- With `d` goes the answer of `m_UDPSocket.init`. -/
  | READY (d : Option ReadyJson) (udpInit : Bool)
  | RESUMED
  | HELLO (heartbeat_interval : Option Nat)
  | HEARTBEAT_ACK
  /-- Any opcode without a `case`. -/
  | other
deriving DecidableEq, Repr

/-- The handler `OnWebsocketEvent`, `case ix::WebSocketMessageType::Message` (lines 290-449).
An exception that no handler catches ends the call where it is raised. -/
def OnMessage (rt : Runtime) (s : CVoiceSocket) : Message → CVoiceSocket
  | Message.malformed => s
  | Message.SESSION_DESCIPTION none => s
  | Message.SESSION_DESCIPTION (some key) =>
    let s1 := { s with m_SecKey := key.map fun b => b % 256 }
    if s1.m_Source.isSome then StartSpeaking rt s1 s1.m_Source else s1
  | Message.READY none _ => s
  | Message.READY (some d) udpInit =>
    let s1 := { s with m_SSRC := d.ssrc % 2 ^ 32 }
    let s2 := s1.emit (Action.udpInit d.ip d.port)
    if !udpInit then s2
    else
      let s3 := s2.emit (Action.sendto (discoveryPacket rt.host s2.m_SSRC))
      { s3.emit Action.startReceiver with receivers := s3.receivers + 1 }
  | Message.RESUMED => s
  | Message.HELLO none => s
  | Message.HELLO (some interval) =>
    let s1 := { s with m_HeartbeatInterval := interval % 2 ^ 32 }
    let s2 :=
      if !s1.m_Reconnect then
        s1.SendOP OPCodes.IDENTIFY
          (Payload.identify s1.m_GuildID s1.m_SessionID s1.m_Token s1.m_ClientID)
      else
        ({ s1 with m_Reconnect := false }).SendOP OPCodes.RESUME
          (Payload.resume s1.m_GuildID s1.m_SessionID s1.m_Token)
    let s3 := { s2 with m_HeartACKReceived := true, m_Terminate := false }
    let s4 := if s3.m_Heartbeat then s3.emit Action.joinHeartbeat else s3
    { s4.emit Action.startHeartbeat with m_Heartbeat := true }
  | Message.HEARTBEAT_ACK => { s with m_HeartACKReceived := true }
  | Message.other => s

/-- One pass of the loop of `Heartbeat` (lines 456-475) by the heartbeat thread. -/
def Heartbeat (s : CVoiceSocket) : CVoiceSocket :=
  if !s.m_Heartbeat || s.m_Terminate then s
  else if !s.m_HeartACKReceived then
    let s1 := { s with m_Reconnect := true }
    let s2 := (s1.emit Action.socketClose).emit Action.socketStart
    { s2 with m_Terminate := true }
  else
    let s1 := s.SendOP OPCodes.HEARTBEAT (Payload.heartbeat "5")
    let s2 := { s1 with m_HeartACKReceived := false }
    s2.emit (Action.sleep s2.m_HeartbeatInterval)

/-- Whether the object holds a joinable `std::thread`. The destructor
`CVoiceSocket::~CVoiceSocket` (lines 477-480) is empty, so the members
`m_Heartbeat` and `m_Playback` are destroyed as they are, and the destructor of
a joinable `std::thread` calls `std::terminate`: a socket for which this is
`true` cannot be destroyed without ending the process. -/
def joinable (s : CVoiceSocket) : Bool :=
  s.m_Heartbeat || s.m_Playback != Thread.idle

/-- What can happen to a voice socket: calls of its public functions, websocket
events and the progress of its own threads. -/
inductive Event where
  | StartSpeaking (Source : AudioSource)
  | PauseSpeaking
  | ResumeSpeaking
  | StopSpeaking
  /-- The handler `OnWebsocketEvent` with a message of type `Message`. -/
  | Message (m : Message)
  /-- The handler `OnWebsocketEvent` with a message of type `Close`. -/
  | Close
  /-- The handler `OnWebsocketEvent` with a message of type `Error`. -/
  | Error
  /-- The playback thread created by `StartSpeaking` executes `Playback`. -/
  | Playback (its : List Iteration)
  /-- A receiver thread returns from `recvfrom`. -/
  | Receive (Ret : Int) (waitNeeded : Bool) (datagram : List Nat)
  /-- The heartbeat thread makes one pass of its loop. -/
  | Heartbeat
deriving DecidableEq, Repr

/-- The effect of one event on the voice socket; `none` when the event ends
in the dereference of a null handle. -/
def step (rt : Runtime) (s : CVoiceSocket) : Event → Option CVoiceSocket
  | Event.StartSpeaking Source => some (StartSpeaking rt s Source)
  | Event.PauseSpeaking => some (PauseSpeaking s)
  | Event.ResumeSpeaking => some (ResumeSpeaking s)
  | Event.StopSpeaking => some (StopSpeaking rt s)
  | Event.Message m => some (OnMessage rt s m)
  | Event.Close => some { s with m_Terminate := true }
  | Event.Error => some s
  | Event.Playback its =>
    match s.m_Playback with
    | Thread.started => Playback rt s its
    | _ => some s
  | Event.Receive Ret waitNeeded datagram => some (Receive s Ret waitNeeded datagram)
  | Event.Heartbeat => some (Heartbeat s)

/-- The voice socket after a sequence of events; an event that does not return
ends the sequence. -/
def run (rt : Runtime) (s : CVoiceSocket) : List Event → Option CVoiceSocket
  | [] => some s
  | e :: rest =>
    match step rt s e with
    | some t => run rt t rest
    | none => none

/-- The audio datagrams in the log: what `Playback` passed to `sendto`. Their
first byte is the RTP version byte `0x80`; the discovery request starts with 0. -/
def audioDatagrams (s : CVoiceSocket) : List (List Nat) :=
  s.log.filterMap fun a =>
    match a with
    | Action.sendto Data => if Data.head? = some 0x80 then some Data else none
    | _ => none

/-- How many times the log records the creation of a playback thread. -/
def playbackStarts (s : CVoiceSocket) : Nat :=
  s.log.count Action.startPlayback

end CVoiceSocket

/-! ### Concrete voice sockets used as test inputs -/

/-- A big-endian machine on which libsodium and Opus initialise. -/
def bigEndianRuntime : Runtime := ⟨⟨false⟩, 0, 0⟩

/-- A little-endian machine on which libsodium and Opus initialise. -/
def littleEndianRuntime : Runtime := ⟨⟨true⟩, 0, 0⟩

/-- A freshly constructed voice socket. -/
def freshSocket : CVoiceSocket :=
  CVoiceSocket.create ⟨"token", "guild", "voice.example:443"⟩ "session" "bot" ⟨false, 1, 0⟩

/-- The voice socket after the `HELLO` of its gateway: it has identified and its
heartbeat thread is running. -/
def connectedSocket : CVoiceSocket :=
  CVoiceSocket.OnMessage littleEndianRuntime freshSocket (CVoiceSocket.Message.HELLO (some 41250))

/-- A run of two full frames: the key arrives, a source is started and read
twice before it is stopped. -/
def twoFrames : List CVoiceSocket.Event :=
  [ CVoiceSocket.Event.Message (CVoiceSocket.Message.SESSION_DESCIPTION (some [7])),
    CVoiceSocket.Event.StartSpeaking (some 1),
    CVoiceSocket.Event.Playback [Iteration.read 960 1 [], Iteration.read 960 1 []] ]

/-- A session in which a short source is played twice: the key arrives, a source
is started and read to its end, then a second source is started and read. -/
def twoRuns : List CVoiceSocket.Event :=
  [ CVoiceSocket.Event.Message (CVoiceSocket.Message.SESSION_DESCIPTION (some [7])),
    CVoiceSocket.Event.StartSpeaking (some 1),
    CVoiceSocket.Event.Playback [Iteration.read 480 1 []],
    CVoiceSocket.Event.StartSpeaking (some 2),
    CVoiceSocket.Event.Playback [Iteration.read 480 1 []] ]

/-! ## The gateway client (`DiscordClient.cpp`) -/

/-- A `std::map<std::string, V>`: the value stored under each key, if any. -/
abbrev Map (V : Type) := String → Option V

namespace Map

/-- The empty map, also the result of `clear()`. -/
def empty {V : Type} : Map V := fun _ => none

/-- The call `m.find(k)`: `none` stands for `m.end()`. -/
def find {V : Type} (m : Map V) (k : String) : Option V := m k

/-- The assignment `m[k] = v`. -/
def insert {V : Type} (m : Map V) (k : String) (v : V) : Map V :=
  fun x => if x = k then some v else m x

/-- The call `m.erase(it)` for the iterator at key `k`. -/
def erase {V : Type} (m : Map V) (k : String) : Map V :=
  fun x => if x = k then none else m x

end Map

/-- A `std::map<std::string, V>` whose elements are looked at one by one (`clear()`
destroys every element): the entries, at most one for a key when built with the
functions below. -/
structure Table (V : Type) where
  entries : List (String × V)
deriving DecidableEq, Repr

namespace Table

/-- The empty map, also the result of `clear()`. -/
def empty {V : Type} : Table V := ⟨[]⟩

/-- The call `m.find(k)`: `none` stands for `m.end()`. -/
def find {V : Type} (m : Table V) (k : String) : Option V := m.entries.lookup k

/-- The call `m.erase(it)` for the iterator at key `k`. -/
def erase {V : Type} (m : Table V) (k : String) : Table V :=
  ⟨m.entries.filter fun e => e.1 != k⟩

/-- The assignment `m[k] = v`. -/
def insert {V : Type} (m : Table V) (k : String) (v : V) : Table V :=
  ⟨(k, v) :: (m.erase k).entries⟩

/-- The elements of the map. -/
def values {V : Type} (m : Table V) : List V := m.entries.map Prod.snd

end Table

/-- The members of `CUser` that `CreateUser` fills. `handle` numbers the object
created by `new CUser()`: two values with the same `handle` are one instance. -/
structure CUser where
  handle : Nat
  ID : String
  Username : String
  Discriminator : String
  Avatar : String
  Bot : Bool
  System : Bool
  MFAEnabled : Bool
  Locale : String
  Verified : Bool
  Email : String
  Flags : Int
  PremiumType : Int
  PublicFlags : Int
deriving DecidableEq, Repr

abbrev User := Option CUser

/-- The members of `CPermissionOverwrites`; `Type_` is the member `Type`. -/
structure CPermissionOverwrites where
  ID : String
  Type_ : String
  Allow : Int
  Deny : Int
deriving DecidableEq, Repr

/-- The members of `CChannel` that `CreateChannel` fills; `Type_` is the member
`Type`, the number of a `ChannelTypes` value. -/
structure CChannel where
  ID : String
  Type_ : Int
  GuildID : String
  Position : Int
  Overwrites : List CPermissionOverwrites
  Name : String
  Topic : String
  NSFW : Bool
  LastMessageID : String
  Bitrate : Int
  UserLimit : Int
  RateLimit : Int
  Recipients : List User
  Icon : String
  OwnerID : String
  AppID : String
  ParentID : String
  LastPinTimestamp : String
deriving DecidableEq, Repr

abbrev Channel := Option CChannel

/-- The members of `CVoiceState`. `GuildRef` points at a guild object, which in
turn holds the member that holds this state; the embedding keeps the `ID` of
the guild pointed at. -/
structure CVoiceState where
  GuildRef : Option String
  UserRef : User
  ChannelRef : Channel
  SessionID : String
  Deaf : Bool
  Mute : Bool
  SelfDeaf : Bool
  SelfMute : Bool
  SelfStream : Bool
  Supress : Bool
deriving DecidableEq, Repr

abbrev VoiceState := Option CVoiceState

/-- The members of `CGuildMember` (`models/GuildMember.hpp`). -/
structure CGuildMember where
  GuildID : String
  UserRef : User
  Nick : String
  Roles : List String
  JoinedAt : String
  PremiumSince : String
  Deaf : Bool
  Mute : Bool
  State : VoiceState
deriving DecidableEq, Repr

abbrev GuildMember := Option CGuildMember

/-- The members of `CGuild` the client uses. -/
structure CGuild where
  ID : String
  Name : String
  Channels : Map CChannel
  Members : Map CGuildMember

abbrev Guild := Option CGuild

/-- The members of `CMessage` that `CreateMessage` fills. `GuildRef` points at a
guild object; the embedding keeps the `ID` of the guild pointed at. -/
structure CMessage where
  ID : String
  ChannelRef : Channel
  GuildRef : Option String
  Author : User
  Member : GuildMember
  Content : String
  Timestamp : String
  EditedTimestamp : String
  Mention : Bool
  Mentions : List GuildMember
deriving DecidableEq, Repr

abbrev Message := Option CMessage

/-! ### JSON objects as the codec hands them over

`CJSON::GetValue` is called for every key the code reads; a structure below
holds the values it returned for one object. The codec answers an absent or
null key with the default value of the type asked for: the empty string, `0`,
`false`, the empty vector. -/

/-- A nested object: the string `GetValue<std::string>` returned for it and the
outcome of `ParseObject` on that string. -/
inductive Nested (α : Type) where
  /-- The string is empty. -/
  | absent
  /-- The call `ParseObject` raised `CJSONException`. -/
  | malformed
  | value (a : α)
deriving DecidableEq, Repr

structure UserJson where
  id : String
  username : String
  discriminator : String
  avatar : String
  bot : Bool
  system : Bool
  mfa_enabled : Bool
  locale : String
  verified : Bool
  email : String
  flags : Int
  premium_type : Int
  public_flags : Int
deriving DecidableEq, Repr

structure MemberJson where
  user : Nested UserJson
  nick : String
  roles : List String
  joined_at : String
  premium_since : String
  deaf : Bool
  mute : Bool
deriving DecidableEq, Repr

/-- The `d` of a voice state. `channel_id` is the empty string when the payload
has `"channel_id": null`. `member` is `none` when `JMember.ParseObject` raised
for the string found under `"member"`. -/
structure VoiceStateJson where
  guild_id : String
  user_id : String
  channel_id : String
  member : Option MemberJson
  session_id : String
  deaf : Bool
  mute : Bool
  self_deaf : Bool
  self_mute : Bool
  self_stream : Bool
  suppress : Bool
deriving DecidableEq, Repr

namespace CDiscordClient

/-- Modelled from the spec: the enum `CDiscordClient::OPCodes` is declared in
`DiscordClient.hpp`, which is not part of the sources; section 4.1 of the spec
gives the members used and their numbers. -/
inductive OPCodes where
  | DISPATCH | HEARTBEAT | IDENTIFY | VOICE_STATE_UPDATE | RESUME | HELLO | HEARTBEAT_ACK
deriving DecidableEq, Repr

/-- Modelled from the spec: `(uint32_t)OP`, the number put into `Pay.OP`. -/
def OPCodes.toNat : OPCodes → Nat
  | OPCodes.DISPATCH => 0
  | OPCodes.HEARTBEAT => 1
  | OPCodes.IDENTIFY => 2
  | OPCodes.VOICE_STATE_UPDATE => 4
  | OPCodes.RESUME => 6
  | OPCodes.HELLO => 10
  | OPCodes.HEARTBEAT_ACK => 11

/-- Modelled from the spec: the enum `Intent` is declared in a header that is
not part of the sources; scenario 1 of the spec gives the four values used,
`GUILDS = 1`, `GUILD_VOICE_STATES = 128`, `GUILD_MESSAGES = 512` and
`DIRECT_MESSAGES = 4096`. -/
inductive Intent where
  | GUILDS | GUILD_VOICE_STATES | GUILD_MESSAGES | DIRECT_MESSAGES
deriving DecidableEq, Repr

/-- Modelled from the spec: the bit of each `Intent`. -/
def Intent.bits : Intent → Nat
  | Intent.GUILDS => 1
  | Intent.GUILD_VOICE_STATES => 128
  | Intent.GUILD_MESSAGES => 512
  | Intent.DIRECT_MESSAGES => 4096

/-- The structure `SIdentify`; `Properties` lists the entries assigned, in program order. -/
structure SIdentify where
  Token : String
  Properties : List (String × String)
  Intents : Nat
deriving DecidableEq, Repr

structure SResume where
  Token : String
  SessionID : String
  Seq : Int
deriving DecidableEq, Repr

/-- The `d` member of an outgoing payload, before it is serialised. -/
inductive Payload where
  | identify (id : SIdentify)
  | resume (resume : SResume)
  /-- From `Heartbeat`: the string passed as `D`. -/
  | heartbeat (D : String)
  /-- From `Join` and `Leave`: `{guild_id, channel_id, self_mute, self_deaf}`. -/
  | voiceState (guild_id : String) (channel_id : Option String) (self_mute self_deaf : Bool)
deriving DecidableEq, Repr

/-- The calls the client makes on its socket, its threads and the controller. -/
inductive Action where
  /-- The call `m_Socket.send(json.Serialize(Pay))` in `SendOP`. -/
  | SendOP (OP : OPCodes) (D : Payload)
  | socketStart
  | socketClose
  /-- The call `m_Heartbeat = std::thread(&CDiscordClient::Heartbeat, this)`. -/
  | startHeartbeat
  /-- The call `m_Heartbeat.join()`. -/
  | joinHeartbeat
  | OnReady
  | OnResume
  | OnMessage (msg : CMessage)
  | OnVoiceStateUpdate (Member : CGuildMember)
  | OnEndSpeaking (GuildID : String)
  | OnDisconnect
  | OnQuit
  /-- The call `http.post(BASE_URL + path, json.Serialize(), args)` in
  `SendMessage`, with the `Authorization` header and the pairs of the body. -/
  | post (path Authorization content : String) (tts : Bool)
deriving DecidableEq, Repr

end CDiscordClient

/-- The members of `CDiscordClient` and the log of its calls. `m_Controller`
says whether a controller is registered; `allocated` counts the `CUser`
objects created so far and numbers the next one. -/
structure CDiscordClient where
  m_Token : String
  m_SessionID : String
  m_LastSeqNum : Int
  m_HeartbeatInterval : Nat
  m_HeartACKReceived : Bool
  m_Terminate : Bool
  m_Quit : Bool
  m_Controller : Bool
  m_BotUser : User
  m_Users : Map CUser
  m_Guilds : Map CGuild
  m_VoiceSockets : Table CVoiceSocket
  m_AudioSources : Map AudioSource
  /-- The value of `m_Heartbeat.joinable()`. -/
  m_Heartbeat : Bool
  /-- Whether the function `Heartbeat` run by the thread `m_Heartbeat` has
  returned; it says nothing while there is no such thread. -/
  heartbeatReturned : Bool := false
  allocated : Nat
  log : List CDiscordClient.Action

/-- How a call ends: it returns; or a `CJSONException` leaves it (with the client
as it is at that moment); or it dereferences a null handle; or it destroys a
joinable `std::thread`, for which the thread's destructor calls `std::terminate`
and ends the process (with the client as it is at that moment). -/
inductive Outcome (α : Type) where
  | returned (a : α)
  | raised (s : CDiscordClient)
  | crashed
  | terminated (s : CDiscordClient)

namespace CDiscordClient

/-- Append one call to the log. -/
def emit (s : CDiscordClient) (a : Action) : CDiscordClient :=
  { s with log := s.log ++ [a] }

/-- The function `SendOP` (lines 484-499); serialising the payload is taken to succeed. -/
def SendOP (s : CDiscordClient) (OP : OPCodes) (D : Payload) : CDiscordClient :=
  s.emit (Action.SendOP OP D)

/-- The function `SendIdentity` (lines 504-515). -/
def SendIdentity (s : CDiscordClient) : CDiscordClient :=
  let id : SIdentify :=
    { Token := s.m_Token,
      Properties := [("$os", "linux"), ("$browser", "linux"), ("$device", "linux")],
      Intents := Intent.GUILDS.bits ||| Intent.GUILD_VOICE_STATES.bits
        ||| Intent.GUILD_MESSAGES.bits ||| Intent.DIRECT_MESSAGES.bits }
  s.SendOP OPCodes.IDENTIFY (Payload.identify id)

/-- The function `SendResume` (lines 520-529). -/
def SendResume (s : CDiscordClient) : CDiscordClient :=
  let resume : SResume :=
    { Token := s.m_Token, SessionID := s.m_SessionID, Seq := s.m_LastSeqNum }
  s.SendOP OPCodes.RESUME (Payload.resume resume)

/-- The function `CreateUser` (lines 544-565). -/
def CreateUser (s : CDiscordClient) (json : UserJson) : CDiscordClient × CUser :=
  let Ret : CUser :=
    { handle := s.allocated, ID := json.id, Username := json.username,
      Discriminator := json.discriminator, Avatar := json.avatar, Bot := json.bot,
      System := json.system, MFAEnabled := json.mfa_enabled, Locale := json.locale,
      Verified := json.verified, Email := json.email, Flags := json.flags,
      PremiumType := json.premium_type, PublicFlags := json.public_flags }
  ({ s with allocated := s.allocated + 1, m_Users := s.m_Users.insert Ret.ID Ret }, Ret)

/-- The function `CreateMember` (lines 567-595). The result is `none` when
`user.ParseObject(UserInfo)` raised; nothing has been changed by then. -/
def CreateMember (s : CDiscordClient) (json : MemberJson) :
    Option (CDiscordClient × CGuildMember) :=
  let found : Option (CDiscordClient × User) :=
    match json.user with
    | Nested.absent => some (s, none)
    | Nested.malformed => none
    | Nested.value user =>
      match s.m_Users.find user.id with
      | some it => some (s, some it)
      | none => let r := s.CreateUser user; some (r.1, some r.2)
  match found with
  | none => none
  | some (s1, member) =>
    some (s1, { GuildID := "", UserRef := member, Nick := json.nick, Roles := json.roles,
                JoinedAt := json.joined_at, PremiumSince := json.premium_since,
                Deaf := json.deaf, Mute := json.mute, State := none })

/-- What `CreateVoiceState` leaves behind: the client, the voice state returned,
and the guild object `Ret->GuildRef` points at, as it is after the call. -/
structure VoiceStateResult where
  client : CDiscordClient
  Ret : CVoiceState
  guild : Guild

/-- Store a guild object that was changed through a pointer: a guild handed in
by the caller is not in `m_Guilds` yet, a guild found under `key` is. -/
def storeGuild (s : CDiscordClient) (handedIn : Bool) (key : String) (g : CGuild) :
    CDiscordClient :=
  if handedIn then s else { s with m_Guilds := s.m_Guilds.insert key g }

/-- The part of `CreateVoiceState` that finds or creates `Member` (lines
620-643), for the guild `g` that `Ret->GuildRef` points at. The result is `none`
when the `catch` block is entered; otherwise it holds `Member`, the key under
which `Member` is stored in `Members` (`none` when it is not stored), the
client and the guild. -/
def findMember (s : CDiscordClient) (json : VoiceStateJson) (g : CGuild) :
    Option (CGuildMember × Option String × CDiscordClient × CGuild) :=
  match g.Members.find json.user_id with
  | some m => some (m, some json.user_id, s, g)
  | none =>
    match json.member with
    | none => none
    | some JMember =>
      match s.CreateMember JMember with
      | none => none
      | some (s1, Member) =>
        match Member.UserRef with
        | some u =>
          some (Member, some u.ID, s1, { g with Members := g.Members.insert u.ID Member })
        | none => some (Member, none, s1, g)

/-- The assignment `Member->State = State` for the member found by `findMember`. -/
def setState (g : CGuild) (Member : CGuildMember) (key : Option String) (State : VoiceState) :
    CGuild :=
  match key with
  | some k => { g with Members := g.Members.insert k { Member with State := State } }
  | none => g

/-- The function `CreateVoiceState` (lines 597-664). -/
def CreateVoiceState (s : CDiscordClient) (json : VoiceStateJson) (guild : Guild) :
    VoiceStateResult :=
  let GuildRef : Guild :=
    match guild with
    | none => s.m_Guilds.find json.guild_id
    | some g => some g
  let Ret : CVoiceState :=
    { GuildRef := GuildRef.map fun g => g.ID, UserRef := s.m_Users.find json.user_id,
      ChannelRef := none, SessionID := "", Deaf := false, Mute := false, SelfDeaf := false,
      SelfMute := false, SelfStream := false, Supress := false }
  let fill (Ret : CVoiceState) : CVoiceState :=
    { Ret with SessionID := json.session_id, Deaf := json.deaf, Mute := json.mute,
               SelfDeaf := json.self_deaf, SelfMute := json.self_mute,
               SelfStream := json.self_stream, Supress := json.suppress }
  match GuildRef with
  | none => { client := s, Ret := fill Ret, guild := none }
  | some g =>
    let Ret := { Ret with ChannelRef := g.Channels.find json.channel_id }
    match s.findMember json g with
    | none => { client := s, Ret := Ret, guild := some g }
    | some (Member, key, s1, g1) =>
      if Ret.ChannelRef.isNone then
        let g2 := setState g1 Member key none
        { client := s1.storeGuild guild.isSome json.guild_id g2, Ret := Ret, guild := some g2 }
      else
        let Ret := fill Ret
        let g2 := setState g1 Member key (some Ret)
        { client := s1.storeGuild guild.isSome json.guild_id g2, Ret := Ret, guild := some g2 }

/-- The handler `OnWebsocketEvent`, `case Adler32("VOICE_STATE_UPDATE")` of a `DISPATCH`
frame with sequence number `S` (lines 258 and 339-360). The handler dereferences
`m_BotUser`. The map holds the only `std::shared_ptr` to a voice socket, so
`m_VoiceSockets.erase(IT)` destroys the socket object. -/
def VOICE_STATE_UPDATE (s : CDiscordClient) (S : Int) (json : VoiceStateJson) :
    Outcome CDiscordClient :=
  let s0 := { s with m_LastSeqNum := S }
  let r := s0.CreateVoiceState json none
  let s1 := r.client
  match s1.m_Controller, r.guild with
  | true, some GuildRef =>
    match r.Ret.UserRef with
    | none => Outcome.returned s1
    | some UserRef =>
      match s1.m_BotUser with
      | none => Outcome.crashed
      | some BotUser =>
        let erased : Outcome CDiscordClient :=
          if UserRef.ID = BotUser.ID ∧ r.Ret.ChannelRef.isNone then
            match s1.m_VoiceSockets.find GuildRef.ID with
            | some Socket =>
              if Socket.joinable then Outcome.terminated s1
              else Outcome.returned { s1 with m_VoiceSockets := s1.m_VoiceSockets.erase GuildRef.ID }
            | none => Outcome.returned s1
          else Outcome.returned s1
        match erased with
        | Outcome.returned s2 =>
          match GuildRef.Members.find UserRef.ID with
          | some Member => Outcome.returned (s2.emit (Action.OnVoiceStateUpdate Member))
          | none => Outcome.returned s2
        | o => o
  | _, _ => Outcome.returned s1

/-- The members a call leaves alone when it only touches the entity cache. -/
def SameSession (a b : CDiscordClient) : Prop :=
  a.m_Controller = b.m_Controller ∧ a.m_BotUser = b.m_BotUser ∧
  a.m_VoiceSockets = b.m_VoiceSockets ∧ a.m_LastSeqNum = b.m_LastSeqNum

/-- The payloads handed to `SendOP`, in order. -/
def sent (s : CDiscordClient) : List (OPCodes × Payload) :=
  s.log.filterMap fun a =>
    match a with
    | Action.SendOP OP D => some (OP, D)
    | _ => none

end CDiscordClient

/-! ### Concrete clients used as test inputs -/

/-- A client that has not connected yet: no session, nothing cached. -/
def newClient : CDiscordClient :=
  { m_Token := "token", m_SessionID := "", m_LastSeqNum := -1, m_HeartbeatInterval := 0,
    m_HeartACKReceived := false, m_Terminate := false, m_Quit := false, m_Controller := true,
    m_BotUser := none, m_Users := Map.empty, m_Guilds := Map.empty,
    m_VoiceSockets := Table.empty, m_AudioSources := Map.empty, m_Heartbeat := false,
    allocated := 0, log := [] }

/-- The user of the bot. -/
def botUser : CUser :=
  { handle := 0, ID := "bot", Username := "bot", Discriminator := "0001", Avatar := "",
    Bot := true, System := false, MFAEnabled := false, Locale := "", Verified := false,
    Email := "", Flags := 0, PremiumType := 0, PublicFlags := 0 }

/-- A guild whose only member is the bot and which has no channels. -/
def botGuild : CGuild :=
  { ID := "guild", Name := "guild", Channels := Map.empty,
    Members := Map.insert Map.empty "bot"
      { GuildID := "", UserRef := some botUser, Nick := "", Roles := [], JoinedAt := "",
        PremiumSince := "", Deaf := false, Mute := false, State := none } }

/-- A connected client with a voice session for `"guild"`; the arguments say
whether a controller is registered, whether the guild is cached and whether the
bot's user is cached. -/
def inVoice (controller guildCached userCached : Bool) : CDiscordClient :=
  { newClient with
    m_SessionID := "session", m_LastSeqNum := 6, m_Controller := controller,
    m_BotUser := some botUser,
    m_Users := if userCached then Map.insert Map.empty "bot" botUser else Map.empty,
    m_Guilds := if guildCached then Map.insert Map.empty "guild" botGuild else Map.empty,
    m_VoiceSockets := Table.insert Table.empty "guild" freshSocket, allocated := 1 }

/-- The client `inVoice true true true` once the voice socket of `"guild"` has
had the `HELLO` of its gateway: the socket's heartbeat thread is running. -/
def inVoiceConnected : CDiscordClient :=
  { inVoice true true true with
    m_VoiceSockets := Table.insert Table.empty "guild" connectedSocket }

/-- The `d` of the `VOICE_STATE_UPDATE` Discord sends when the bot has left its
voice channel in `"guild"`. -/
def botLeaves : VoiceStateJson :=
  { guild_id := "guild", user_id := "bot", channel_id := "", member := none,
    session_id := "session", deaf := false, mute := false, self_deaf := false,
    self_mute := false, self_stream := false, suppress := false }

/-! ## Pacing of the playback loop (`Playback`, lines 215-228)

`LastSpeachTime` is a `float`. A value of type `float` is a rational number, and
every `float` operation returns the exact result rounded to the format; the
rounding is the parameter `rnd` of the definitions below. -/

/-- The `d` of `READY`, as far as it is read; `user` is `none` when `ParseObject`
raised for the string found under `"user"`. -/
structure GatewayReadyJson where
  session_id : String
  user : Option UserJson
deriving DecidableEq, Repr

structure OverwriteJson where
  id : String
  type : String
  allow : Int
  deny : Int
deriving DecidableEq, Repr

structure ChannelJson where
  id : String
  type : Int
  guild_id : String
  position : Int
  permission_overwrites : List OverwriteJson
  name : String
  topic : String
  nsfw : Bool
  last_message_id : String
  bitrate : Int
  user_limit : Int
  rate_limit_per_user : Int
  recipients : List UserJson
  icon : String
  owner_id : String
  application_id : String
  parent_id : String
  last_pin_timestamp : String
deriving DecidableEq, Repr

/-- The `d` of `GUILD_CREATE`, as far as it is read. -/
structure GuildJson where
  id : String
  name : String
  channels : List ChannelJson
  members : List MemberJson
  voice_states : List VoiceStateJson
deriving DecidableEq, Repr

/-- The `d` of `MESSAGE_CREATE`, as far as it is read. -/
structure MessageJson where
  guild_id : String
  channel_id : String
  id : String
  author : Nested UserJson
  content : String
  timestamp : String
  edited_timestamp : String
  mention_everyone : Bool
  mentions : List UserJson
deriving DecidableEq, Repr

namespace CDiscordClient

/-- The function `Quit` (lines 175-191). `m_Terminate` is set before the join:
the heartbeat thread, if it has not returned yet, finds the flag set at its loop
condition and returns without another pass. -/
def Quit (s : CDiscordClient) : CDiscordClient :=
  let s1 := s.emit Action.socketClose
  let s2 := { s1 with m_Terminate := true }
  let s3 :=
    if s2.m_Heartbeat then
      { s2.emit Action.joinHeartbeat with m_Heartbeat := false, heartbeatReturned := false }
    else s2
  let s4 := { s3 with m_Quit := true }
  if s4.m_Controller then
    { (s4.emit Action.OnDisconnect).emit Action.OnQuit with m_Controller := false }
  else s4

/-- One pass of the loop of `Heartbeat` (lines 453-479) by the heartbeat thread,
from the loop condition to the sleep that ends the pass (the sleep is not
recorded). A thread that finds `m_Terminate` set, or that has gone through the
reconnect branch, has returned. In the reconnect branch `m_VoiceSockets.clear()`
destroys every voice socket. -/
def Heartbeat (s : CDiscordClient) : Outcome CDiscordClient :=
  if !s.m_Heartbeat || s.heartbeatReturned then Outcome.returned s
  else if s.m_Terminate then Outcome.returned { s with heartbeatReturned := true }
  else if !s.m_HeartACKReceived then
    let s1 := s.emit Action.socketClose
    let s2 := { s1 with m_Users := Map.empty, m_Guilds := Map.empty }
    if s2.m_VoiceSockets.values.any CVoiceSocket.joinable then Outcome.terminated s2
    else
      let s3 := { s2 with m_VoiceSockets := Table.empty }
      let s4 := if s3.m_Controller then s3.emit Action.OnDisconnect else s3
      let s5 := s4.emit Action.socketStart
      Outcome.returned { s5 with m_Terminate := true, heartbeatReturned := true }
  else
    let s1 := s.SendOP OPCodes.HEARTBEAT
      (Payload.heartbeat (if s.m_LastSeqNum ≠ -1 then toString s.m_LastSeqNum else ""))
    Outcome.returned { s1 with m_HeartACKReceived := false }

/-- The call `m_Heartbeat.join()` made by the handler of `HELLO` (line 436): the
handler waits until the function `Heartbeat` of the thread has returned. While
it waits no other handler runs, so no `HEARTBEAT_ACK` sets the ack flag: the
thread makes the passes that are left to it, and two passes are enough (a pass
that sends a heartbeat clears the flag, and the next pass reconnects and
returns). -/
def joinHeartbeat (s : CDiscordClient) : Outcome CDiscordClient :=
  if s.heartbeatReturned then Outcome.returned s
  else
    match Heartbeat s with
    | Outcome.returned s1 => if s1.heartbeatReturned then Outcome.returned s1 else Heartbeat s1
    | o => o

/-- The handler `OnWebsocketEvent`, `case OPCodes::HELLO` (lines 414-439).
`heartbeat_interval` is `none` when parsing `Pay.D` raised `CJSONException`.
The handler clears `m_Terminate` before it joins the thread of an earlier
connection (lines 433-436). -/
def HELLO (s : CDiscordClient) (heartbeat_interval : Option Nat) : Outcome CDiscordClient :=
  match heartbeat_interval with
  | none => Outcome.returned s
  | some interval =>
    let s1 := { s with m_HeartbeatInterval := interval % 2 ^ 32 }
    let s2 := if s1.m_SessionID.isEmpty then s1.SendIdentity else s1.SendResume
    let s3 := { s2 with m_HeartACKReceived := true, m_Terminate := false }
    let joined : Outcome CDiscordClient :=
      if s3.m_Heartbeat then
        match joinHeartbeat s3 with
        | Outcome.returned s4 => Outcome.returned (s4.emit Action.joinHeartbeat)
        | o => o
      else Outcome.returned s3
    match joined with
    | Outcome.returned s5 =>
      Outcome.returned
        { s5.emit Action.startHeartbeat with m_Heartbeat := true, heartbeatReturned := false }
    | o => o

/-- The handler `OnWebsocketEvent`, `case Adler32("INVALID_SESSION")` of a
`DISPATCH` frame with sequence number `S` and raw payload `D` (lines 258 and
402-410). -/
def INVALID_SESSION (s : CDiscordClient) (S : Int) (D : String) : CDiscordClient :=
  let s0 := { s with m_LastSeqNum := S }
  if D = "true" then s0.SendResume else s0.Quit

/-- The handler `OnWebsocketEvent`, `case Adler32("READY")` (lines 258 and
264-277). -/
def READY (s : CDiscordClient) (S : Int) (json : GatewayReadyJson) : Outcome CDiscordClient :=
  let s0 := { s with m_LastSeqNum := S }
  let s1 := { s0 with m_SessionID := json.session_id }
  match json.user with
  | none => Outcome.raised s1
  | some user =>
    let r := s1.CreateUser user
    let s2 := { r.1 with m_BotUser := some r.2 }
    Outcome.returned (if s2.m_Controller then s2.emit Action.OnReady else s2)

/-- The handler `OnWebsocketEvent`, `case Adler32("RESUMED")` (lines 258 and
394-400). -/
def RESUMED (s : CDiscordClient) (S : Int) : CDiscordClient :=
  let s0 := { s with m_LastSeqNum := S }
  if s0.m_Controller then s0.emit Action.OnResume else s0

/-- The handler `OnWebsocketEvent`, `case Adler32("GUILD_DELETE")` (lines 258 and
325-337); `id` is the value read under `"id"`. The erase destroys the voice
socket found. -/
def GUILD_DELETE (s : CDiscordClient) (S : Int) (id : String) : Outcome CDiscordClient :=
  let s0 := { s with m_LastSeqNum := S }
  let erased : Outcome CDiscordClient :=
    match s0.m_VoiceSockets.find id with
    | some Socket =>
      if Socket.joinable then Outcome.terminated s0
      else Outcome.returned { s0 with m_VoiceSockets := s0.m_VoiceSockets.erase id }
    | none => Outcome.returned s0
  match erased with
  | Outcome.returned s1 =>
    match s1.m_Guilds.find id with
    | some _ => Outcome.returned { s1 with m_Guilds := s1.m_Guilds.erase id }
    | none => Outcome.returned s1
  | o => o

/-- The handler `OnWebsocketEvent`, `case Adler32("VOICE_SERVER_UPDATE")` (lines
258 and 362-383). `u` holds the values of the members the constructor of the new
voice socket leaves unset. The handler dereferences `m_BotUser` and the `State`
of the bot's member. The assignment `m_VoiceSockets[GIT->second->ID] = Socket`
(line 373) releases the socket stored before, which is destroyed with it. -/
def VOICE_SERVER_UPDATE (rt : Runtime) (u : CVoiceSocket.Indeterminate) (s : CDiscordClient)
    (S : Int) (json : CVoiceSocket.ServerUpdate) : Outcome CDiscordClient :=
  let s0 := { s with m_LastSeqNum := S }
  match s0.m_Guilds.find json.guild_id with
  | none => Outcome.returned s0
  | some g =>
    match s0.m_BotUser with
    | none => Outcome.crashed
    | some BotUser =>
      match g.Members.find BotUser.ID with
      | none => Outcome.returned s0
      | some Member =>
        match Member.State with
        | none => Outcome.crashed
        | some State =>
          let Socket := CVoiceSocket.create json State.SessionID BotUser.ID u
          let replaced : Bool :=
            match s0.m_VoiceSockets.find g.ID with
            | some Old => Old.joinable
            | none => false
          if replaced then Outcome.terminated s0
          else
            let s1 := { s0 with m_VoiceSockets := s0.m_VoiceSockets.insert g.ID Socket }
            match s1.m_AudioSources.find g.ID with
            | none => Outcome.returned s1
            | some Source =>
              Outcome.returned
                { s1 with
                  m_VoiceSockets :=
                    s1.m_VoiceSockets.insert g.ID (CVoiceSocket.StartSpeaking rt Socket Source),
                  m_AudioSources := s1.m_AudioSources.erase g.ID }

/-- Modelled from the spec: the constructor of `CChannel` is declared in a header
that is not part of the sources; the object made by `new CChannel()` has empty
strings, zero numbers and empty lists, as section 3 of the spec has it for a
channel without a guild (`GuildID` is empty). -/
def newChannel : CChannel :=
  { ID := "", Type_ := 0, GuildID := "", Position := 0, Overwrites := [], Name := "",
    Topic := "", NSFW := false, LastMessageID := "", Bitrate := 0, UserLimit := 0,
    RateLimit := 0, Recipients := [], Icon := "", OwnerID := "", AppID := "", ParentID := "",
    LastPinTimestamp := "" }

/-- The object made by `new CGuildMember()` (`models/GuildMember.hpp`). -/
def newMember : CGuildMember :=
  { GuildID := "", UserRef := none, Nick := "", Roles := [], JoinedAt := "",
    PremiumSince := "", Deaf := false, Mute := false, State := none }

/-- The lookup that precedes every call of `CreateUser` outside `READY`:
`IT = m_Users.find(id); if (IT != m_Users.end()) user = IT->second; else user = CreateUser(json);`. -/
def findOrCreateUser (s : CDiscordClient) (json : UserJson) : CDiscordClient × CUser :=
  match s.m_Users.find json.id with
  | some user => (s, user)
  | none => s.CreateUser json

/-- The function `CreateChannel` (lines 666-722). -/
def CreateChannel (s : CDiscordClient) (json : ChannelJson) : CDiscordClient × CChannel :=
  let Overwrites := json.permission_overwrites.map fun (jov : OverwriteJson) =>
    ({ ID := jov.id, Type_ := jov.type, Allow := jov.allow, Deny := jov.deny } :
      CPermissionOverwrites)
  let r := json.recipients.foldl
    (fun (acc : CDiscordClient × List User) (juser : UserJson) =>
      let f := acc.1.findOrCreateUser juser
      (f.1, acc.2 ++ [some f.2]))
    (s, [])
  (r.1,
    { ID := json.id, Type_ := json.type, GuildID := json.guild_id, Position := json.position,
      Overwrites := Overwrites, Name := json.name, Topic := json.topic, NSFW := json.nsfw,
      LastMessageID := json.last_message_id, Bitrate := json.bitrate,
      UserLimit := json.user_limit, RateLimit := json.rate_limit_per_user,
      Recipients := r.2, Icon := json.icon, OwnerID := json.owner_id,
      AppID := json.application_id, ParentID := json.parent_id,
      LastPinTimestamp := json.last_pin_timestamp })

/-- The loop over `"channels"` in `GUILD_CREATE` (lines 288-297). -/
def addChannels (s : CDiscordClient) (guild : CGuild) (Array : List ChannelJson) :
    CDiscordClient × CGuild :=
  Array.foldl
    (fun (acc : CDiscordClient × CGuild) (e : ChannelJson) =>
      let c := acc.1.CreateChannel e
      let Tmp := { c.2 with GuildID := acc.2.ID }
      (c.1, { acc.2 with Channels := acc.2.Channels.insert Tmp.ID Tmp }))
    (s, guild)

/-- The loop over `"members"` in `GUILD_CREATE` (lines 300-310). An exception
raised by `CreateMember` leaves the handler; the result then holds the client as
it is at that moment. -/
def addMembers (s : CDiscordClient) (guild : CGuild) :
    List MemberJson → Outcome (CDiscordClient × CGuild)
  | [] => Outcome.returned (s, guild)
  | e :: rest =>
    match s.CreateMember e with
    | none => Outcome.raised s
    | some (s1, Tmp) =>
      match Tmp.UserRef with
      | some u => addMembers s1 { guild with Members := guild.Members.insert u.ID Tmp } rest
      | none => addMembers s1 guild rest

/-- The loop over `"voice_states"` in `GUILD_CREATE` (lines 313-320). -/
def addVoiceStates (s : CDiscordClient) (guild : CGuild) (Array : List VoiceStateJson) :
    CDiscordClient × CGuild :=
  Array.foldl
    (fun (acc : CDiscordClient × CGuild) (e : VoiceStateJson) =>
      let r := acc.1.CreateVoiceState e (some acc.2)
      (r.client, r.guild.getD acc.2))
    (s, guild)

/-- The handler `OnWebsocketEvent`, `case Adler32("GUILD_CREATE")` (lines 258 and
279-323). -/
def GUILD_CREATE (s : CDiscordClient) (S : Int) (json : GuildJson) : Outcome CDiscordClient :=
  let s0 := { s with m_LastSeqNum := S }
  let guild : CGuild :=
    { ID := json.id, Name := json.name, Channels := Map.empty, Members := Map.empty }
  let c := s0.addChannels guild json.channels
  match c.1.addMembers c.2 json.members with
  | Outcome.raised s1 => Outcome.raised s1
  | Outcome.crashed => Outcome.crashed
  | Outcome.terminated s1 => Outcome.terminated s1
  | Outcome.returned m =>
    let v := m.1.addVoiceStates m.2 json.voice_states
    Outcome.returned { v.1 with m_Guilds := v.1.m_Guilds.insert v.2.ID v.2 }

/-- The loop over `"mentions"` in `CreateMessage` (lines 777-808), for a message
whose guild (if any) is `GuildRef` and whose author is `Author`. The result is
`none` when `Ret->Author->ID` is read with a null `Author`. -/
def addMentions (s : CDiscordClient) (GuildRef : Guild) (Author : User) (Mentions : List GuildMember) :
    List UserJson → Option (CDiscordClient × List GuildMember)
  | [] => some (s, Mentions)
  | e :: rest =>
    let f := s.findOrCreateUser e
    match GuildRef with
    | some g =>
      match Author with
      | none => none
      | some a =>
        match g.Members.find a.ID with
        | some MIT => addMentions f.1 GuildRef Author (Mentions ++ [some MIT]) rest
        | none =>
          addMentions f.1 GuildRef Author (Mentions ++ [some { newMember with UserRef := some f.2 }]) rest
    | none =>
      addMentions f.1 GuildRef Author (Mentions ++ [some { newMember with UserRef := some f.2 }]) rest

/-- The function `CreateMessage` (lines 724-811). -/
def CreateMessage (s : CDiscordClient) (json : MessageJson) : Outcome (CDiscordClient × CMessage) :=
  let GuildRef : Guild := s.m_Guilds.find json.guild_id
  let found : Channel :=
    match GuildRef with
    | some g => g.Channels.find json.channel_id
    | none => none
  let channel : CChannel :=
    match found with
    | some c => c
    | none => { newChannel with ID := json.channel_id }
  let author : Option (CDiscordClient × User × GuildMember) :=
    match json.author with
    | Nested.absent => some (s, none, none)
    | Nested.malformed => none
    | Nested.value juser =>
      let f := s.findOrCreateUser juser
      let Member : GuildMember :=
        match GuildRef with
        | some g => g.Members.find f.2.ID
        | none => none
      some (f.1, some f.2, Member)
  match author with
  | none => Outcome.raised s
  | some (s1, Author, Member) =>
    match s1.addMentions GuildRef Author [] json.mentions with
    | none => Outcome.crashed
    | some (s2, Mentions) =>
      Outcome.returned (s2,
        { ID := json.id, ChannelRef := some channel, GuildRef := GuildRef.map fun g => g.ID,
          Author := Author, Member := Member, Content := json.content,
          Timestamp := json.timestamp, EditedTimestamp := json.edited_timestamp,
          Mention := json.mention_everyone, Mentions := Mentions })

/-- The handler `OnWebsocketEvent`, `case Adler32("MESSAGE_CREATE")` (lines 258
and 385-392). -/
def MESSAGE_CREATE (s : CDiscordClient) (S : Int) (json : MessageJson) : Outcome CDiscordClient :=
  let s0 := { s with m_LastSeqNum := S }
  match s0.CreateMessage json with
  | Outcome.raised s1 => Outcome.raised s1
  | Outcome.crashed => Outcome.crashed
  | Outcome.terminated s1 => Outcome.terminated s1
  | Outcome.returned r =>
    Outcome.returned (if r.1.m_Controller then r.1.emit (Action.OnMessage r.2) else r.1)

end CDiscordClient

/-- The value a call returned, if it returned. -/
def Outcome.toOption {α : Type} : Outcome α → Option α
  | Outcome.returned a => some a
  | Outcome.raised _ => none
  | Outcome.crashed => none
  | Outcome.terminated _ => none

/-! ### More concrete clients used as test inputs -/

/-- A connected client with session `"session"`, a running heartbeat thread and
nothing cached but the bot's user. -/
def connected : CDiscordClient :=
  { newClient with
    m_SessionID := "session", m_LastSeqNum := 6, m_HeartACKReceived := true,
    m_Heartbeat := true, m_BotUser := some botUser,
    m_Users := Map.insert Map.empty "bot" botUser, allocated := 1 }

/-- A connected client that has cached `"guild"` with the bot in a voice channel
and holds the pending audio sources `pending`. -/
def joining (pending : Map AudioSource) : CDiscordClient :=
  { connected with
    m_Guilds := Map.insert Map.empty "guild"
      { botGuild with
        Members := Map.insert Map.empty "bot"
          { CDiscordClient.newMember with
            UserRef := some botUser,
            State := some
              { GuildRef := some "guild", UserRef := some botUser, ChannelRef := none,
                SessionID := "voice-session", Deaf := false, Mute := false,
                SelfDeaf := false, SelfMute := false, SelfStream := false,
                Supress := false } } },
    m_AudioSources := pending }

/-- The client `joining Map.empty` when it holds a voice socket for `"guild"`
already, and that socket has connected: its heartbeat thread is running. -/
def rejoining : CDiscordClient :=
  { joining Map.empty with m_VoiceSockets := Table.insert Table.empty "guild" connectedSocket }

/-- A connected client whose last heartbeat has not been acknowledged; the
argument says whether a controller is registered. -/
def unacked (controller : Bool) : CDiscordClient :=
  { connected with m_HeartACKReceived := false, m_Controller := controller }

/-- A client with an unacknowledged heartbeat that holds a connected voice
socket for `"guild"`. -/
def unackedInVoice : CDiscordClient :=
  { inVoiceConnected with m_Heartbeat := true }

/-- The `d` of a `VOICE_SERVER_UPDATE` for `"guild"`. -/
def serverUpdate : CVoiceSocket.ServerUpdate :=
  { token := "voice-token", guild_id := "guild", endpoint := "voice.example:443" }

/-- The JSON of a user with the given `id` and default values elsewhere. -/
def userJson (id : String) : UserJson :=
  { id := id, username := id, discriminator := "", avatar := "", bot := false, system := false,
    mfa_enabled := false, locale := "", verified := false, email := "", flags := 0,
    premium_type := 0, public_flags := 0 }

/-- The cached user with the given `id` and instance number. -/
def cachedUser (handle : Nat) (id : String) : CUser :=
  { handle := handle, ID := id, Username := id, Discriminator := "", Avatar := "", Bot := false,
    System := false, MFAEnabled := false, Locale := "", Verified := false, Email := "",
    Flags := 0, PremiumType := 0, PublicFlags := 0 }

/-- A connected client that has cached `"guild"` with the members `"alice"` and
`"bob"`. -/
def chatting : CDiscordClient :=
  { connected with
    m_Users := Map.insert (Map.insert (Map.insert Map.empty "bot" botUser)
      "alice" (cachedUser 1 "alice")) "bob" (cachedUser 2 "bob"),
    m_Guilds := Map.insert Map.empty "guild"
      { ID := "guild", Name := "guild", Channels := Map.empty,
        Members := Map.insert (Map.insert Map.empty
          "alice" { CDiscordClient.newMember with UserRef := some (cachedUser 1 "alice") })
          "bob" { CDiscordClient.newMember with UserRef := some (cachedUser 2 "bob") } },
    allocated := 3 }

/-- The `d` of a `MESSAGE_CREATE`: in `"guild"`, `"alice"` mentions `"bob"`. -/
def aliceMentionsBob : MessageJson :=
  { guild_id := "guild", channel_id := "general", id := "m1",
    author := Nested.value (userJson "alice"), content := "hello", timestamp := "",
    edited_timestamp := "", mention_everyone := false, mentions := [userJson "bob"] }

/-- The `d` of the `READY` that names the bot's user. -/
def readyBot : GatewayReadyJson :=
  { session_id := "session", user := some (userJson "bot") }

/-- The `d` of a `MESSAGE_CREATE` without a guild, written by the bot. -/
def directFromBot : MessageJson :=
  { guild_id := "", channel_id := "dm", id := "m2",
    author := Nested.value (userJson "bot"), content := "hi", timestamp := "",
    edited_timestamp := "", mention_everyone := false, mentions := [] }

namespace CDiscordClient

/-- The entity cache of section 4.4: users, guilds, voice sessions and pending
audio sources. -/
def cache (s : CDiscordClient) : Map CUser × Map CGuild × Table CVoiceSocket × Map AudioSource :=
  (s.m_Users, s.m_Guilds, s.m_VoiceSockets, s.m_AudioSources)

/-- The members of a user without the number of the instance that holds them. -/
def content (u : CUser) : CUser := { u with handle := 0 }

/-- Two clients that differ at most in `m_Users` and in the count of `CUser`
objects created: what a call that only creates users leaves of a client. -/
def SameButUsers (a b : CDiscordClient) : Prop :=
  a.m_Token = b.m_Token ∧ a.m_SessionID = b.m_SessionID ∧ a.m_LastSeqNum = b.m_LastSeqNum ∧
  a.m_HeartbeatInterval = b.m_HeartbeatInterval ∧
  a.m_HeartACKReceived = b.m_HeartACKReceived ∧ a.m_Terminate = b.m_Terminate ∧
  a.m_Quit = b.m_Quit ∧ a.m_Controller = b.m_Controller ∧ a.m_BotUser = b.m_BotUser ∧
  a.m_Guilds = b.m_Guilds ∧ a.m_VoiceSockets = b.m_VoiceSockets ∧
  a.m_AudioSources = b.m_AudioSources ∧ a.m_Heartbeat = b.m_Heartbeat ∧
  a.heartbeatReturned = b.heartbeatReturned ∧ a.log = b.log

end CDiscordClient

/-- The state of the voice socket a client holds for `"guild"`, as far as the
source it plays is concerned, after the given outcome. -/
def sourceInGuild (o : Outcome CDiscordClient) : Option AudioSource :=
  o.toOption.bind fun s => (s.m_VoiceSockets.find "guild").map fun v => v.m_Source

/-- What follows a call: `f` when the call returned, nothing otherwise. -/
def Outcome.again (o : Outcome CDiscordClient) (f : CDiscordClient → Outcome CDiscordClient) :
    Outcome CDiscordClient :=
  match o with
  | Outcome.returned s => f s
  | Outcome.raised s => Outcome.raised s
  | Outcome.crashed => Outcome.crashed
  | Outcome.terminated s => Outcome.terminated s

namespace CDiscordClient

/-- Every user cached in `a` is cached in `b`, as the same object. -/
def usersKept (a b : Map CUser) : Prop :=
  ∀ k u, a.find k = some u → b.find k = some u

/-- Every user object that the member object of a voice state of a `GUILD_CREATE`
payload holds is known when the loop over the voice states starts: its ID is in
`users` already, or it is the ID of a recipient of one of the payload's channels
or of the user of one of the payload's members. -/
def guildVoiceUsersKnown (users : Map CUser) (json : GuildJson) : Prop :=
  ∀ v ∈ json.voice_states, ∀ m ju, v.member = some m → m.user = Nested.value ju →
    users.find ju.id ≠ none ∨
    (∃ c ∈ json.channels, ∃ r ∈ c.recipients, r.id = ju.id) ∨
    (∃ mm ∈ json.members, ∃ mu, mm.user = Nested.value mu ∧ mu.id = ju.id)

/-- The user object a `VOICE_STATE_UPDATE` payload holds in its member object, if
any, has its ID in `users`. -/
def voiceStateUserCached (users : Map CUser) (json : VoiceStateJson) : Prop :=
  ∀ m ju, json.member = some m → m.user = Nested.value ju → users.find ju.id ≠ none

end CDiscordClient

/-- The event `botLeaves` carrying a member object for the bot. -/
def botLeavesAsMember : VoiceStateJson :=
  { botLeaves with
    member := some { user := Nested.value (userJson "bot"), nick := "", roles := [],
                     joined_at := "", premium_since := "", deaf := false, mute := false } }

/-! ## The gateway client: the public calls and the event handler -/

/-- How the compiler lays out the two types `Adler32` computes with. -/
structure DataModel where
  /-- Whether `char` is a signed type. -/
  charSigned : Bool
  /-- The number of bits of `size_t`. -/
  sizeBits : Nat
deriving DecidableEq, Repr

/-- The `char`s of a `std::string` as numbers from 0 to 255: the UTF-8 encoding
of the text. -/
def bytes (s : String) : List Nat :=
  (s.data.flatMap String.utf8EncodeChar).map UInt8.toNat

/-- The constant `BASE` (line 47). -/
def BASE : Nat := 65521

/-- The value of `*Beg` after its conversion to `size_t`: a signed `char` from
128 on is a negative number and wraps around. -/
def charToSize (dm : DataModel) (b : Nat) : Nat :=
  if dm.charSigned ∧ 128 ≤ b then 2 ^ dm.sizeBits - (256 - b) else b

/-- The loop of `Adler32` (lines 54-59) and its `return` (line 61), from the
current `S1`, `S2` and the `char`s from `Beg` on; the loop ends at the first
zero. -/
def Adler32loop (dm : DataModel) : Nat → Nat → List Nat → Nat
  | S1, S2, [] => ((S2 <<< 16) + S1) % 2 ^ dm.sizeBits
  | S1, S2, b :: rest =>
    if b = 0 then ((S2 <<< 16) + S1) % 2 ^ dm.sizeBits
    else
      let S1 := (S1 + charToSize dm b) % 2 ^ dm.sizeBits % BASE
      let S2 := (S2 + S1) % 2 ^ dm.sizeBits % BASE
      Adler32loop dm S1 S2 rest

/-- The function `Adler32` (lines 48-62). -/
def Adler32 (dm : DataModel) (Data : String) : Nat :=
  Adler32loop dm (1 &&& 0xFFFF) ((1 >>> 16) &&& 0xFFFF) (bytes Data)

namespace CDiscordClient

/-- The calls made on the controller, in order. -/
def callbacks (s : CDiscordClient) : List Action :=
  s.log.filter fun a =>
    match a with
    | Action.OnReady => true
    | Action.OnResume => true
    | Action.OnMessage _ => true
    | Action.OnVoiceStateUpdate _ => true
    | Action.OnEndSpeaking _ => true
    | Action.OnDisconnect => true
    | Action.OnQuit => true
    | _ => false

/-- The members of the client, without the log of the calls made so far. -/
def members (s : CDiscordClient) : CDiscordClient := { s with log := [] }

/-- The function `Join` (lines 69-81). -/
def Join (s : CDiscordClient) (channel : Channel) : CDiscordClient :=
  match channel with
  | none => s
  | some c =>
    if c.GuildID.isEmpty || c.ID.isEmpty then s
    else s.SendOP OPCodes.VOICE_STATE_UPDATE (Payload.voiceState c.GuildID (some c.ID) false false)

/-- The function `Leave` (lines 88-100). -/
def Leave (s : CDiscordClient) (channel : Channel) : CDiscordClient :=
  match channel with
  | none => s
  | some c =>
    if c.GuildID.isEmpty || c.ID.isEmpty then s
    else s.SendOP OPCodes.VOICE_STATE_UPDATE (Payload.voiceState c.GuildID none false false)

/-- Modelled from the spec: the enum `ChannelTypes` is declared in a header that
is not part of the sources; section 3 of the spec lists its members with
`GUILD_TEXT` first, which gives it the number 0. -/
def GUILD_TEXT : Int := 0

/-- The function `SendMessage` (lines 109-128). The first statement reads
`channel->Type`; the status code of the answer only decides what is written to
the process log. -/
def SendMessage (s : CDiscordClient) (channel : Channel) (Text : String) (TTS : Bool) :
    Outcome CDiscordClient :=
  match channel with
  | none => Outcome.crashed
  | some c =>
    if c.Type_ ≠ GUILD_TEXT then Outcome.returned s
    else
      Outcome.returned
        (s.emit (Action.post ("/channels/" ++ c.ID ++ "/messages") ("Bot " ++ s.m_Token) Text TTS))

/-- The function `StartSpeaking` of the client (lines 201-219), with the value it
returns. -/
def StartSpeaking (rt : Runtime) (s : CDiscordClient) (channel : Channel) (source : AudioSource) :
    CDiscordClient × Bool :=
  match channel with
  | none => (s, false)
  | some c =>
    if c.GuildID.isEmpty then (s, false)
    else
      match s.m_VoiceSockets.find c.GuildID with
      | some Socket =>
        ({ s with m_VoiceSockets :=
            s.m_VoiceSockets.insert c.GuildID (CVoiceSocket.StartSpeaking rt Socket source) }, true)
      | none => ({ s with m_AudioSources := s.m_AudioSources.insert c.GuildID source }, true)

/-- The labels of the `switch` over `Adler32(Pay.T.c_str())` (lines 262-411). -/
inductive Handler where
  | READY | GUILD_CREATE | GUILD_DELETE | VOICE_STATE_UPDATE | VOICE_SERVER_UPDATE
  | MESSAGE_CREATE | RESUMED | INVALID_SESSION
deriving DecidableEq, Repr

/-- The name each label is the hash of. -/
def Handler.name : Handler → String
  | Handler.READY => "READY"
  | Handler.GUILD_CREATE => "GUILD_CREATE"
  | Handler.GUILD_DELETE => "GUILD_DELETE"
  | Handler.VOICE_STATE_UPDATE => "VOICE_STATE_UPDATE"
  | Handler.VOICE_SERVER_UPDATE => "VOICE_SERVER_UPDATE"
  | Handler.MESSAGE_CREATE => "MESSAGE_CREATE"
  | Handler.RESUMED => "RESUMED"
  | Handler.INVALID_SESSION => "INVALID_SESSION"

/-- The labels in the order of the source. -/
def Handler.all : List Handler :=
  [Handler.READY, Handler.GUILD_CREATE, Handler.GUILD_DELETE, Handler.VOICE_STATE_UPDATE,
   Handler.VOICE_SERVER_UPDATE, Handler.MESSAGE_CREATE, Handler.RESUMED,
   Handler.INVALID_SESSION]

/-- The `switch (Adler32(Pay.T.c_str()))` with its labels `case Adler32("READY"):`
and so on: the label whose number is the hash of `T`, if there is one. -/
def select (dm : DataModel) (T : String) : Option Handler :=
  Handler.all.find? fun h => Adler32 dm T = Adler32 dm h.name

/-- The dispatch the spec describes (section 4.1, "dispatch by event name"): the
handler whose name is `T`, by comparison of the strings. -/
def selectByName (T : String) : Option Handler :=
  Handler.all.find? fun h => T = h.name

/-- The member `D` of a received payload: the string itself, whether
`json.ParseObject(Pay.D)` returns (it raises `CJSONException` otherwise), and
what the calls of `GetValue` that follow hand to each handler. -/
structure Data where
  raw : String
  parses : Bool
  heartbeat_interval : Nat
  ready : GatewayReadyJson
  guild : GuildJson
  id : String
  voiceState : VoiceStateJson
  serverUpdate : CVoiceSocket.ServerUpdate
  message : MessageJson

/-- The structure `SPayload` as `Deserialize` fills it. -/
structure SPayload where
  OP : Nat
  S : Int
  T : String
  D : Data

/-- The argument of `OnWebsocketEvent`. -/
inductive WebSocketMessage where
  | Error
  | Close
  /-- A text frame; `Pay` is `none` when `json.Deserialize<SPayload>(msg->str)`
  raised `CJSONException`. -/
  | Message (Pay : Option SPayload)
  /-- Every other value of `msg->type`. -/
  | other

/-- The handler `OnWebsocketEvent`, `case OPCodes::DISPATCH` (lines 256-412). -/
def DISPATCH (dm : DataModel) (rt : Runtime) (u : CVoiceSocket.Indeterminate)
    (s : CDiscordClient) (Pay : SPayload) : Outcome CDiscordClient :=
  let s0 := { s with m_LastSeqNum := Pay.S }
  match select dm Pay.T with
  | none => Outcome.returned s0
  | some Handler.READY =>
    if Pay.D.parses then READY s Pay.S Pay.D.ready else Outcome.raised s0
  | some Handler.GUILD_CREATE =>
    if Pay.D.parses then GUILD_CREATE s Pay.S Pay.D.guild else Outcome.raised s0
  | some Handler.GUILD_DELETE =>
    if Pay.D.parses then GUILD_DELETE s Pay.S Pay.D.id else Outcome.raised s0
  | some Handler.VOICE_STATE_UPDATE =>
    if Pay.D.parses then VOICE_STATE_UPDATE s Pay.S Pay.D.voiceState else Outcome.raised s0
  | some Handler.VOICE_SERVER_UPDATE =>
    if Pay.D.parses then VOICE_SERVER_UPDATE rt u s Pay.S Pay.D.serverUpdate
    else Outcome.raised s0
  | some Handler.MESSAGE_CREATE =>
    if Pay.D.parses then MESSAGE_CREATE s Pay.S Pay.D.message else Outcome.raised s0
  | some Handler.RESUMED => Outcome.returned (RESUMED s Pay.S)
  | some Handler.INVALID_SESSION => Outcome.returned (INVALID_SESSION s Pay.S Pay.D.raw)

/-- The function `OnWebsocketEvent` (lines 224-448). -/
def OnWebsocketEvent (dm : DataModel) (rt : Runtime) (u : CVoiceSocket.Indeterminate)
    (s : CDiscordClient) (msg : WebSocketMessage) : Outcome CDiscordClient :=
  match msg with
  | WebSocketMessage.Error => Outcome.returned s
  | WebSocketMessage.Close => Outcome.returned { s with m_Terminate := true }
  | WebSocketMessage.other => Outcome.returned s
  | WebSocketMessage.Message none => Outcome.returned s
  | WebSocketMessage.Message (some Pay) =>
    if Pay.OP = OPCodes.DISPATCH.toNat then DISPATCH dm rt u s Pay
    else if Pay.OP = OPCodes.HELLO.toNat then
      HELLO s (if Pay.D.parses then some Pay.D.heartbeat_interval else none)
    else if Pay.OP = OPCodes.HEARTBEAT_ACK.toNat then
      Outcome.returned { s with m_HeartACKReceived := true }
    else Outcome.returned s

/-- What reaches the client: a websocket message (with the values the
constructor of a new voice socket would leave unset), a pass of the heartbeat
thread, and the calls of the public interface. -/
inductive Input where
  | message (u : CVoiceSocket.Indeterminate) (msg : WebSocketMessage)
  | heartbeat
  | startSpeaking (channel : Channel) (source : AudioSource)
  | join (channel : Channel)
  | leave (channel : Channel)
  | quit

/-- The client after one input. -/
def step (dm : DataModel) (rt : Runtime) (s : CDiscordClient) : Input → Outcome CDiscordClient
  | Input.message u msg => OnWebsocketEvent dm rt u s msg
  | Input.heartbeat => Heartbeat s
  | Input.startSpeaking channel source => Outcome.returned (StartSpeaking rt s channel source).1
  | Input.join channel => Outcome.returned (Join s channel)
  | Input.leave channel => Outcome.returned (Leave s channel)
  | Input.quit => Outcome.returned (Quit s)

/-- The client after a sequence of inputs; an input that does not return ends
the sequence. -/
def run (dm : DataModel) (rt : Runtime) (s : CDiscordClient) : List Input → Outcome CDiscordClient
  | [] => Outcome.returned s
  | i :: rest =>
    match step dm rt s i with
    | Outcome.returned t => run dm rt t rest
    | Outcome.raised t => Outcome.raised t
    | Outcome.crashed => Outcome.crashed
    | Outcome.terminated t => Outcome.terminated t

/-- Every key of `m_VoiceSockets` is a key of `m_Guilds`, and every guild is
stored under its own ID. -/
def Consistent (s : CDiscordClient) : Prop :=
  (∀ k, s.m_VoiceSockets.find k ≠ none → s.m_Guilds.find k ≠ none) ∧
  (∀ k g, s.m_Guilds.find k = some g → g.ID = k)

end CDiscordClient

/-- The data model of x86-64 Linux: `char` is signed, `size_t` has 64 bits. -/
def x86_64 : DataModel := { charSigned := true, sizeBits := 64 }

/-- A received payload with the given opcode and event name, sequence number 7,
and a `d` for which `ParseObject` returns or raises as `parses` says. -/
def payload (OP : Nat) (T : String) (parses : Bool) : CDiscordClient.SPayload :=
  { OP := OP, S := 7, T := T,
    D := { raw := "", parses := parses, heartbeat_interval := 41250, ready := readyBot,
           guild := { id := "guild", name := "guild", channels := [], members := [],
                      voice_states := [] },
           id := "guild", voiceState := botLeaves, serverUpdate := serverUpdate,
           message := directFromBot } }

/-- A connected client that has cached `"guild"` with the voice channel `"voice"`
and no members. -/
def withVoiceChannel : CDiscordClient :=
  { connected with
    m_Guilds := Map.insert Map.empty "guild"
      { ID := "guild", Name := "guild",
        Channels := Map.insert Map.empty "voice"
          { CDiscordClient.newChannel with ID := "voice", Type_ := 2, GuildID := "guild" },
        Members := Map.empty } }

/-- The `d` of the `VOICE_STATE_UPDATE` sent when `"carol"` enters `"voice"`. -/
def carolJoins : VoiceStateJson :=
  { guild_id := "guild", user_id := "carol", channel_id := "voice",
    member := some { user := Nested.value (userJson "carol"), nick := "", roles := [],
                     joined_at := "", premium_since := "", deaf := false, mute := false },
    session_id := "carol-session", deaf := false, mute := false, self_deaf := false,
    self_mute := false, self_stream := false, suppress := false }

/-- The `d` of the `GUILD_CREATE` for `"guild"`: the voice channel `"voice"`, the
bot as only member, and the bot's voice state in `"voice"`. -/
def guildWithBot : GuildJson :=
  { id := "guild", name := "guild",
    channels := [{ id := "voice", type := 2, guild_id := "", position := 0,
                   permission_overwrites := [], name := "voice", topic := "", nsfw := false,
                   last_message_id := "", bitrate := 64000, user_limit := 0,
                   rate_limit_per_user := 0, recipients := [], icon := "", owner_id := "",
                   application_id := "", parent_id := "", last_pin_timestamp := "" }],
    members := [{ user := Nested.value (userJson "bot"), nick := "", roles := [],
                  joined_at := "", premium_since := "", deaf := false, mute := false }],
    voice_states := [{ botLeaves with channel_id := "voice", session_id := "voice-session" }] }

/-- The payload `guildWithBot` with the voice state of `"carol"` in place of the
bot's: the user `"carol"` is named by the member object of the voice state
only. -/
def guildWithCarol : GuildJson :=
  { guildWithBot with voice_states := [carolJoins] }

/-- Whether the voice state stored for the member `"carol"` of `"guild"` refers
to a user, after the given outcome. -/
def carolStateHasUser (o : Outcome CDiscordClient) : Option Bool :=
  o.toOption.bind fun s =>
    (s.m_Guilds.find "guild").bind fun g =>
      (g.Members.find "carol").bind fun m => m.State.map fun st => st.UserRef.isSome

/-- A session from the first connection on: `READY`, `GUILD_CREATE` for
`"guild"`, `VOICE_SERVER_UPDATE` for `"guild"`, and a call of `StartSpeaking` for
the channel `"voice"` with source 1. -/
def session : List CDiscordClient.Input :=
  [CDiscordClient.Input.message ⟨false, 0, 0⟩
      (CDiscordClient.WebSocketMessage.Message (some (payload 0 "READY" true))),
   CDiscordClient.Input.message ⟨false, 0, 0⟩
      (CDiscordClient.WebSocketMessage.Message
        (some { payload 0 "GUILD_CREATE" true with
                D := { (payload 0 "GUILD_CREATE" true).D with guild := guildWithBot } })),
   CDiscordClient.Input.message ⟨false, 0, 0⟩
      (CDiscordClient.WebSocketMessage.Message (some (payload 0 "VOICE_SERVER_UPDATE" true))),
   CDiscordClient.Input.startSpeaking
      (some { CDiscordClient.newChannel with ID := "voice", Type_ := 2, GuildID := "guild" })
      (some 1)]

/-! ## The command controller (`controller/IController.cpp`)

A `std::string` is the list of its `char`s, one `Char` with a code from 0 to 255
for each `char`: a text of ASCII characters is the list of its characters, and
a text with other characters is given by the bytes of its encoding. Positions
and counts are numbers of type `size_t`. -/

namespace IController

/-- The constant `std::string::npos`, the largest value of `size_t`. -/
def npos (dm : DataModel) : Nat := 2 ^ dm.sizeBits - 1

/-- The call `str.find_first_not_of(set, pos)`. -/
def find_first_not_of (dm : DataModel) (str set : List Char) (pos : Nat) : Nat :=
  match (str.drop pos).findIdx? fun c => !set.contains c with
  | some i => pos + i
  | none => npos dm

/-- The call `str.find_last_not_of(set)`. -/
def find_last_not_of (dm : DataModel) (str set : List Char) : Nat :=
  match str.reverse.findIdx? fun c => !set.contains c with
  | some i => str.length - 1 - i
  | none => npos dm

/-- The call `str.find_first_of(c, pos)` for one `char`. -/
def find_first_of (dm : DataModel) (str : List Char) (c : Char) (pos : Nat) : Nat :=
  match (str.drop pos).findIdx? fun x => x == c with
  | some i => pos + i
  | none => npos dm

/-- The call `str.find(pat, pos)`: the first position from `pos` on at which `pat`
begins. -/
def find (dm : DataModel) (str pat : List Char) (pos : Nat) : Nat :=
  match (List.range (str.length + 1 - pos)).find? fun i => pat.isPrefixOf (str.drop (pos + i)) with
  | some i => pos + i
  | none => npos dm

/-- The call `str.substr(pos, count)`: `none` when it throws `std::out_of_range`,
which it does for a `pos` beyond the end of `str`. -/
def substr (str : List Char) (pos count : Nat) : Option (List Char) :=
  if pos > str.length then none else some ((str.drop pos).take count)

/-- The characters `"\t\n\v\f\r "`. -/
def whitespace : List Char := ['\t', '\n', Char.ofNat 11, Char.ofNat 12, '\r', ' ']

/-- The function `trim` (lines 33-44). -/
def trim (dm : DataModel) (str : List Char) : List Char :=
  let Pos := find_first_not_of dm str whitespace 0
  let str := if Pos ≠ npos dm then str.drop Pos else str
  let Pos := find_last_not_of dm str whitespace
  if Pos ≠ npos dm then str.take (Pos + 1) else str

/-- The members of `SCommandDescription` that `OnMessage` reads. -/
structure SCommandDescription where
  ParamCount : Int
  ParamDelimiter : String

/-- How the part of `OnMessage` that builds `ctx->Params` ends. -/
inductive Built where
  /-- No command context is made: the message was handled before, does not begin
  with the prefix, or names no registered command. -/
  | ignored
  /-- The list `ctx->Params`, and whether the command is executed. -/
  | params (Params : List String) (executes : Bool)
  /-- A call of `substr` throws `std::out_of_range`. -/
  | out_of_range
  /-- The loop has not ended within the number of passes allowed. -/
  | unfinished
deriving DecidableEq, Repr

/-- The loop `while (true)` of `OnMessage` (lines 89-98) from the current `Pos`,
`Beg` and `ctx->Params`, for at most `passes` passes. The result is `none` when
`substr` throws and `some none` when the passes are used up. -/
def split (dm : DataModel) (Params Delimiter : List Char) :
    Nat → Nat → Nat → List String → Option (Option (List String))
  | 0, _, _, _ => some none
  | passes + 1, Pos, Beg, acc =>
    let Pos := find dm Params Delimiter Pos
    match substr Params Beg Pos with
    | none => none
    | some item =>
      let acc := acc ++ [String.mk (trim dm item)]
      if Pos = npos dm then some (some acc)
      else
        let next := find_first_not_of dm Params Delimiter ((Pos + 1) % 2 ^ dm.sizeBits)
        split dm Params Delimiter passes next next acc

/-- The function `IController::OnMessage(Message msg)` (lines 60-108) as far as it
builds the command context: `Handled` is what the overload called first has
stored, `Prefix` and `m_CommandDescs` are the members of the controller, and
`Content` is `msg->Content`. -/
def OnMessage (dm : DataModel) (Prefix : String) (m_CommandDescs : Map SCommandDescription)
    (Handled : Bool) (Content : String) : Built :=
  if Handled then Built.ignored
  else if !Prefix.data.isPrefixOf Content.data then Built.ignored
  else
    let Pos := find_first_of dm Content.data ' ' Prefix.data.length
    match substr Content.data Prefix.data.length
        ((Pos + 2 ^ dm.sizeBits - Prefix.data.length) % 2 ^ dm.sizeBits) with
    | none => Built.out_of_range
    | some Cmd =>
      match m_CommandDescs.find (String.mk Cmd) with
      | none => Built.ignored
      | some IT =>
        let built : Option (Option (List String)) :=
          if Pos ≠ npos dm then
            match substr Content.data Pos (npos dm) with
            | none => none
            | some rest =>
              let Params := trim dm rest
              if IT.ParamDelimiter.data.isEmpty then some (some [String.mk Params])
              else split dm Params IT.ParamDelimiter.data (Params.length + 2) 0 0 []
          else some (some [])
        match built with
        | none => Built.out_of_range
        | some none => Built.unfinished
        | some (some Params) =>
          Built.params Params ((Params.length : Int) = IT.ParamCount || IT.ParamCount = -1)

end IController

/-- A controller's table with the one command `cmd`, which takes any number of
parameters, separated by `delimiter`. -/
def commands (delimiter : String) : Map IController.SCommandDescription :=
  Map.insert Map.empty "cmd" { ParamCount := -1, ParamDelimiter := delimiter }

/-! # Theorems -/

/-! ## Byte order lemmas -/
theorem mask_ff : (0xFF : Nat) = 2 ^ 8 - 1 := by decide
theorem mask_ff00 : (0xFF00 : Nat) = (2 ^ 8 - 1) <<< 8 := by decide
theorem mask_ff0000 : (0x00FF0000 : Nat) = (2 ^ 8 - 1) <<< 16 := by decide
theorem mask_ff000000 : (0xFF000000 : Nat) = (2 ^ 8 - 1) <<< 24 := by decide

theorem testBit_of_lt_of_le {v n j : Nat} (hv : v < 2 ^ n) (hj : n ≤ j) :
    v.testBit j = false :=
  Nat.testBit_lt_two_pow (Nat.lt_of_lt_of_le hv (Nat.pow_le_pow_right (by decide) hj))

theorem swap_int_byte (v k : Nat) (hk : k < 4) :
    ChangeEndianess_int v / 2 ^ (8 * k) % 2 ^ 8 = v / 2 ^ (8 * (3 - k)) % 2 ^ 8 := by
  unfold ChangeEndianess_int
  apply Nat.eq_of_testBit_eq
  intro i
  rw [mask_ff000000, mask_ff0000, mask_ff00, mask_ff]
  simp only [Nat.testBit_mod_two_pow, Nat.testBit_or, Nat.testBit_and, Nat.testBit_shiftLeft,
    Nat.testBit_shiftRight, Nat.testBit_two_pow_sub_one, ← Nat.shiftRight_eq_div_pow]
  by_cases h : i < 8
  · interval_cases k <;> interval_cases i <;> simp
  · simp [h]

theorem swap_int_low16 (v : Nat) (hv : v < 2 ^ 16) : ChangeEndianess_int v % 2 ^ 16 = 0 := by
  unfold ChangeEndianess_int
  apply Nat.eq_of_testBit_eq
  intro i
  rw [mask_ff000000, mask_ff0000, mask_ff00, mask_ff]
  simp only [Nat.testBit_mod_two_pow, Nat.testBit_or, Nat.testBit_and, Nat.testBit_shiftLeft,
    Nat.testBit_shiftRight, Nat.testBit_two_pow_sub_one, Nat.zero_testBit]
  by_cases h : i < 16
  · have h1 : ¬ (i ≥ 24) := by omega
    have h2 : ¬ (i ≥ 16) := by omega
    have h3 : v.testBit (24 + i) = false := testBit_of_lt_of_le hv (by omega)
    have h4 : v.testBit (8 + i) = false ∨ ¬ (i ≥ 8) := by
      by_cases h8 : i ≥ 8
      · exact Or.inl (testBit_of_lt_of_le hv (by omega))
      · exact Or.inr h8
    rcases h4 with h4 | h4 <;> simp [h, h1, h2, h3, h4]
  · simp [h]



theorem leBytes_two (v : Nat) : leBytes 2 v = [v % 256, v / 256 % 256] := by
  simp [leBytes, List.range, List.range.loop]

theorem leBytes_four (v : Nat) :
    leBytes 4 v = [v % 256, v / 256 % 256, v / 256 ^ 2 % 256, v / 256 ^ 3 % 256] := by
  simp [leBytes, List.range, List.range.loop]

theorem isLittleEndian_eq (h : Host) : IsLittleEndian h = h.littleEndian := by
  cases h with
  | mk le => cases le <;> decide

/-- On either host the four bytes stored for a 32-bit field are the big-endian
bytes of the value. -/
theorem wire32 (h : Host) (v : Nat) :
    objectBytes h 4 (if IsLittleEndian h then ChangeEndianess_int v else v) = beBytes 4 v := by
  rw [isLittleEndian_eq]
  cases h with
  | mk le =>
    cases le
    · simp [objectBytes, beBytes]
    · have h0 := swap_int_byte v 0 (by decide)
      have h1 := swap_int_byte v 1 (by decide)
      have h2 := swap_int_byte v 2 (by decide)
      have h3 := swap_int_byte v 3 (by decide)
      norm_num at h0 h1 h2 h3
      simp [objectBytes, beBytes, leBytes_four]
      omega

theorem wire16_big (v : Nat) :
    objectBytes ⟨false⟩ 2 (if IsLittleEndian ⟨false⟩ then ChangeEndianess_int v % 2 ^ 16 else v)
      = beBytes 2 v := by
  simp [isLittleEndian_eq, objectBytes, beBytes]

theorem wire16_little (v : Nat) (hv : v < 2 ^ 16) :
    objectBytes ⟨true⟩ 2 (if IsLittleEndian ⟨true⟩ then ChangeEndianess_int v % 2 ^ 16 else v)
      = [0, 0] := by
  have h0 := swap_int_low16 v hv
  norm_num at h0
  simp [isLittleEndian_eq, objectBytes, leBytes_two, h0]



theorem seqField_buildFrame (h : Host) (SSRC Seq Ts Ret : Nat) (O : Int) (c : List Nat) :
    seqField (buildFrame h SSRC Seq Ts Ret O c)
      = objectBytes h 2 (if IsLittleEndian h then ChangeEndianess_int Seq % 2 ^ 16 else Seq) := by
  cases h with
  | mk le => cases le <;> simp [seqField, buildFrame, rtpHeader, objectBytes, leBytes_two, leBytes_four]

theorem timestampField_buildFrame (h : Host) (SSRC Seq Ts Ret : Nat) (O : Int) (c : List Nat) :
    timestampField (buildFrame h SSRC Seq Ts Ret O c) = beBytes 4 Ts := by
  rw [← wire32 h Ts]
  cases h with
  | mk le => cases le <;> simp [timestampField, buildFrame, rtpHeader, objectBytes, leBytes_two, leBytes_four]

/-- Every datagram of the loop is built by `buildFrame` from its own recorded
loop variables, and its `Seq` is a 16-bit value. -/
theorem loop_frame_shape (h : Host) (SSRC : Nat) (its : List Iteration) :
    ∀ (Seq Ts : Nat) (f : Frame), f ∈ (PlaybackLoop h SSRC Seq Ts its).1 →
      f.Seq < 2 ^ 16 ∧ ∃ O c, f = buildFrame h SSRC f.Seq f.Timestamp f.Ret O c := by
  induction its with
  | nil => intro Seq Ts f hf; simp [PlaybackLoop] at hf
  | cons it rest ih =>
    intro Seq Ts f hf
    cases it with
    | paused => exact ih Seq Ts f (by simpa [PlaybackLoop] using hf)
    | read Ret0 O c =>
      simp only [PlaybackLoop] at hf
      split at hf
      · split at hf
        · simp only [List.mem_singleton] at hf
          subst hf
          exact ⟨Nat.mod_lt _ (by decide), O, c, rfl⟩
        · simp only [List.mem_cons] at hf
          rcases hf with hf | hf
          · subst hf
            exact ⟨Nat.mod_lt _ (by decide), O, c, rfl⟩
          · exact ih _ _ f hf
      · simp at hf

/-- The `n`-th datagram (counting from 0) of a loop entered with `Seq` carries
the counter value `Seq + n + 1`, wrapped to 16 bits. -/
theorem loop_seq_nth (h : Host) (SSRC : Nat) (its : List Iteration) :
    ∀ (Seq Ts n : Nat) (f : Frame), (PlaybackLoop h SSRC Seq Ts its).1[n]? = some f →
      f.Seq = (Seq + n + 1) % 2 ^ 16 := by
  induction its with
  | nil => intro Seq Ts n f hf; simp [PlaybackLoop] at hf
  | cons it rest ih =>
    intro Seq Ts n f hf
    cases it with
    | paused => exact ih Seq Ts n f (by simpa [PlaybackLoop] using hf)
    | read Ret0 O c =>
      simp only [PlaybackLoop] at hf
      split at hf
      · split at hf
        · cases n with
          | zero => simp at hf; subst hf; simp [buildFrame]
          | succ m => simp at hf
        · cases n with
          | zero => simp at hf; subst hf; simp [buildFrame]
          | succ m =>
            simp only [List.getElem?_cons_succ] at hf
            rw [ih _ _ m f hf]
            omega
      · simp at hf

theorem loop_timestamp_first (h : Host) (SSRC : Nat) (its : List Iteration) :
    ∀ (Seq Ts : Nat) (f : Frame), (PlaybackLoop h SSRC Seq Ts its).1[0]? = some f →
      f.Timestamp = Ts := by
  induction its with
  | nil => intro Seq Ts f hf; simp [PlaybackLoop] at hf
  | cons it rest ih =>
    intro Seq Ts f hf
    cases it with
    | paused => exact ih Seq Ts f (by simpa [PlaybackLoop] using hf)
    | read Ret0 O c =>
      simp only [PlaybackLoop] at hf
      split at hf
      · split at hf <;> (simp at hf; subst hf; simp [buildFrame])
      · simp at hf

theorem loop_read_last (h : Host) (SSRC Seq Ts Ret0 : Nat) (O : Int) (c : List Nat)
    (rest : List Iteration) (hO : O > 0) (hR : Ret0 % 2 ^ 32 < Size / 2) :
    PlaybackLoop h SSRC Seq Ts (Iteration.read Ret0 O c :: rest)
      = ([buildFrame h SSRC ((Seq + 1) % 2 ^ 16) Ts (Ret0 % 2 ^ 32) O c], LoopExit.finished) := by
  simp only [PlaybackLoop, hO, hR, if_true]

theorem loop_read_more (h : Host) (SSRC Seq Ts Ret0 : Nat) (O : Int) (c : List Nat)
    (rest : List Iteration) (hO : O > 0) (hR : ¬ Ret0 % 2 ^ 32 < Size / 2) :
    PlaybackLoop h SSRC Seq Ts (Iteration.read Ret0 O c :: rest)
      = (buildFrame h SSRC ((Seq + 1) % 2 ^ 16) Ts (Ret0 % 2 ^ 32) O c
          :: (PlaybackLoop h SSRC ((Seq + 1) % 2 ^ 16) ((Ts + Ret0 % 2 ^ 32) % 2 ^ 32) rest).1,
         (PlaybackLoop h SSRC ((Seq + 1) % 2 ^ 16) ((Ts + Ret0 % 2 ^ 32) % 2 ^ 32) rest).2) := by
  simp only [PlaybackLoop, hO, hR, if_true, if_false]

theorem loop_read_error (h : Host) (SSRC Seq Ts Ret0 : Nat) (O : Int) (c : List Nat)
    (rest : List Iteration) (hO : ¬ O > 0) :
    PlaybackLoop h SSRC Seq Ts (Iteration.read Ret0 O c :: rest) = ([], LoopExit.encodeError) := by
  simp only [PlaybackLoop, hO, if_false]

theorem loop_timestamp_next (h : Host) (SSRC : Nat) (its : List Iteration) :
    ∀ (Seq Ts k : Nat) (f g : Frame), (PlaybackLoop h SSRC Seq Ts its).1[k]? = some f →
      (PlaybackLoop h SSRC Seq Ts its).1[k + 1]? = some g →
      g.Timestamp = (f.Timestamp + f.Ret) % 2 ^ 32 := by
  induction its with
  | nil => intro Seq Ts k f g hf; simp [PlaybackLoop] at hf
  | cons it rest ih =>
    intro Seq Ts k f g hf hg
    cases it with
    | paused => exact ih Seq Ts k f g (by simpa [PlaybackLoop] using hf) (by simpa [PlaybackLoop] using hg)
    | read Ret0 O c =>
      by_cases hO : O > 0
      · by_cases hR : Ret0 % 2 ^ 32 < Size / 2
        · rw [loop_read_last h SSRC Seq Ts Ret0 O c rest hO hR] at hg
          simp at hg
        · rw [loop_read_more h SSRC Seq Ts Ret0 O c rest hO hR] at hf hg
          cases k with
          | zero =>
            simp only [List.getElem?_cons_zero, Option.some.injEq] at hf
            simp only [List.getElem?_cons_succ, Nat.zero_add] at hg
            have := loop_timestamp_first h SSRC rest _ _ g hg
            subst hf
            simpa [buildFrame] using this
          | succ m =>
            simp only [List.getElem?_cons_succ] at hf hg
            exact ih _ _ m f g hf hg
      · rw [loop_read_error h SSRC Seq Ts Ret0 O c rest hO] at hf
        simp at hf

/-! ## The playback loop: sequence numbers, timestamps, exit -/

theorem beBytes_two (v : Nat) : beBytes 2 v = [v / 256 % 256, v % 256] := by
  simp [beBytes, leBytes_two]

theorem beBytes_four (v : Nat) :
    beBytes 4 v = [v / 256 ^ 3 % 256, v / 256 ^ 2 % 256, v / 256 % 256, v % 256] := by
  simp [beBytes, leBytes_four]

theorem beValue_beBytes_four (v : Nat) : beValue (beBytes 4 v) = v % 2 ^ 32 := by
  simp only [beBytes_four, beValue, List.foldl]
  omega

/-- The sequence field of a datagram of the loop, from its recorded counter. -/
theorem loop_seqField (h : Host) (SSRC : Nat) (its : List Iteration) (Seq Ts : Nat) (f : Frame)
    (hf : f ∈ (PlaybackLoop h SSRC Seq Ts its).1) :
    f.Seq < 2 ^ 16 ∧
    seqField f = objectBytes h 2 (if IsLittleEndian h then ChangeEndianess_int f.Seq % 2 ^ 16 else f.Seq) := by
  obtain ⟨hlt, O, c, hshape⟩ := loop_frame_shape h SSRC its Seq Ts f hf
  refine ⟨hlt, ?_⟩
  rw [hshape, seqField_buildFrame]
  rfl

/-- The timestamp field of a datagram of the loop, from its recorded timestamp. -/
theorem loop_timestampField (h : Host) (SSRC : Nat) (its : List Iteration) (Seq Ts : Nat)
    (f : Frame) (hf : f ∈ (PlaybackLoop h SSRC Seq Ts its).1) :
    timestampField f = beBytes 4 f.Timestamp := by
  obtain ⟨_, O, c, hshape⟩ := loop_frame_shape h SSRC its Seq Ts f hf
  rw [hshape, timestampField_buildFrame]
  rfl

/-- C3 (the code departs from it on little-endian hosts): for `1 ≤ n + 1 < 65536`
the datagram number `n + 1` of one run of the playback loop has the big-endian
bytes of `n + 1` in its bytes 2-3 when the host is big-endian, but the bytes
`0x00, 0x00` when the host is little-endian, because the swap applied to the
`uint16_t` is `ChangeEndianess(int)` and its result is narrowed to 16 bits. -/
theorem playback_sequence_bytes (SSRC : Nat) (its : List Iteration) (n : Nat)
    (hn : n + 1 < 65536) :
    (∀ f, (PlaybackRun ⟨false⟩ SSRC its).1[n]? = some f →
        seqField f = [(n + 1) / 256, (n + 1) % 256]) ∧
    (∀ f, (PlaybackRun ⟨true⟩ SSRC its).1[n]? = some f → seqField f = [0, 0]) := by
  constructor
  · intro f hf
    have hseq := loop_seq_nth ⟨false⟩ SSRC its 0 0 n f hf
    have hfield := (loop_seqField ⟨false⟩ SSRC its 0 0 f (List.getElem?_mem hf)).2
    rw [hfield, wire16_big, beBytes_two, hseq]
    have h1 : (0 + n + 1) % 2 ^ 16 = n + 1 := by omega
    rw [h1]
    have h2 : (n + 1) / 256 % 256 = (n + 1) / 256 := by omega
    rw [h2]
  · intro f hf
    have hshape := loop_seqField ⟨true⟩ SSRC its 0 0 f (List.getElem?_mem hf)
    rw [hshape.2, wire16_little f.Seq hshape.1]

/-- The first datagram a little-endian host sends in a run carries the sequence
bytes `0x00, 0x00` where C3 asks for `0x00, 0x01`. -/
theorem playback_sequence_bytes_witness :
    seqField (buildFrame ⟨true⟩ 1 1 0 960 1 []) = [0, 0] :=
  (playback_sequence_bytes 1 [Iteration.read 960 1 []] 0 (by decide)).2 _ (by decide)

/-- C4: in one run of the playback loop the timestamp field (bytes 4-7) of the
first datagram is 0, the field of every later datagram is the big-endian
encoding of the previous datagram's timestamp plus the sample count returned
for the previous datagram, modulo `2 ^ 32`, and after a first read of 960
samples the second datagram carries `0x00, 0x00, 0x03, 0xC0`. -/
theorem playback_timestamp_bytes (h : Host) (SSRC : Nat) (its : List Iteration) :
    (∀ f, (PlaybackRun h SSRC its).1[0]? = some f → timestampField f = [0, 0, 0, 0]) ∧
    (∀ k f g, (PlaybackRun h SSRC its).1[k]? = some f →
        (PlaybackRun h SSRC its).1[k + 1]? = some g →
        timestampField g = beBytes 4 ((beValue (timestampField f) + f.Ret) % 2 ^ 32)) ∧
    (∀ (O : Int) (c : List Nat) (rest : List Iteration) (g : Frame),
        (PlaybackRun h SSRC (Iteration.read 960 O c :: rest)).1[1]? = some g →
        timestampField g = [0x00, 0x00, 0x03, 0xC0]) := by
  refine ⟨?_, ?_, ?_⟩
  · intro f hf
    rw [loop_timestampField h SSRC its 0 0 f (List.getElem?_mem hf),
      loop_timestamp_first h SSRC its 0 0 f hf]
    decide
  · intro k f g hf hg
    rw [loop_timestampField h SSRC its 0 0 g (List.getElem?_mem hg),
      loop_timestampField h SSRC its 0 0 f (List.getElem?_mem hf),
      loop_timestamp_next h SSRC its 0 0 k f g hf hg, beValue_beBytes_four]
    congr 1
    omega
  · intro O c rest g hg
    have hmem := List.getElem?_mem hg
    rw [loop_timestampField h SSRC _ 0 0 g hmem]
    by_cases hO : O > 0
    · have hR : ¬ 960 % 2 ^ 32 < Size / 2 := by decide
      unfold PlaybackRun at hg
      rw [loop_read_more h SSRC 0 0 960 O c rest hO hR] at hg
      simp only [List.getElem?_cons_succ] at hg
      rw [loop_timestamp_first h SSRC rest _ _ g hg]
      decide
    · unfold PlaybackRun at hg
      rw [loop_read_error h SSRC 0 0 960 O c rest hO] at hg
      simp at hg

/-- Two full reads on a little-endian host: the second datagram's timestamp
field is 960. -/
theorem playback_timestamp_bytes_witness :
    timestampField (buildFrame ⟨true⟩ 1 2 960 960 1 []) = [0x00, 0x00, 0x03, 0xC0] :=
  (playback_timestamp_bytes ⟨true⟩ 1 [Iteration.read 960 1 [], Iteration.read 960 1 []]).2.2
    1 [] [Iteration.read 960 1 []] _ (by decide)

/-- C9 (as amended): within one run of the playback loop on a big-endian host,
the datagram at position `i` (counted from 0) carries in its bytes 2-3 the
number `(i + 1) mod 65536`: every run begins again at 1, and of two datagrams of
a run the later one carries the strictly larger sequence number as long as it is
among the first 65535. -/
theorem playback_sequence_increasing (SSRC : Nat) (its : List Iteration)
    (i j : Nat) (f g : Frame) (hij : i < j)
    (hf : (PlaybackRun ⟨false⟩ SSRC its).1[i]? = some f)
    (hg : (PlaybackRun ⟨false⟩ SSRC its).1[j]? = some g) :
    beValue (seqField f) = (i + 1) % 65536 ∧ beValue (seqField g) = (j + 1) % 65536 ∧
    (j + 1 < 65536 → beValue (seqField f) < beValue (seqField g)) := by
  have carried : ∀ (n : Nat) (x : Frame), (PlaybackRun ⟨false⟩ SSRC its).1[n]? = some x →
      beValue (seqField x) = (n + 1) % 65536 := by
    intro n x hx
    have hseq := loop_seq_nth ⟨false⟩ SSRC its 0 0 n x hx
    have hfield := (loop_seqField ⟨false⟩ SSRC its 0 0 x (List.getElem?_mem hx)).2
    rw [hfield, wire16_big, beBytes_two, hseq]
    simp only [beValue, List.foldl]
    omega
  refine ⟨carried i f hf, carried j g hg, fun hj => ?_⟩
  rw [carried i f hf, carried j g hg]
  omega

/-- Two full reads on a big-endian host: the datagrams carry 1 and 2. -/
theorem playback_sequence_increasing_witness :
    beValue (seqField (buildFrame ⟨false⟩ 1 1 0 960 1 []))
      < beValue (seqField (buildFrame ⟨false⟩ 1 2 960 960 1 [])) :=
  (playback_sequence_increasing 1 [Iteration.read 960 1 [], Iteration.read 960 1 []]
    0 1 _ _ (by decide) (by decide) (by decide)).2.2 (by decide)

/-- C10 (as amended): the count asked of the source and compared with `Ret` is
`Size / 2 = 960`; a pass that sent a datagram leaves the loop at once exactly
when the returned count is below 960, and otherwise the loop goes on with the
remaining passes; a source that only ever returns fewer than 960 samples gets
at most one datagram sent. -/
theorem playback_exit_rule (h : Host) (SSRC Seq Ts Ret : Nat) (O : Int) (c : List Nat)
    (rest : List Iteration) (hO : O > 0) :
    Size / 2 = 960 ∧
    (Ret % 2 ^ 32 < 960 →
      PlaybackLoop h SSRC Seq Ts (Iteration.read Ret O c :: rest)
        = ([buildFrame h SSRC ((Seq + 1) % 2 ^ 16) Ts (Ret % 2 ^ 32) O c], LoopExit.finished)) ∧
    (¬ Ret % 2 ^ 32 < 960 →
      PlaybackLoop h SSRC Seq Ts (Iteration.read Ret O c :: rest)
        = (buildFrame h SSRC ((Seq + 1) % 2 ^ 16) Ts (Ret % 2 ^ 32) O c
            :: (PlaybackLoop h SSRC ((Seq + 1) % 2 ^ 16) ((Ts + Ret % 2 ^ 32) % 2 ^ 32) rest).1,
           (PlaybackLoop h SSRC ((Seq + 1) % 2 ^ 16) ((Ts + Ret % 2 ^ 32) % 2 ^ 32) rest).2)) ∧
    (∀ its : List Iteration,
      (∀ R O1 c1, Iteration.read R O1 c1 ∈ its → R % 2 ^ 32 < 960) →
      (PlaybackLoop h SSRC Seq Ts its).1.length ≤ 1) := by
  have hsize : Size / 2 = 960 := by decide
  refine ⟨hsize, ?_, ?_, ?_⟩
  · intro hR
    exact loop_read_last h SSRC Seq Ts Ret O c rest hO (by rw [hsize]; exact hR)
  · intro hR
    exact loop_read_more h SSRC Seq Ts Ret O c rest hO (by rw [hsize]; exact hR)
  · intro its
    induction its with
    | nil => intro _; simp [PlaybackLoop]
    | cons it more ih =>
      intro hall
      cases it with
      | paused =>
        simp only [PlaybackLoop]
        exact ih (fun R O1 c1 hm => hall R O1 c1 (List.mem_cons_of_mem _ hm))
      | read R O1 c1 =>
        have hR := hall R O1 c1 (List.mem_cons_self _ _)
        by_cases hO1 : O1 > 0
        · rw [loop_read_last h SSRC Seq Ts R O1 c1 more hO1 (by rw [hsize]; exact hR)]
          simp
        · rw [loop_read_error h SSRC Seq Ts R O1 c1 more hO1]
          simp

/-- A read of 480 samples ends the loop after its datagram, whatever follows. -/
theorem playback_exit_rule_witness :
    PlaybackLoop ⟨true⟩ 1 0 0 [Iteration.read 480 1 [], Iteration.read 960 1 []]
      = ([buildFrame ⟨true⟩ 1 1 0 480 1 []], LoopExit.finished) :=
  (playback_exit_rule ⟨true⟩ 1 0 0 480 1 [] [Iteration.read 960 1 []] (by decide)).2.1
    (by decide)

/-- C10 as stated fails: a read that returns 960 samples, fewer than 1920, does
not end the loop; the next pass sends a second datagram. -/
theorem playback_exit_below_1920_counterexample :
    960 < 1920 ∧ Size / 2 ≠ 1920 ∧
    (PlaybackRun ⟨true⟩ 1 [Iteration.read 960 1 [], Iteration.read 960 1 []]).1.length = 2 := by
  decide

/-! ## The voice socket: discovery, key before playback, sequence numbers -/

namespace CVoiceSocket

theorem discoveryPacket_eq (h : Host) (v : Nat) :
    discoveryPacket h v
      = [0x00, 0x01, 0x00, 0x46, v / 256 ^ 3 % 256, v / 256 ^ 2 % 256, v / 256 % 256, v % 256]
        ++ List.replicate 66 0 := by
  simp only [discoveryPacket]
  rw [wire32, beBytes_four]
  simp [List.replicate, List.range, List.range.loop, List.set]

/-- C5: on a `READY` whose payload parses and whose UDP socket initialises, the
datagram sent is 74 bytes long, starts `0x00, 0x01, 0x00, 0x46`, carries the
SSRC in big-endian order in bytes 4-7 (`0x00, 0x00, 0x04, 0xD2` for 1234) and is
zero in bytes 8-73, on either byte order of the host. -/
theorem discovery_request (rt : Runtime) (s : CVoiceSocket) (d : ReadyJson) :
    (OnMessage rt s (Message.READY (some d) true)).log
      = s.log ++ [Action.udpInit d.ip d.port,
          Action.sendto (discoveryPacket rt.host (d.ssrc % 2 ^ 32)),
          Action.startReceiver] ∧
    (discoveryPacket rt.host (d.ssrc % 2 ^ 32)).length = 74 ∧
    discoveryPacket rt.host (d.ssrc % 2 ^ 32)
      = [0x00, 0x01, 0x00, 0x46] ++ beBytes 4 (d.ssrc % 2 ^ 32) ++ List.replicate 66 0 ∧
    (d.ssrc = 1234 →
      ((discoveryPacket rt.host (d.ssrc % 2 ^ 32)).drop 4).take 4 = [0x00, 0x00, 0x04, 0xD2]) := by
  refine ⟨?_, ?_, ?_, ?_⟩
  · simp [OnMessage, emit]
  · rw [discoveryPacket_eq]; simp
  · rw [discoveryPacket_eq, beBytes_four]; simp
  · intro hd
    rw [discoveryPacket_eq, hd]
    decide

/-- The request for SSRC 1234 on a little-endian host. -/
theorem discovery_request_witness :
    ((discoveryPacket ⟨true⟩ (1234 % 2 ^ 32)).drop 4).take 4 = [0x00, 0x00, 0x04, 0xD2] :=
  (discovery_request littleEndianRuntime freshSocket ⟨1234, "1.2.3.4", 50000⟩).2.2.2 rfl

/-- C6 (the code departs from it): for every 74-byte reply the port the receiver
computes is the value of the last byte alone; the byte before it is assigned to
`Port` and then overwritten, so a reply ending `0x13, 0x88` gives 136, not 5000. -/
theorem discovery_port_last_byte (Data : List Nat) (hlen : Data.length = 74)
    (hbyte : ∀ b ∈ Data, b < 256) :
    discoveryPort Data = (Data.getD 73 0 : Nat) := by
  have h73 : Data.getD 73 0 < 256 := by
    have hmem : Data.getD 73 0 ∈ Data := by
      rw [List.getD_eq_getElem?_getD, List.getElem?_eq_getElem (by omega)]
      simp
    exact hbyte _ hmem
  simp only [discoveryPort, hlen]
  have hr : (List.range (74 - 72)).map (fun k => k + 72) = [72, 73] := by decide
  rw [hr]
  simp only [List.foldl, Nat.sub_self, Nat.shiftLeft_zero]
  unfold toShort
  have h1 : Data.getD 73 0 % 2 ^ 16 = Data.getD 73 0 := by omega
  rw [h1]
  have h2 : Data.getD 73 0 < 2 ^ 15 := by omega
  rw [if_pos h2]

/-- The reply of scenario 3, ending `0x13, 0x88`: the port sent is 136. -/
theorem discovery_port_last_byte_witness :
    discoveryPort (List.replicate 72 0 ++ [0x13, 0x88]) = 136 ∧
    discoveryPort (List.replicate 72 0 ++ [0x13, 0x88]) ≠ 5000 :=
  ⟨discovery_port_last_byte (List.replicate 72 0 ++ [0x13, 0x88]) (by decide) (by decide),
    by decide⟩

/-- A voice socket that holds no key and has no playback thread. -/
theorem cold_step (rt : Runtime) (s t : CVoiceSocket) (e : Event)
    (hkey : s.m_SecKey = []) (hthread : s.m_Playback = Thread.idle)
    (he : ∀ key, key ≠ [] → e ≠ Event.Message (Message.SESSION_DESCIPTION (some key)))
    (ht : step rt s e = some t) :
    t.m_SecKey = [] ∧ t.m_Playback = Thread.idle ∧
    playbackStarts t = playbackStarts s ∧
    audioDatagrams t = audioDatagrams s := by
  cases e with
  | StartSpeaking Source =>
    simp only [step, Option.some.injEq] at ht
    subst ht
    simp [StartSpeaking, hkey, hthread, playbackStarts, audioDatagrams]
  | PauseSpeaking =>
    simp only [step, Option.some.injEq] at ht
    subst ht
    simp [PauseSpeaking, SetSpeaking, SendOP, emit, hkey, hthread, playbackStarts,
      audioDatagrams, List.count_singleton]
  | ResumeSpeaking =>
    simp only [step, Option.some.injEq] at ht
    subst ht
    simp [ResumeSpeaking, SetSpeaking, SendOP, emit, hkey, hthread, playbackStarts,
      audioDatagrams, List.count_singleton]
  | StopSpeaking =>
    simp only [step, Option.some.injEq] at ht
    subst ht
    simp [StopSpeaking, SetSpeaking, SendOP, emit, hkey, hthread, playbackStarts,
      audioDatagrams, List.count_singleton]
  | Message m =>
    simp only [step, Option.some.injEq] at ht
    subst ht
    cases m with
    | malformed => simp [OnMessage, hkey, hthread, playbackStarts, audioDatagrams]
    | SESSION_DESCIPTION k =>
      cases k with
      | none => simp [OnMessage, hkey, hthread, playbackStarts, audioDatagrams]
      | some key =>
        have hk : key = [] := by
          by_contra hne
          exact he key hne rfl
        subst hk
        by_cases hsrc : s.m_Source.isSome <;>
          simp [OnMessage, StartSpeaking, hkey, hthread, hsrc, playbackStarts, audioDatagrams]
    | READY d udp =>
      cases d with
      | none => simp [OnMessage, hkey, hthread, playbackStarts, audioDatagrams]
      | some r =>
        cases udp <;>
          simp [OnMessage, emit, hkey, hthread, playbackStarts, audioDatagrams,
            List.count_singleton, discoveryPacket_eq]
    | RESUMED => simp [OnMessage, hkey, hthread, playbackStarts, audioDatagrams]
    | HELLO i =>
      cases i with
      | none => simp [OnMessage, hkey, hthread, playbackStarts, audioDatagrams]
      | some interval =>
        by_cases hr : s.m_Reconnect <;> by_cases hh : s.m_Heartbeat <;>
          simp [OnMessage, SendOP, emit, hkey, hthread, hr, hh, playbackStarts,
            audioDatagrams, List.count_singleton]
    | HEARTBEAT_ACK => simp [OnMessage, hkey, hthread, playbackStarts, audioDatagrams]
    | other => simp [OnMessage, hkey, hthread, playbackStarts, audioDatagrams]
  | Close =>
    simp only [step, Option.some.injEq] at ht
    subst ht
    simp [hkey, hthread, playbackStarts, audioDatagrams]
  | Error =>
    simp only [step, Option.some.injEq] at ht
    subst ht
    simp [hkey, hthread, playbackStarts, audioDatagrams]
  | Playback its =>
    simp only [step, hthread, Option.some.injEq] at ht
    subst ht
    simp [hkey, hthread, playbackStarts, audioDatagrams]
  | Receive Ret w dg =>
    simp only [step, Option.some.injEq] at ht
    subst ht
    simp only [Receive]
    split_ifs <;>
      simp [SendOP, emit, hkey, hthread, playbackStarts, audioDatagrams, List.count_singleton]
  | Heartbeat =>
    simp only [step, Option.some.injEq] at ht
    subst ht
    simp only [Heartbeat]
    split_ifs <;>
      simp [SendOP, emit, hkey, hthread, playbackStarts, audioDatagrams, List.count_singleton]

/-- As long as no `SESSION_DESCIPTION` with a non-empty key has been handled, the
socket holds no key, has no playback thread, and its log gains neither a thread
start nor an audio datagram. -/
theorem cold_run (rt : Runtime) (evs : List Event) :
    ∀ s t : CVoiceSocket, s.m_SecKey = [] → s.m_Playback = Thread.idle →
      (∀ key, key ≠ [] → Event.Message (Message.SESSION_DESCIPTION (some key)) ∉ evs) →
      run rt s evs = some t →
      t.m_SecKey = [] ∧ t.m_Playback = Thread.idle ∧
      playbackStarts t = playbackStarts s ∧
      audioDatagrams t = audioDatagrams s := by
  induction evs with
  | nil =>
    intro s t hkey hthread _ ht
    simp only [run, Option.some.injEq] at ht
    subst ht
    exact ⟨hkey, hthread, rfl, rfl⟩
  | cons e rest ih =>
    intro s t hkey hthread hno ht
    simp only [run] at ht
    cases hs : step rt s e with
    | none => rw [hs] at ht; cases ht
    | some m =>
      rw [hs] at ht
      have hstep := cold_step rt s m e hkey hthread (fun key hne heq =>
        hno key hne (by rw [heq]; exact List.mem_cons_self _ _)) hs
      have hrest := ih m t hstep.1 hstep.2.1 (fun key hne hmem =>
        hno key hne (List.mem_cons_of_mem _ hmem)) ht
      exact ⟨hrest.1, hrest.2.1, hrest.2.2.1.trans hstep.2.2.1, hrest.2.2.2.trans hstep.2.2.2⟩

/-- C8: `StartSpeaking` on a socket without a key only stores the source; and
in every history of a newly constructed voice socket, an event that creates a
playback thread, or one that puts an audio datagram on UDP, has a
`SESSION_DESCIPTION` carrying a non-empty key at or before it. -/
theorem playback_only_after_key (rt : Runtime) (json : ServerUpdate) (SessionID ClientID : String)
    (u : Indeterminate) :
    (∀ (s : CVoiceSocket) (Source : AudioSource), s.m_SecKey = [] →
      StartSpeaking rt s Source = { s with m_Source := Source }) ∧
    (∀ (before : List Event) (e : Event) (s t : CVoiceSocket),
      run rt (create json SessionID ClientID u) before = some s → step rt s e = some t →
      (playbackStarts s < playbackStarts t ∨
        (audioDatagrams s).length < (audioDatagrams t).length) →
      ∃ key, key ≠ [] ∧
        Event.Message (Message.SESSION_DESCIPTION (some key)) ∈ before ++ [e]) := by
  constructor
  · intro s Source hkey
    simp [StartSpeaking, hkey]
  · intro before e s t hrun hstep hgrow
    by_contra hnone
    have hno : ∀ key, key ≠ [] →
        Event.Message (Message.SESSION_DESCIPTION (some key)) ∉ before ++ [e] :=
      fun key hne hmem => hnone ⟨key, hne, hmem⟩
    have hcold := cold_run rt before (create json SessionID ClientID u) s rfl rfl
      (fun key hne hmem => hno key hne (List.mem_append_left _ hmem)) hrun
    have hs := cold_step rt s t e hcold.1 hcold.2.1 (fun key hne heq =>
      hno key hne (by rw [heq]; simp)) hstep
    rcases hgrow with hgrow | hgrow
    · rw [hs.2.2.1] at hgrow
      exact Nat.lt_irrefl _ hgrow
    · rw [hs.2.2.2] at hgrow
      exact Nat.lt_irrefl _ hgrow

/-- On the fresh test socket the thread start of `StartSpeaking (some 1)` follows
the key of the first event. -/
theorem playback_only_after_key_witness :
    ∃ key, key ≠ [] ∧ Event.Message (Message.SESSION_DESCIPTION (some key))
      ∈ [Event.Message (Message.SESSION_DESCIPTION (some [7]))] ++ [Event.StartSpeaking (some 1)] :=
  (playback_only_after_key bigEndianRuntime ⟨"token", "guild", "voice.example:443"⟩ "session"
    "bot" ⟨false, 1, 0⟩).2
    [Event.Message (Message.SESSION_DESCIPTION (some [7]))] (Event.StartSpeaking (some 1))
    _ _ rfl rfl (Or.inl (by decide))

/-- C9 as stated fails: a session that plays two sources one after the other
sends two audio datagrams that both carry sequence number 1; and on a
little-endian host the two datagrams of one run both carry 0. -/
theorem sequence_number_reused_counterexample :
    ((run bigEndianRuntime freshSocket twoRuns).map fun s =>
      (audioDatagrams s).map fun Data => beValue ((Data.drop 2).take 2)) = some [1, 1] ∧
    ((run littleEndianRuntime freshSocket twoFrames).map fun s =>
      (audioDatagrams s).map fun Data => beValue ((Data.drop 2).take 2)) = some [0, 0] := by
  decide

end CVoiceSocket

/-! ## Maps of voice sockets -/

theorem lookup_filter_ne {V : Type} (l : List (String × V)) (k x : String) :
    (l.filter fun e => e.1 != k).lookup x = if x = k then none else l.lookup x := by
  induction l with
  | nil => simp
  | cons e rest ih =>
    obtain ⟨a, v⟩ := e
    by_cases hak : a = k
    · subst hak
      simp only [List.filter_cons, bne_self_eq_false, Bool.false_eq_true, if_false, ih,
        List.lookup_cons]
      by_cases hx : x = a
      · simp [hx]
      · have : (x == a) = false := by simpa using hx
        simp [hx, this]
    · have hne : (a != k) = true := by simpa using hak
      simp only [List.filter_cons, hne, if_true, List.lookup_cons, ih]
      by_cases hx : x = k
      · subst hx
        have : (x == a) = false := by simpa using fun h : x = a => hak h.symm
        simp [this]
      · simp [hx]

theorem table_find_empty {V : Type} (k : String) : (Table.empty : Table V).find k = none := rfl

theorem table_find_erase {V : Type} (m : Table V) (k x : String) :
    (m.erase k).find x = if x = k then none else m.find x := by
  simp only [Table.erase, Table.find]
  exact lookup_filter_ne m.entries k x

theorem table_find_insert {V : Type} (m : Table V) (k x : String) (v : V) :
    (m.insert k v).find x = if x = k then some v else m.find x := by
  simp only [Table.insert, Table.find, List.lookup_cons]
  by_cases hx : x = k
  · simp [hx]
  · have : (x == k) = false := by simpa using hx
    simp only [this, hx, if_false]
    have := table_find_erase m k x
    simp only [Table.find, hx, if_false] at this
    exact this

theorem table_erase_erase {V : Type} (m : Table V) (k : String) :
    (m.erase k).erase k = m.erase k := by
  simp [Table.erase, List.filter_filter]

theorem table_erase_insert {V : Type} (m : Table V) (k : String) (v : V) :
    (m.insert k v).erase k = m.erase k := by
  simp [Table.erase, Table.insert, List.filter_filter]

theorem table_insert_insert {V : Type} (m : Table V) (k : String) (a b : V) :
    (m.insert k a).insert k b = m.insert k b := by
  have h := table_erase_insert m k a
  simp only [Table.insert, Table.erase, Table.mk.injEq] at h ⊢
  rw [h]

theorem table_erase_of_find_none {V : Type} (m : Table V) (k : String)
    (h : m.find k = none) : m.erase k = m := by
  obtain ⟨l⟩ := m
  simp only [Table.erase, Table.find, Table.mk.injEq] at h ⊢
  induction l with
  | nil => rfl
  | cons e rest ih =>
    obtain ⟨a, v⟩ := e
    simp only [List.lookup_cons] at h
    by_cases hak : k = a
    · subst hak; simp at h
    · have hb : (k == a) = false := by simpa using hak
      simp only [hb] at h
      have hne : (a != k) = true := by simpa using fun h : a = k => hak h.symm
      simp only [List.filter_cons, hne, if_true, ih h]


/-! ## The gateway client: HELLO and VOICE_STATE_UPDATE -/

namespace CDiscordClient

theorem CreateMember_frame (s : CDiscordClient) (json : MemberJson) (s1 : CDiscordClient)
    (m : CGuildMember) (h : s.CreateMember json = some (s1, m)) : SameSession s1 s := by
  unfold CreateMember at h
  cases hu : json.user with
  | absent => simp [hu] at h; obtain ⟨h1, _⟩ := h; subst h1; simp [SameSession]
  | malformed => simp [hu] at h
  | value user =>
    simp only [hu] at h
    cases hf : s.m_Users.find user.id with
    | some it => simp [hf] at h; obtain ⟨h1, _⟩ := h; subst h1; simp [SameSession]
    | none => simp [hf, CreateUser] at h; obtain ⟨h1, _⟩ := h; subst h1; simp [SameSession]

theorem storeGuild_frame (s : CDiscordClient) (b : Bool) (k : String) (g : CGuild) :
    SameSession (s.storeGuild b k g) s := by
  cases b <;> simp [storeGuild, SameSession]

theorem findMember_frame (s : CDiscordClient) (json : VoiceStateJson) (g : CGuild)
    (Member : CGuildMember) (key : Option String) (s1 : CDiscordClient) (g1 : CGuild)
    (h : s.findMember json g = some (Member, key, s1, g1)) :
    SameSession s1 s ∧ g1.ID = g.ID := by
  unfold findMember at h
  cases hm : g.Members.find json.user_id with
  | some m =>
    simp [hm] at h
    obtain ⟨_, _, h1, h2⟩ := h
    subst h1; subst h2
    simp [SameSession]
  | none =>
    simp only [hm] at h
    cases hj : json.member with
    | none => simp [hj] at h
    | some JMember =>
      simp only [hj] at h
      cases hc : s.CreateMember JMember with
      | none => simp [hc] at h
      | some r =>
        obtain ⟨s2, M⟩ := r
        simp only [hc] at h
        have hframe := CreateMember_frame s JMember s2 M hc
        cases hu : M.UserRef with
        | none =>
          simp [hu] at h
          obtain ⟨_, _, h1, h2⟩ := h
          subst h1; subst h2
          exact ⟨hframe, rfl⟩
        | some u =>
          simp [hu] at h
          obtain ⟨_, _, h1, h2⟩ := h
          subst h1; subst h2
          exact ⟨hframe, rfl⟩

theorem setState_ID (g : CGuild) (Member : CGuildMember) (key : Option String)
    (State : VoiceState) : (setState g Member key State).ID = g.ID := by
  cases key <;> rfl

/-- What `CreateVoiceState` without a guild argument returns, as far as the
`VOICE_STATE_UPDATE` handler looks at it. -/
theorem CreateVoiceState_frame (s : CDiscordClient) (json : VoiceStateJson) :
    SameSession (s.CreateVoiceState json none).client s ∧
    (s.CreateVoiceState json none).Ret.UserRef = s.m_Users.find json.user_id ∧
    (s.m_Guilds.find json.guild_id = none → (s.CreateVoiceState json none).guild = none) ∧
    (∀ g, s.m_Guilds.find json.guild_id = some g →
      (s.CreateVoiceState json none).Ret.ChannelRef = g.Channels.find json.channel_id ∧
      ∃ g1, (s.CreateVoiceState json none).guild = some g1 ∧ g1.ID = g.ID) := by
  unfold CreateVoiceState
  cases hg : s.m_Guilds.find json.guild_id with
  | none => simp [SameSession]
  | some g =>
    simp only
    cases hf : s.findMember json g with
    | none => simp [SameSession]
    | some r =>
      obtain ⟨Member, key, s1, g1⟩ := r
      have hframe := findMember_frame s json g Member key s1 g1 hf
      simp only
      by_cases hc : (g.Channels.find json.channel_id).isNone
      · simp only [hc, if_true]
        refine ⟨?_, trivial, by simp, ?_⟩
        · have := storeGuild_frame s1 false json.guild_id (setState g1 Member key none)
          simp only [SameSession] at this hframe ⊢
          simp_all
        · intro g' hg'
          simp at hg'
          subst hg'
          refine ⟨rfl, _, rfl, ?_⟩
          rw [setState_ID]; exact hframe.2
      · simp only [hc]
        refine ⟨?_, rfl, by simp, ?_⟩
        · have := storeGuild_frame s1 false json.guild_id (setState g1 Member key
            (some { GuildRef := some g.ID, UserRef := s.m_Users.find json.user_id,
                    ChannelRef := g.Channels.find json.channel_id,
                    SessionID := json.session_id, Deaf := json.deaf, Mute := json.mute,
                    SelfDeaf := json.self_deaf, SelfMute := json.self_mute,
                    SelfStream := json.self_stream, Supress := json.suppress }))
          simp only [SameSession] at this hframe ⊢
          simp_all
        · intro g' hg'
          simp at hg'
          subst hg'
          refine ⟨rfl, _, rfl, ?_⟩
          rw [setState_ID]; exact hframe.2

/-- What `SendIdentity` hands to `SendOP`. -/
theorem SendIdentity_sent (s : CDiscordClient) :
    sent s.SendIdentity = sent s ++ [(OPCodes.IDENTIFY, Payload.identify
      { Token := s.m_Token,
        Properties := [("$os", "linux"), ("$browser", "linux"), ("$device", "linux")],
        Intents := Intent.GUILDS.bits ||| Intent.GUILD_VOICE_STATES.bits
          ||| Intent.GUILD_MESSAGES.bits ||| Intent.DIRECT_MESSAGES.bits })] := by
  simp [SendIdentity, SendOP, emit, sent]

/-- What `SendResume` hands to `SendOP`. -/
theorem SendResume_sent (s : CDiscordClient) :
    sent s.SendResume = sent s ++ [(OPCodes.RESUME, Payload.resume
      { Token := s.m_Token, SessionID := s.m_SessionID, Seq := s.m_LastSeqNum })] := by
  simp [SendResume, SendOP, emit, sent]

/-- The handler of `HELLO` when no heartbeat thread of an earlier connection is
still running: it returns, with the ack flag set and a new thread started; the
maps are as they were. -/
theorem HELLO_fresh (s : CDiscordClient) (interval : Nat)
    (h : s.m_Heartbeat = false ∨ s.heartbeatReturned = true) :
    ∃ t, HELLO s (some interval) = Outcome.returned t ∧
      sent t = sent (if s.m_SessionID.isEmpty then s.SendIdentity else s.SendResume) ∧
      t.m_HeartACKReceived = true ∧ t.m_Terminate = false ∧
      t.m_Heartbeat = true ∧ t.heartbeatReturned = false ∧
      t.m_Users = s.m_Users ∧ t.m_Guilds = s.m_Guilds ∧
      t.m_VoiceSockets = s.m_VoiceSockets ∧ t.m_AudioSources = s.m_AudioSources ∧
      t.m_SessionID = s.m_SessionID ∧ t.m_BotUser = s.m_BotUser ∧
      t.m_Controller = s.m_Controller ∧ t.allocated = s.allocated := by
  cases he : s.m_SessionID.isEmpty <;> cases hh : s.m_Heartbeat <;>
    cases hr : s.heartbeatReturned <;>
    first
    | (exfalso; rcases h with h | h <;> simp_all; done)
    | simp [HELLO, joinHeartbeat, SendIdentity, SendResume, SendOP, emit, sent, he, hh, hr]

/-- The handler of `HELLO` while the heartbeat thread of an earlier connection
is still running: the join lets that thread send a heartbeat and then take the
reconnect branch. The handler ends with the ack flag clear and `m_Users` and
`m_Guilds` empty; it returns when no voice socket holds a joinable thread, and
the process ends otherwise. -/
theorem HELLO_alive (s : CDiscordClient) (interval : Nat)
    (hh : s.m_Heartbeat = true) (hr : s.heartbeatReturned = false) :
    ∃ t, (s.m_VoiceSockets.values.any CVoiceSocket.joinable = false →
        HELLO s (some interval) = Outcome.returned t ∧ t.m_VoiceSockets = Table.empty ∧
        t.m_Terminate = true) ∧
      (s.m_VoiceSockets.values.any CVoiceSocket.joinable = true →
        HELLO s (some interval) = Outcome.terminated t ∧
        t.m_VoiceSockets = s.m_VoiceSockets) ∧
      sent t = sent (if s.m_SessionID.isEmpty then s.SendIdentity else s.SendResume)
        ++ [(OPCodes.HEARTBEAT,
          Payload.heartbeat (if s.m_LastSeqNum ≠ -1 then toString s.m_LastSeqNum else ""))] ∧
      t.m_HeartACKReceived = false ∧ t.m_Users = Map.empty ∧ t.m_Guilds = Map.empty ∧
      t.m_AudioSources = s.m_AudioSources ∧
      t.m_SessionID = s.m_SessionID ∧ t.m_BotUser = s.m_BotUser := by
  cases he : s.m_SessionID.isEmpty <;> cases hc : s.m_Controller <;>
    cases hj : s.m_VoiceSockets.values.any CVoiceSocket.joinable <;>
    cases hH : HELLO s (some interval) <;>
    (have hH2 := hH
     simp [HELLO, joinHeartbeat, Heartbeat, SendIdentity, SendResume, SendOP, emit, he, hh,
       hr, hc, hj] at hH2) <;>
    (rename_i t
     refine ⟨t, ?_⟩
     subst hH2
     simp [SendIdentity, SendResume, SendOP, emit, sent])

/-- The join of a joinable heartbeat thread returns only when the function of
the thread has returned: the two passes of `joinHeartbeat` are enough. -/
theorem joinHeartbeat_returned (s t : CDiscordClient) (hh : s.m_Heartbeat = true)
    (h : joinHeartbeat s = Outcome.returned t) : t.heartbeatReturned = true := by
  cases hr : s.heartbeatReturned <;> cases h2 : s.m_Terminate <;>
    cases h3 : s.m_HeartACKReceived <;> cases h4 : s.m_Controller <;>
    cases h5 : s.m_VoiceSockets.values.any CVoiceSocket.joinable <;>
    simp [joinHeartbeat, Heartbeat, hh, hr, h2, h3, h4, h5, emit, SendOP] at h <;>
    (subst h; first | rfl | exact hr)

/-- C1 (the code departs from it while a heartbeat thread is still running): on
a `HELLO` whose `heartbeat_interval` parses exactly one of `IDENTIFY` and
`RESUME` is sent: `IDENTIFY` (op 2) with the token, the three `"linux"`
properties and the intent mask when the stored session ID is empty, otherwise
`RESUME` (op 6) with the stored token, session ID and last sequence number.
When no heartbeat thread of an earlier connection is running the handler
returns with the ack-received flag set. When such a thread is running, the
handler has cleared `m_Terminate` before it joins the thread: the thread sends a
`HEARTBEAT`, clears the flag and reconnects, and the handler ends (it returns,
or the process ends with a voice socket) with the ack-received flag clear. -/
theorem hello_identify_or_resume (s : CDiscordClient) (interval : Nat) :
    (∃ t, (HELLO s (some interval) = Outcome.returned t ∨
        HELLO s (some interval) = Outcome.terminated t) ∧
      sent t = sent s
        ++ [if s.m_SessionID = "" then
              (OPCodes.IDENTIFY, Payload.identify
                { Token := s.m_Token,
                  Properties := [("$os", "linux"), ("$browser", "linux"), ("$device", "linux")],
                  Intents := Intent.GUILDS.bits ||| Intent.GUILD_VOICE_STATES.bits
                    ||| Intent.GUILD_MESSAGES.bits ||| Intent.DIRECT_MESSAGES.bits })
            else
              (OPCodes.RESUME, Payload.resume
                { Token := s.m_Token, SessionID := s.m_SessionID, Seq := s.m_LastSeqNum })]
        ++ (if s.m_Heartbeat = true ∧ s.heartbeatReturned = false then
              [(OPCodes.HEARTBEAT,
                Payload.heartbeat (if s.m_LastSeqNum ≠ -1 then toString s.m_LastSeqNum else ""))]
            else [])) ∧
    ((s.m_Heartbeat = false ∨ s.heartbeatReturned = true) →
      ∃ t, HELLO s (some interval) = Outcome.returned t ∧ t.m_HeartACKReceived = true) ∧
    (s.m_Heartbeat = true → s.heartbeatReturned = false →
      ∀ t, HELLO s (some interval) = Outcome.returned t ∨
          HELLO s (some interval) = Outcome.terminated t →
        t.m_HeartACKReceived = false ∧ t.m_Users = Map.empty ∧ t.m_Guilds = Map.empty) ∧
    OPCodes.IDENTIFY.toNat = 2 ∧ OPCodes.RESUME.toNat = 6 := by
  have hfirst : sent (if s.m_SessionID.isEmpty then s.SendIdentity else s.SendResume)
      = sent s ++ [if s.m_SessionID = "" then
              (OPCodes.IDENTIFY, Payload.identify
                { Token := s.m_Token,
                  Properties := [("$os", "linux"), ("$browser", "linux"), ("$device", "linux")],
                  Intents := Intent.GUILDS.bits ||| Intent.GUILD_VOICE_STATES.bits
                    ||| Intent.GUILD_MESSAGES.bits ||| Intent.DIRECT_MESSAGES.bits })
            else
              (OPCodes.RESUME, Payload.resume
                { Token := s.m_Token, SessionID := s.m_SessionID, Seq := s.m_LastSeqNum })] := by
    by_cases he : s.m_SessionID = ""
    · have hi : s.m_SessionID.isEmpty = true := (String.isEmpty_iff _).2 he
      rw [if_pos hi, if_pos he, SendIdentity_sent]
    · have hi : ¬ s.m_SessionID.isEmpty = true := fun h => he ((String.isEmpty_iff _).1 h)
      rw [if_neg hi, if_neg he, SendResume_sent]
  refine ⟨?_, ?_, ?_, rfl, rfl⟩
  · by_cases halive : s.m_Heartbeat = true ∧ s.heartbeatReturned = false
    · obtain ⟨t, hret, hterm, hsent, _⟩ := HELLO_alive s interval halive.1 halive.2
      refine ⟨t, ?_, ?_⟩
      · cases hj : s.m_VoiceSockets.values.any CVoiceSocket.joinable
        · exact Or.inl (hret hj).1
        · exact Or.inr (hterm hj).1
      · rw [hsent, hfirst, if_pos halive]
    · have hfresh : s.m_Heartbeat = false ∨ s.heartbeatReturned = true := by
        cases hh : s.m_Heartbeat
        · exact Or.inl rfl
        · cases hr : s.heartbeatReturned
          · exact absurd ⟨hh, hr⟩ halive
          · exact Or.inr rfl
      obtain ⟨t, ht, hsent, _⟩ := HELLO_fresh s interval hfresh
      exact ⟨t, Or.inl ht, by rw [hsent, hfirst, if_neg halive, List.append_nil]⟩
  · intro hfresh
    obtain ⟨t, ht, _, hack, _⟩ := HELLO_fresh s interval hfresh
    exact ⟨t, ht, hack⟩
  · intro hh hr t ht
    obtain ⟨t1, hret, hterm, _, hack, hu, hg, _⟩ := HELLO_alive s interval hh hr
    have heq : t = t1 := by
      cases hj : s.m_VoiceSockets.values.any CVoiceSocket.joinable
      · have h1 := (hret hj).1
        rcases ht with ht | ht
        · rw [h1] at ht; exact (Outcome.returned.inj ht).symm
        · rw [h1] at ht; cases ht
      · have h1 := (hterm hj).1
        rcases ht with ht | ht
        · rw [h1] at ht; cases ht
        · rw [h1] at ht; exact (Outcome.terminated.inj ht).symm
    rw [heq]
    exact ⟨hack, hu, hg⟩

/-- A connected client whose heartbeat thread is running receives a second
`HELLO`: the handler returns with the ack-received flag clear, after a `RESUME`
and a `HEARTBEAT` have been sent. -/
theorem hello_identify_or_resume_witness :
    ∃ t, HELLO connected (some 41250) = Outcome.returned t ∧ t.m_HeartACKReceived = false ∧
      sent t = [(OPCodes.RESUME, Payload.resume { Token := "token", SessionID := "session", Seq := 6 }),
        (OPCodes.HEARTBEAT, Payload.heartbeat "6")] := by
  obtain ⟨t, ht⟩ : ∃ t, HELLO connected (some 41250) = Outcome.returned t := ⟨_, rfl⟩
  refine ⟨t, ht, ((hello_identify_or_resume connected 41250).2.2.1 rfl rfl t (Or.inl ht)).1, ?_⟩
  have h := congrArg (fun o => o.toOption.map sent) ht
  simp only [Outcome.toOption, Option.map_some'] at h
  rw [← Option.some.inj h]
  decide

/-- C2 (as amended): on a `HELLO` with an empty prior session the intent mask of
the `IDENTIFY` sent is `0x0081` (`1 | 128`) united with `0x1200` (`512 | 4096`),
and that mask equals `0x1281`. The `IDENTIFY` is the only payload sent, unless
the heartbeat thread of an earlier connection is still running, which sends one
`HEARTBEAT` after it. -/
theorem identify_intent_mask (s : CDiscordClient) (interval : Nat) (hempty : s.m_SessionID = "") :
    ∃ (id : SIdentify) (t : CDiscordClient),
      (HELLO s (some interval) = Outcome.returned t ∨
        HELLO s (some interval) = Outcome.terminated t) ∧
      sent t = sent s ++ [(OPCodes.IDENTIFY, Payload.identify id)]
        ++ (if s.m_Heartbeat = true ∧ s.heartbeatReturned = false then
              [(OPCodes.HEARTBEAT,
                Payload.heartbeat (if s.m_LastSeqNum ≠ -1 then toString s.m_LastSeqNum else ""))]
            else []) ∧
      ((s.m_Heartbeat = false ∨ s.heartbeatReturned = true) →
        HELLO s (some interval) = Outcome.returned t ∧
        sent t = sent s ++ [(OPCodes.IDENTIFY, Payload.identify id)]) ∧
      id.Intents = 0x0081 ||| 0x1200 ∧ id.Intents = 0x1281 ∧
      (0x0081 : Nat) = 1 ||| 128 ∧ (0x1200 : Nat) = 512 ||| 4096 := by
  have hi : s.m_SessionID.isEmpty = true := (String.isEmpty_iff _).2 hempty
  by_cases halive : s.m_Heartbeat = true ∧ s.heartbeatReturned = false
  · obtain ⟨t, hret, hterm, hsent, _⟩ := HELLO_alive s interval halive.1 halive.2
    refine ⟨⟨s.m_Token, [("$os", "linux"), ("$browser", "linux"), ("$device", "linux")],
      Intent.GUILDS.bits ||| Intent.GUILD_VOICE_STATES.bits
        ||| Intent.GUILD_MESSAGES.bits ||| Intent.DIRECT_MESSAGES.bits⟩,
      t, ?_, ?_, ?_, rfl, rfl, by decide, by decide⟩
    · cases hj : s.m_VoiceSockets.values.any CVoiceSocket.joinable
      · exact Or.inl (hret hj).1
      · exact Or.inr (hterm hj).1
    · rw [hsent, if_pos hi, SendIdentity_sent, if_pos halive]
    · intro hfresh
      rcases hfresh with h | h
      · rw [halive.1] at h; cases h
      · rw [halive.2] at h; cases h
  · have hfresh : s.m_Heartbeat = false ∨ s.heartbeatReturned = true := by
      cases hh : s.m_Heartbeat
      · exact Or.inl rfl
      · cases hr : s.heartbeatReturned
        · exact absurd ⟨hh, hr⟩ halive
        · exact Or.inr rfl
    obtain ⟨t, ht, hsent, _⟩ := HELLO_fresh s interval hfresh
    have hs : sent t = sent s ++ [(OPCodes.IDENTIFY, Payload.identify
        { Token := s.m_Token,
          Properties := [("$os", "linux"), ("$browser", "linux"), ("$device", "linux")],
          Intents := Intent.GUILDS.bits ||| Intent.GUILD_VOICE_STATES.bits
            ||| Intent.GUILD_MESSAGES.bits ||| Intent.DIRECT_MESSAGES.bits })] := by
      rw [hsent, if_pos hi, SendIdentity_sent]
    exact ⟨_, t, Or.inl ht, by rw [hs, if_neg halive, List.append_nil], fun _ => ⟨ht, hs⟩,
      rfl, rfl, by decide, by decide⟩

/-- The mask a client without a session sends. -/
theorem identify_intent_mask_witness :
    ∃ (id : SIdentify) (t : CDiscordClient),
      HELLO newClient (some 41250) = Outcome.returned t ∧
      sent t = sent newClient ++ [(OPCodes.IDENTIFY, Payload.identify id)] ∧
      id.Intents = 0x1281 := by
  obtain ⟨id, t, _, _, hfresh, _, hmask, _⟩ := identify_intent_mask newClient 41250 rfl
  exact ⟨id, t, (hfresh (Or.inl rfl)).1, (hfresh (Or.inl rfl)).2, hmask⟩

/-- C2 as stated fails: the `IDENTIFY` sent on the `HELLO` of scenario 1 carries
the mask 4737 = `0x1281`, and neither it nor `0x0081 | 0x1200` is `0x1381`. -/
theorem identify_intent_mask_counterexample :
    (HELLO newClient (some 41250)).toOption.map sent = some [(OPCodes.IDENTIFY, Payload.identify
      { Token := "token",
        Properties := [("$os", "linux"), ("$browser", "linux"), ("$device", "linux")],
        Intents := 4737 })] ∧
    (4737 : Nat) ≠ 0x1381 ∧ (0x0081 ||| 0x1200 : Nat) ≠ 0x1381 := by
  decide

/-- C7 (as amended): when a controller is registered, the guild of the payload
is cached under `guild_id` with that ID and without a channel keyed by the
empty string, the bot's user is cached under its ID, and the voice socket stored
for the guild (if there is one) holds no joinable thread, a `VOICE_STATE_UPDATE`
for the bot with a null `channel_id` leaves no entry for `guild_id` in
`m_VoiceSockets`; when no controller is registered the handler leaves
`m_VoiceSockets` as it was. In the first case a stored voice socket that holds a
joinable thread is destroyed by the erase: the process ends. -/
theorem voice_session_removed_on_leave (s : CDiscordClient) (S : Int) (json : VoiceStateJson) :
    (∀ (bot u : CUser) (g : CGuild),
      s.m_Controller = true → s.m_BotUser = some bot → json.user_id = bot.ID →
      json.channel_id = "" →
      s.m_Guilds.find json.guild_id = some g → g.ID = json.guild_id →
      g.Channels.find "" = none →
      s.m_Users.find bot.ID = some u → u.ID = bot.ID →
      ((∀ v, s.m_VoiceSockets.find json.guild_id = some v → v.joinable = false) →
        ∃ s1, VOICE_STATE_UPDATE s S json = Outcome.returned s1 ∧
          s1.m_VoiceSockets.find json.guild_id = none) ∧
      (∀ v, s.m_VoiceSockets.find json.guild_id = some v → v.joinable = true →
        ∃ s1, VOICE_STATE_UPDATE s S json = Outcome.terminated s1 ∧
          s1.m_VoiceSockets = s.m_VoiceSockets)) ∧
    (s.m_Controller = false →
      ∃ s1, VOICE_STATE_UPDATE s S json = Outcome.returned s1 ∧
        s1.m_VoiceSockets = s.m_VoiceSockets) := by
  obtain ⟨hsame, huser, _, hguild⟩ := CreateVoiceState_frame { s with m_LastSeqNum := S } json
  obtain ⟨hctl, hbotsame, hvs, _⟩ := hsame
  constructor
  · intro bot u g hc hbot huid hch hg hgid hnoch hu huID
    obtain ⟨hchan, g1, hg1, hg1id⟩ := hguild g hg
    have hctl1 : ({ s with m_LastSeqNum := S }.CreateVoiceState json none).client.m_Controller
        = true := by rw [hctl]; exact hc
    have hbot1 : ({ s with m_LastSeqNum := S }.CreateVoiceState json none).client.m_BotUser
        = some bot := by rw [hbotsame]; exact hbot
    have huser1 : ({ s with m_LastSeqNum := S }.CreateVoiceState json none).Ret.UserRef
        = some u := by rw [huser, huid]; exact hu
    have hchan1 : ({ s with m_LastSeqNum := S }.CreateVoiceState json none).Ret.ChannelRef
        = none := by rw [hchan, hch]; exact hnoch
    have hkey : g1.ID = json.guild_id := hg1id.trans hgid
    have hvs1 : ({ s with m_LastSeqNum := S }.CreateVoiceState json none).client.m_VoiceSockets
        = s.m_VoiceSockets := hvs
    constructor
    · intro hnj
      cases hf : s.m_VoiceSockets.find json.guild_id with
      | none =>
        simp only [VOICE_STATE_UPDATE, hctl1, hg1, huser1, hbot1, hchan1, huID, hkey, hvs1, hf]
        cases g1.Members.find bot.ID with
        | none => exact ⟨_, rfl, by simpa [hvs1] using hf⟩
        | some Member => exact ⟨_, rfl, by simpa [emit, hvs1] using hf⟩
      | some v =>
        have hv := hnj v hf
        simp only [VOICE_STATE_UPDATE, hctl1, hg1, huser1, hbot1, hchan1, huID, hkey, hvs1, hf, hv]
        cases g1.Members.find bot.ID with
        | none => exact ⟨_, rfl, by simp [hvs1, table_find_erase]⟩
        | some Member => exact ⟨_, rfl, by simp [emit, hvs1, table_find_erase]⟩
    · intro v hf hv
      simp only [VOICE_STATE_UPDATE, hctl1, hg1, huser1, hbot1, hchan1, huID, hkey, hvs1, hf, hv]
      exact ⟨_, rfl, hvs1⟩
  · intro hc
    have hctl1 : ({ s with m_LastSeqNum := S }.CreateVoiceState json none).client.m_Controller
        = false := by rw [hctl]; exact hc
    simp only [VOICE_STATE_UPDATE, hctl1]
    exact ⟨_, rfl, hvs⟩

/-- With a controller registered the bot's leaving removes the voice session of
`"guild"`, whose socket has not connected. -/
theorem voice_session_removed_on_leave_witness :
    ∃ s1, VOICE_STATE_UPDATE (inVoice true true true) 7 botLeaves = Outcome.returned s1 ∧
      s1.m_VoiceSockets.find "guild" = none :=
  ((voice_session_removed_on_leave (inVoice true true true) 7 botLeaves).1 botUser botUser botGuild
    rfl rfl rfl rfl rfl rfl rfl rfl rfl).1 (by decide)

/-- C7 as stated fails: without a registered controller the voice session of
`"guild"` is still in `m_VoiceSockets` after the bot's `VOICE_STATE_UPDATE` with
a null `channel_id`; the same holds, with a controller, when the guild or the
bot's user is not cached. And when the voice socket of `"guild"` has connected
(its heartbeat thread is running) the handler does not return: the erase
destroys the socket and the process ends. -/
theorem voice_session_kept_counterexample :
    ((VOICE_STATE_UPDATE (inVoice false true true) 7 botLeaves).toOption.map
      fun s => (s.m_VoiceSockets.find botLeaves.guild_id).isSome) = some true ∧
    ((VOICE_STATE_UPDATE (inVoice true false true) 7 botLeaves).toOption.map
      fun s => (s.m_VoiceSockets.find botLeaves.guild_id).isSome) = some true ∧
    ((VOICE_STATE_UPDATE (inVoice true true false) 7 botLeaves).toOption.map
      fun s => (s.m_VoiceSockets.find botLeaves.guild_id).isSome) = some true ∧
    (VOICE_STATE_UPDATE inVoiceConnected 7 botLeaves).toOption.isNone = true ∧
    (∃ t, VOICE_STATE_UPDATE inVoiceConnected 7 botLeaves = Outcome.terminated t) := by
  refine ⟨by decide, by decide, by decide, by decide, _, rfl⟩

end CDiscordClient

/-! ## End of a playback run, pacing -/

/-- A thread that makes a pass which is not paused while `m_Source` is null
dereferences the null handle. -/
theorem Playback_null_source (rt : Runtime) (s : CVoiceSocket) (its : List Iteration)
    (Ret : Nat) (O : Int) (c : List Nat)
    (hsodium : ¬ rt.sodium_init < 0) (hopus : rt.opus_err = 0) (hstop : s.m_Stop = false)
    (hsrc : s.m_Source = none) (hread : Iteration.read Ret O c ∈ its) :
    CVoiceSocket.Playback rt s its = none := by
  have hany : (its.any fun it => it != Iteration.paused) = true :=
    List.any_eq_true.2 ⟨_, hread, by simp⟩
  simp [CVoiceSocket.Playback, hsodium, hopus, hstop, hsrc, hany]

namespace CDiscordClient

/-- C13 (as amended): a pass of the running heartbeat task that finds the ack
flag clear, while no voice socket stored holds a joinable thread, sends no
payload, closes the socket, empties `m_Users`, `m_Guilds` and `m_VoiceSockets`,
calls `OnDisconnect` once when a controller is registered and not at all when
none is, starts the socket again and ends the task (a further pass does
nothing), and leaves the session ID and the last sequence number as they were;
a pass that finds the flag set sends `HEARTBEAT` (op 1) with the last sequence
number (the empty string while it is -1) and clears the flag. With the flag
clear and a voice socket that holds a joinable thread, `clear()` destroys that
socket and the process ends after the socket has been closed. -/
theorem heartbeat_cycle (s : CDiscordClient) (hrun : s.m_Heartbeat = true)
    (hlive : s.heartbeatReturned = false) (hterm : s.m_Terminate = false) :
    (s.m_HeartACKReceived = false →
      s.m_VoiceSockets.values.any CVoiceSocket.joinable = false →
      ∃ t, Heartbeat s = Outcome.returned t ∧
        sent t = sent s ∧
        t.m_Users = Map.empty ∧ t.m_Guilds = Map.empty ∧ t.m_VoiceSockets = Table.empty ∧
        (s.m_Controller = true →
          t.log = s.log ++ [Action.socketClose, Action.OnDisconnect, Action.socketStart]) ∧
        (s.m_Controller = false →
          t.log = s.log ++ [Action.socketClose, Action.socketStart]) ∧
        t.m_Terminate = true ∧ t.heartbeatReturned = true ∧
        Heartbeat t = Outcome.returned t ∧
        t.m_SessionID = s.m_SessionID ∧ t.m_LastSeqNum = s.m_LastSeqNum) ∧
    (s.m_HeartACKReceived = false →
      s.m_VoiceSockets.values.any CVoiceSocket.joinable = true →
      ∃ t, Heartbeat s = Outcome.terminated t ∧ t.log = s.log ++ [Action.socketClose] ∧
        t.m_VoiceSockets = s.m_VoiceSockets) ∧
    (s.m_HeartACKReceived = true →
      ∃ t, Heartbeat s = Outcome.returned t ∧
        sent t = sent s ++ [(OPCodes.HEARTBEAT,
          Payload.heartbeat (if s.m_LastSeqNum ≠ -1 then toString s.m_LastSeqNum else ""))] ∧
        t.m_HeartACKReceived = false ∧ OPCodes.HEARTBEAT.toNat = 1) := by
  refine ⟨?_, ?_, ?_⟩
  · intro hack hj
    cases hc : s.m_Controller <;>
      simp [Heartbeat, hrun, hlive, hterm, hack, hj, hc, emit, sent]
  · intro hack hj
    simp [Heartbeat, hrun, hlive, hterm, hack, hj, emit]
  · intro hack
    simp [Heartbeat, hrun, hlive, hterm, hack, SendOP, emit, sent, OPCodes.toNat]

/-- A connected client with a controller whose last heartbeat was not
acknowledged: the pass reconnects and calls `OnDisconnect` once. -/
theorem heartbeat_cycle_witness :
    ∃ t, Heartbeat (unacked true) = Outcome.returned t ∧
      t.log = [Action.socketClose, Action.OnDisconnect, Action.socketStart] ∧
      t.m_Terminate = true :=
  match (heartbeat_cycle (unacked true) rfl rfl rfl).1 rfl rfl with
  | ⟨t, h1, _, _, _, _, h2, _, h3, _⟩ => ⟨t, h1, h2 rfl, h3⟩

/-- C13 as stated fails: without a registered controller the pass that
reconnects does not call `OnDisconnect`; and when a voice socket that has
connected is stored, the pass does not get as far as the callback: `clear()`
destroys the socket and the process ends. -/
theorem heartbeat_without_controller_counterexample :
    (Heartbeat (unacked false)).toOption.map callbacks = some [] ∧
    (Heartbeat (unacked false)).toOption.map (fun t => t.log)
      = some [Action.socketClose, Action.socketStart] ∧
    (Heartbeat unackedInVoice).toOption.isNone = true ∧
    (∃ t, Heartbeat unackedInVoice = Outcome.terminated t) := by
  refine ⟨by decide, by decide, by decide, _, rfl⟩

/-- C14 (as amended): on `INVALID_SESSION` with payload `true` a `RESUME` is
sent and the session ID is unchanged; with any other payload the client quits
(the terminate and quit flags are set, nothing is sent) and the session ID is
unchanged as well, so that a later `HELLO` sends `RESUME` when a session ID is
stored. -/
theorem invalid_session (s : CDiscordClient) (S : Int) (D : String) :
    (D = "true" →
      sent (INVALID_SESSION s S D) = sent s ++ [(OPCodes.RESUME, Payload.resume
        { Token := s.m_Token, SessionID := s.m_SessionID, Seq := S })] ∧
      (INVALID_SESSION s S D).m_SessionID = s.m_SessionID) ∧
    (D ≠ "true" →
      INVALID_SESSION s S D = Quit { s with m_LastSeqNum := S } ∧
      (INVALID_SESSION s S D).m_Terminate = true ∧ (INVALID_SESSION s S D).m_Quit = true ∧
      sent (INVALID_SESSION s S D) = sent s ∧
      (INVALID_SESSION s S D).m_SessionID = s.m_SessionID ∧
      (s.m_SessionID ≠ "" → ∀ interval : Nat,
        ∃ t, HELLO (INVALID_SESSION s S D) (some interval) = Outcome.returned t ∧
          sent t = sent s ++ [(OPCodes.RESUME, Payload.resume
              { Token := s.m_Token, SessionID := s.m_SessionID, Seq := S })])) := by
  have hquit : ∀ t : CDiscordClient, (Quit t).m_Terminate = true ∧ (Quit t).m_Quit = true ∧
      sent (Quit t) = sent t ∧ (Quit t).m_SessionID = t.m_SessionID ∧
      (Quit t).m_Token = t.m_Token ∧ (Quit t).m_LastSeqNum = t.m_LastSeqNum ∧
      (Quit t).m_Heartbeat = false := by
    intro t
    cases hh : t.m_Heartbeat <;> cases hc : t.m_Controller <;>
      simp [Quit, hh, hc, emit, sent]
  constructor
  · intro hD
    simp [INVALID_SESSION, hD, SendResume, SendOP, emit, sent]
  · intro hD
    have heq : INVALID_SESSION s S D = Quit { s with m_LastSeqNum := S } := by
      simp [INVALID_SESSION, hD]
    obtain ⟨h1, h2, h3, h4, h5, h6, h7⟩ := hquit { s with m_LastSeqNum := S }
    refine ⟨heq, ?_, ?_, ?_, ?_, ?_⟩
    · rw [heq]; exact h1
    · rw [heq]; exact h2
    · rw [heq, h3]; rfl
    · rw [heq]; exact h4
    · intro hne interval
      have hne1 : ¬ (Quit { s with m_LastSeqNum := S }).m_SessionID.isEmpty = true := by
        rw [h4]
        exact fun h => hne ((String.isEmpty_iff _).1 h)
      obtain ⟨t, ht, hsent, _⟩ := HELLO_fresh (Quit { s with m_LastSeqNum := S }) interval
        (Or.inl h7)
      refine ⟨t, by rw [heq]; exact ht, ?_⟩
      rw [hsent, if_neg hne1, SendResume_sent, h3, h4, h5, h6]
      rfl

/-- A connected client that receives `INVALID_SESSION` with payload `false`. -/
theorem invalid_session_witness :
    (INVALID_SESSION connected 7 "false").m_SessionID = connected.m_SessionID :=
  ((invalid_session connected 7 "false").2 (by decide)).2.2.2.2.1

/-- C14 as stated fails: after `INVALID_SESSION` with payload `false` the stored
session ID is still `"session"`, and the next `HELLO` is answered with `RESUME`. -/
theorem invalid_session_keeps_id_counterexample :
    (INVALID_SESSION connected 7 "false").m_SessionID = "session" ∧
    (INVALID_SESSION connected 7 "false").m_SessionID ≠ "" ∧
    (HELLO (INVALID_SESSION connected 7 "false") (some 41250)).toOption.map sent
      = some [(OPCodes.RESUME,
          Payload.resume { Token := "token", SessionID := "session", Seq := 7 })] := by
  decide

/-- C15 (the code departs from it when the earlier session has connected): when
the guild of a `VOICE_SERVER_UPDATE` is cached under its ID and holds the bot's
member with a voice state, and no voice socket with a joinable thread is stored
for the guild, the handler stores a newly constructed voice socket under
`guild_id`, whatever was stored there; a pending source of that guild is handed
to `StartSpeaking` of the new socket and its entry is erased, and the pending
entries of other guilds stay. When the socket stored for the guild holds a
joinable thread, the assignment destroys it and the process ends; the new
socket is not stored. When the guild or the bot's member is not cached,
`m_VoiceSockets` and `m_AudioSources` stay. -/
theorem voice_server_update (rt : Runtime) (u : CVoiceSocket.Indeterminate) (s : CDiscordClient)
    (S : Int) (json : CVoiceSocket.ServerUpdate) :
    (∀ (g : CGuild) (bot : CUser) (Member : CGuildMember) (State : CVoiceState),
      s.m_Guilds.find json.guild_id = some g → g.ID = json.guild_id →
      s.m_BotUser = some bot → g.Members.find bot.ID = some Member →
      Member.State = some State →
      ((∀ v, s.m_VoiceSockets.find json.guild_id = some v → v.joinable = false) →
        ∃ s1, VOICE_SERVER_UPDATE rt u s S json = Outcome.returned s1 ∧
          s1.m_VoiceSockets.find json.guild_id
            = some (match s.m_AudioSources.find json.guild_id with
                | none => CVoiceSocket.create json State.SessionID bot.ID u
                | some Source => CVoiceSocket.StartSpeaking rt
                    (CVoiceSocket.create json State.SessionID bot.ID u) Source) ∧
          s1.m_AudioSources.find json.guild_id = none ∧
          (∀ k, k ≠ json.guild_id → s1.m_AudioSources.find k = s.m_AudioSources.find k) ∧
          (∀ k, k ≠ json.guild_id → s1.m_VoiceSockets.find k = s.m_VoiceSockets.find k)) ∧
      (∀ v, s.m_VoiceSockets.find json.guild_id = some v → v.joinable = true →
        ∃ s1, VOICE_SERVER_UPDATE rt u s S json = Outcome.terminated s1 ∧
          s1.m_VoiceSockets = s.m_VoiceSockets ∧ s1.m_AudioSources = s.m_AudioSources)) ∧
    (s.m_Guilds.find json.guild_id = none →
      ∃ s1, VOICE_SERVER_UPDATE rt u s S json = Outcome.returned s1 ∧
        s1.m_VoiceSockets = s.m_VoiceSockets ∧ s1.m_AudioSources = s.m_AudioSources) ∧
    (∀ (g : CGuild) (bot : CUser),
      s.m_Guilds.find json.guild_id = some g → s.m_BotUser = some bot →
      g.Members.find bot.ID = none →
      ∃ s1, VOICE_SERVER_UPDATE rt u s S json = Outcome.returned s1 ∧
        s1.m_VoiceSockets = s.m_VoiceSockets ∧ s1.m_AudioSources = s.m_AudioSources) := by
  refine ⟨?_, ?_, ?_⟩
  · intro g bot Member State hg hid hbot hm hst
    have hg0 : Map.find s.m_Guilds json.guild_id = some g := hg
    constructor
    · intro hnj
      have hrep : (match s.m_VoiceSockets.find g.ID with
          | some Old => Old.joinable
          | none => false) = false := by
        rw [hid]
        cases hf : s.m_VoiceSockets.find json.guild_id with
        | none => rfl
        | some v => exact hnj v hf
      cases hsrc : s.m_AudioSources.find json.guild_id with
      | none =>
        have hsrc1 : Map.find s.m_AudioSources g.ID = none := by rw [hid]; exact hsrc
        refine ⟨_, by simp only [VOICE_SERVER_UPDATE, hg0, hbot, hm, hst, hsrc1, hrep]; rfl,
          ?_, ?_, ?_, ?_⟩
        · simp [table_find_insert, hid]
        · exact hsrc
        · intro k _; rfl
        · intro k hk; simp [table_find_insert, hid, hk]
      | some Source =>
        have hsrc1 : Map.find s.m_AudioSources g.ID = some Source := by rw [hid]; exact hsrc
        refine ⟨_, by simp only [VOICE_SERVER_UPDATE, hg0, hbot, hm, hst, hsrc1, hrep]; rfl,
          ?_, ?_, ?_, ?_⟩
        · simp [table_find_insert, hid]
        · simp [Map.find, Map.erase, hid]
        · intro k hk; simp [Map.find, Map.erase, hid, hk]
        · intro k hk; simp [table_find_insert, hid, hk]
    · intro v hf hv
      have hrep : (match s.m_VoiceSockets.find g.ID with
          | some Old => Old.joinable
          | none => false) = true := by
        rw [hid, hf]; exact hv
      exact ⟨{ s with m_LastSeqNum := S },
        by simp only [VOICE_SERVER_UPDATE, hg0, hbot, hm, hst, hrep]; rfl, rfl, rfl⟩
  · intro hg
    have hg0 : Map.find s.m_Guilds json.guild_id = none := hg
    exact ⟨{ s with m_LastSeqNum := S }, by simp only [VOICE_SERVER_UPDATE, hg0], rfl, rfl⟩
  · intro g bot hg hbot hm
    have hg0 : Map.find s.m_Guilds json.guild_id = some g := hg
    exact ⟨{ s with m_LastSeqNum := S }, by simp only [VOICE_SERVER_UPDATE, hg0, hbot, hm], rfl, rfl⟩

/-- The bot is moved while its voice socket for `"guild"` is connected: the
`VOICE_SERVER_UPDATE` that should replace the session ends the process, and the
socket stored is still the old one. -/
theorem voice_server_update_witness :
    ∃ s1, VOICE_SERVER_UPDATE littleEndianRuntime ⟨false, 0, 0⟩ rejoining 7 serverUpdate
        = Outcome.terminated s1 ∧
      s1.m_VoiceSockets = rejoining.m_VoiceSockets :=
  match ((voice_server_update littleEndianRuntime ⟨false, 0, 0⟩ rejoining 7 serverUpdate).1
      _ botUser _ _ rfl rfl rfl rfl rfl).2 connectedSocket rfl rfl with
  | ⟨s1, h1, h2, _⟩ => ⟨s1, h1, h2⟩

end CDiscordClient

/-! ## The gateway client: messages, voice states before the guild, shared users -/

namespace CDiscordClient

theorem findOrCreateUser_guilds (s : CDiscordClient) (json : UserJson) :
    (s.findOrCreateUser json).1.m_Guilds = s.m_Guilds := by
  unfold findOrCreateUser
  cases s.m_Users.find json.id <;> simp [CreateUser]

/-- In a cached guild where the author has a member, every mention appends that
member of the author. -/
theorem addMentions_author (g : CGuild) (a : CUser) (MIT : CGuildMember)
    (hm : g.Members.find a.ID = some MIT) (rest : List UserJson) :
    ∀ (s : CDiscordClient) (acc : List GuildMember),
      ∃ s1, s.addMentions (some g) (some a) acc rest
        = some (s1, acc ++ List.replicate rest.length (some MIT)) := by
  induction rest with
  | nil => intro s acc; exact ⟨s, by simp [addMentions]⟩
  | cons e more ih =>
    intro s acc
    obtain ⟨s1, h1⟩ := ih (s.findOrCreateUser e).1 (acc ++ [some MIT])
    refine ⟨s1, ?_⟩
    simp only [addMentions, hm, h1]
    simp [List.replicate_succ]

/-- Without a guild every mention appends a new member object for the mentioned
user, and `m_Guilds` is not touched. -/
theorem addMentions_no_guild (Author : User) (rest : List UserJson) :
    ∀ (s : CDiscordClient) (acc : List GuildMember),
      ∃ s1 Mentions, s.addMentions none Author acc rest = some (s1, Mentions) ∧
        s1.m_Guilds = s.m_Guilds := by
  induction rest with
  | nil => intro s acc; exact ⟨s, acc, by simp [addMentions], rfl⟩
  | cons e more ih =>
    intro s acc
    obtain ⟨s1, M, h1, h2⟩ := ih (s.findOrCreateUser e).1
      (acc ++ [some { newMember with UserRef := some (s.findOrCreateUser e).2 }])
    exact ⟨s1, M, by simp only [addMentions, h1], by rw [h2, findOrCreateUser_guilds]⟩

/-- C16 (the code departs from it): for a `MESSAGE_CREATE` in a cached guild
whose author has a member in that guild, `Mentions` has one entry per element of
`mentions`, but every entry is the member of the author: the lookup in the loop
uses `Ret->Author->ID`, not the ID of the mentioned user. -/
theorem mentions_hold_author (s : CDiscordClient) (json : MessageJson) (g : CGuild)
    (juser : UserJson) (MIT : CGuildMember)
    (hg : s.m_Guilds.find json.guild_id = some g) (hauthor : json.author = Nested.value juser)
    (hm : g.Members.find (s.findOrCreateUser juser).2.ID = some MIT) :
    ∃ s1 msg, s.CreateMessage json = Outcome.returned (s1, msg) ∧
      msg.Mentions.length = json.mentions.length ∧
      msg.Mentions = List.replicate json.mentions.length (some MIT) := by
  have hg0 : Map.find s.m_Guilds json.guild_id = some g := hg
  obtain ⟨s1, h1⟩ := addMentions_author g (s.findOrCreateUser juser).2 MIT hm json.mentions
    (s.findOrCreateUser juser).1 []
  simp only [CreateMessage, hg0, hauthor, h1]
  exact ⟨_, _, rfl, by simp, by simp⟩

/-- In `"guild"` `"alice"` mentions `"bob"`: the only entry of `Mentions` is the
member of `"alice"`, not a member whose user has the ID `"bob"`. -/
theorem mentions_hold_author_witness :
    ∃ s1 msg, chatting.CreateMessage aliceMentionsBob = Outcome.returned (s1, msg) ∧
      msg.Mentions.length = aliceMentionsBob.mentions.length ∧
      msg.Mentions = List.replicate aliceMentionsBob.mentions.length
        (some { newMember with UserRef := some (cachedUser 1 "alice") }) :=
  mentions_hold_author chatting aliceMentionsBob
    { ID := "guild", Name := "guild", Channels := Map.empty,
      Members := Map.insert (Map.insert Map.empty
        "alice" { newMember with UserRef := some (cachedUser 1 "alice") })
        "bob" { newMember with UserRef := some (cachedUser 2 "bob") } }
    (userJson "alice") { newMember with UserRef := some (cachedUser 1 "alice") } rfl rfl
    (by decide)

/-- C17: a `MESSAGE_CREATE` whose `guild_id` matches no cached guild gives a
message without guild and without member, in a newly made channel that has the
`channel_id` of the payload as `ID` and an empty `GuildID`; `m_Guilds` is not
changed, by `CreateMessage` or by the handler. -/
theorem direct_message (s : CDiscordClient) (S : Int) (json : MessageJson)
    (hg : s.m_Guilds.find json.guild_id = none) (hauthor : json.author ≠ Nested.malformed) :
    (∃ s1 msg, s.CreateMessage json = Outcome.returned (s1, msg) ∧
      msg.GuildRef = none ∧ msg.Member = none ∧
      msg.ChannelRef = some { newChannel with ID := json.channel_id } ∧
      (∀ c, msg.ChannelRef = some c → c.ID = json.channel_id ∧ c.GuildID = "") ∧
      s1.m_Guilds = s.m_Guilds) ∧
    (∃ s2, MESSAGE_CREATE s S json = Outcome.returned s2 ∧ s2.m_Guilds = s.m_Guilds) := by
  have hg0 : Map.find s.m_Guilds json.guild_id = none := hg
  have hcreate : ∀ t : CDiscordClient, Map.find t.m_Guilds json.guild_id = none →
      ∃ s1 msg, t.CreateMessage json = Outcome.returned (s1, msg) ∧
        msg.GuildRef = none ∧ msg.Member = none ∧
        msg.ChannelRef = some { newChannel with ID := json.channel_id } ∧
        s1.m_Guilds = t.m_Guilds := by
    intro t ht
    cases ha : json.author with
    | malformed => exact absurd ha hauthor
    | absent =>
      obtain ⟨s1, M, h1, h2⟩ := addMentions_no_guild none json.mentions t []
      simp only [CreateMessage, ht, ha, h1]
      exact ⟨_, _, rfl, rfl, rfl, rfl, h2⟩
    | value juser =>
      obtain ⟨s1, M, h1, h2⟩ := addMentions_no_guild (some (t.findOrCreateUser juser).2)
        json.mentions (t.findOrCreateUser juser).1 []
      simp only [CreateMessage, ht, ha, h1]
      exact ⟨_, _, rfl, rfl, rfl, rfl, by rw [h2, findOrCreateUser_guilds]⟩
  constructor
  · obtain ⟨s1, msg, h1, h2, h3, h4, h5⟩ := hcreate s hg0
    refine ⟨s1, msg, h1, h2, h3, h4, ?_, h5⟩
    intro c hc
    rw [h4] at hc
    cases hc
    exact ⟨rfl, rfl⟩
  · obtain ⟨s1, msg, h1, _, _, _, h5⟩ := hcreate { s with m_LastSeqNum := S } hg0
    by_cases hc : s1.m_Controller
    · exact ⟨s1.emit (Action.OnMessage msg), by simp only [MESSAGE_CREATE, h1, hc, if_true],
        h5⟩
    · exact ⟨s1, by simp [MESSAGE_CREATE, h1, hc], h5⟩

/-- A direct message written by the bot. -/
theorem direct_message_witness :
    ∃ s2, MESSAGE_CREATE connected 7 directFromBot = Outcome.returned s2 ∧
      s2.m_Guilds = connected.m_Guilds :=
  (direct_message connected 7 directFromBot rfl (by decide)).2

/-- C18: a `VOICE_STATE_UPDATE` whose `guild_id` is not a key of `m_Guilds`
changes nothing but the last sequence number: the maps, the log of controller
calls and every other member are as before. -/
theorem voice_state_without_guild (s : CDiscordClient) (S : Int) (json : VoiceStateJson)
    (hg : s.m_Guilds.find json.guild_id = none) :
    VOICE_STATE_UPDATE s S json = Outcome.returned { s with m_LastSeqNum := S } := by
  have hg0 : Map.find s.m_Guilds json.guild_id = none := hg
  have hr : ({ s with m_LastSeqNum := S } : CDiscordClient).CreateVoiceState json none
      = { client := { s with m_LastSeqNum := S },
          Ret := { GuildRef := none, UserRef := s.m_Users.find json.user_id, ChannelRef := none,
                   SessionID := json.session_id, Deaf := json.deaf, Mute := json.mute,
                   SelfDeaf := json.self_deaf, SelfMute := json.self_mute,
                   SelfStream := json.self_stream, Supress := json.suppress },
          guild := none } := by
    simp [CreateVoiceState, hg0]
  simp only [VOICE_STATE_UPDATE, hr]
  cases s.m_Controller <;> rfl

/-- A voice state for `"guild"` reaches a client that has no guild cached. -/
theorem voice_state_without_guild_witness :
    VOICE_STATE_UPDATE connected 7 botLeaves
      = Outcome.returned { connected with m_LastSeqNum := 7 } :=
  voice_state_without_guild connected 7 botLeaves rfl

/-- C19 (the code departs from it): after `HELLO`, `READY`, a heartbeat that is
sent and stays unacknowledged, and the next heartbeat pass, the bot identity
still refers to the user `"bot"` while `m_Users` has no entry for `"bot"`; a
direct message written by the bot then stores a second instance under `"bot"`,
so that the bot identity (instance 0) and `m_Users` (instance 1) hold different
objects for one ID. -/
theorem bot_user_not_shared :
    (((((HELLO newClient (some 41250)).again fun s => READY s 1 readyBot).again
        Heartbeat).again Heartbeat).toOption.map fun s =>
      (s.m_BotUser.map fun b => (b.ID, b.handle), (s.m_Users.find "bot").map fun b => b.handle))
      = some (some ("bot", 0), none) ∧
    ((((((HELLO newClient (some 41250)).again fun s => READY s 1 readyBot).again
        Heartbeat).again Heartbeat).again fun s => MESSAGE_CREATE s 2 directFromBot).toOption.map
      fun t =>
        (t.m_BotUser.map fun b => (b.ID, b.handle), (t.m_Users.find "bot").map fun b => b.handle))
      = some (some ("bot", 0), some 1) := by
  decide

end CDiscordClient

/-! ## The gateway client: replaying a dispatched event -/

namespace CDiscordClient

theorem insert_insert {V : Type} (m : Map V) (k : String) (v w : V) :
    Map.insert (Map.insert m k w) k v = Map.insert m k v := by
  funext x
  simp only [Map.insert]
  split_ifs <;> rfl

theorem erase_erase {V : Type} (m : Map V) (k : String) :
    Map.erase (Map.erase m k) k = Map.erase m k := by
  funext x
  simp only [Map.erase]
  split_ifs <;> rfl

theorem find_insert_self {V : Type} (m : Map V) (k : String) (v : V) :
    Map.find (Map.insert m k v) k = some v := by
  simp [Map.find, Map.insert]

theorem find_insert_of_ne {V : Type} (m : Map V) (k x : String) (v : V) (h : x ≠ k) :
    Map.find (Map.insert m k v) x = Map.find m x := by
  simp [Map.find, Map.insert, h]

theorem find_erase_self {V : Type} (m : Map V) (k : String) :
    Map.find (Map.erase m k) k = none := by
  simp [Map.find, Map.erase]

/-- Replaying `READY`: the second call stores a new instance with the same
members under the same ID. -/
theorem READY_replay (s s1 : CDiscordClient) (S : Int) (json : GatewayReadyJson)
    (h : READY s S json = Outcome.returned s1) :
    ∃ s2, READY s1 S json = Outcome.returned s2 ∧
      (∀ k, (s2.m_Users.find k).map content = (s1.m_Users.find k).map content) ∧
      s2.m_BotUser.map content = s1.m_BotUser.map content ∧
      s2.m_Guilds = s1.m_Guilds ∧ s2.m_VoiceSockets = s1.m_VoiceSockets ∧
      s2.m_AudioSources = s1.m_AudioSources ∧ s2.m_SessionID = s1.m_SessionID := by
  cases hu : json.user with
  | none => simp [READY, hu] at h
  | some user =>
    simp only [READY, hu, CreateUser] at h
    have h1 := Outcome.returned.inj h
    obtain ⟨s2, h2⟩ : ∃ s2, READY s1 S json = Outcome.returned s2 := by
      simp only [READY, hu]; exact ⟨_, rfl⟩
    refine ⟨s2, h2, ?_, ?_, ?_, ?_, ?_, ?_⟩
    all_goals
      simp only [READY, hu, CreateUser] at h2
      have h3 := Outcome.returned.inj h2
      subst h3
      subst h1
    · intro k
      by_cases hk : k = user.id
      · cases hc : s.m_Controller <;>
          simp [hc, hk, emit, Map.find, Map.insert, content]
      · cases hc : s.m_Controller <;>
          simp [hc, hk, emit, Map.find, Map.insert, content]
    all_goals cases hc : s.m_Controller <;> simp [hc, emit, content]

/-- Replaying `GUILD_DELETE`: the second call finds neither a voice socket nor a
guild under the ID. -/
theorem GUILD_DELETE_replay (s s1 : CDiscordClient) (S : Int) (id : String)
    (h : GUILD_DELETE s S id = Outcome.returned s1) :
    ∃ s2, GUILD_DELETE s1 S id = Outcome.returned s2 ∧ cache s2 = cache s1 := by
  have hsock : s1.m_VoiceSockets.find id = none ∧ s1.m_Guilds.find id = none ∧
      s1.m_LastSeqNum = S := by
    cases hv : s.m_VoiceSockets.find id with
    | none =>
      cases hg : s.m_Guilds.find id with
      | none =>
        have hg0 : Map.find s.m_Guilds id = none := hg
        simp only [GUILD_DELETE, hv, hg0] at h
        have h1 := Outcome.returned.inj h
        subst h1
        exact ⟨hv, hg, rfl⟩
      | some g =>
        have hg0 : Map.find s.m_Guilds id = some g := hg
        simp only [GUILD_DELETE, hv, hg0] at h
        have h1 := Outcome.returned.inj h
        subst h1
        exact ⟨hv, find_erase_self _ _, rfl⟩
    | some v =>
      cases hj : v.joinable with
      | true => simp [GUILD_DELETE, hv, hj] at h
      | false =>
        cases hg : s.m_Guilds.find id with
        | none =>
          have hg0 : Map.find s.m_Guilds id = none := hg
          simp only [GUILD_DELETE, hv, hj, hg0, Bool.false_eq_true, if_false] at h
          have h1 := Outcome.returned.inj h
          subst h1
          exact ⟨by simp [table_find_erase], hg, rfl⟩
        | some g =>
          have hg0 : Map.find s.m_Guilds id = some g := hg
          simp only [GUILD_DELETE, hv, hj, hg0, Bool.false_eq_true, if_false] at h
          have h1 := Outcome.returned.inj h
          subst h1
          exact ⟨by simp [table_find_erase], find_erase_self _ _, rfl⟩
  obtain ⟨hv1, hg1, hseq⟩ := hsock
  have hg0 : Map.find s1.m_Guilds id = none := hg1
  have hsame : ({ s1 with m_LastSeqNum := S } : CDiscordClient) = s1 := by
    cases s1
    simp only at hseq
    subst hseq
    rfl
  refine ⟨s1, ?_, rfl⟩
  simp only [GUILD_DELETE, hv1, hg0, hsame]

theorem RESUMED_replay (s : CDiscordClient) (S : Int) :
    cache (RESUMED (RESUMED s S) S) = cache s := by
  cases hc : s.m_Controller <;> simp [RESUMED, cache, hc, emit]

theorem SameButUsers.refl (a : CDiscordClient) : SameButUsers a a := by
  simp [SameButUsers]

theorem SameButUsers.trans {a b c : CDiscordClient} (h1 : SameButUsers a b)
    (h2 : SameButUsers b c) : SameButUsers a c := by
  simp only [SameButUsers] at h1 h2 ⊢
  simp_all

/-- The user looked up or created is cached afterwards, entries cached before
stay as they are, and nothing but `m_Users` changes. -/
theorem findOrCreateUser_after (s : CDiscordClient) (json : UserJson) :
    (s.findOrCreateUser json).1.m_Users.find json.id = some (s.findOrCreateUser json).2 ∧
    (∀ k, s.m_Users.find k ≠ none →
      (s.findOrCreateUser json).1.m_Users.find k = s.m_Users.find k) ∧
    SameButUsers (s.findOrCreateUser json).1 s := by
  unfold findOrCreateUser
  cases hf : s.m_Users.find json.id with
  | some x => exact ⟨hf, fun _ _ => rfl, SameButUsers.refl s⟩
  | none =>
    refine ⟨by simp [CreateUser, Map.find, Map.insert], ?_, by simp [CreateUser, SameButUsers]⟩
    intro k hk
    have hne : k ≠ json.id := by
      intro h; rw [h] at hk; exact hk hf
    simp [CreateUser, Map.find, Map.insert, hne]

/-- A cached user is returned as it is and the client is not changed. -/
theorem findOrCreateUser_cached (s : CDiscordClient) (json : UserJson)
    (h : s.m_Users.find json.id ≠ none) :
    (s.findOrCreateUser json).1 = s ∧
    s.m_Users.find json.id = some (s.findOrCreateUser json).2 := by
  unfold findOrCreateUser
  cases hf : s.m_Users.find json.id with
  | some x => exact ⟨rfl, rfl⟩
  | none => exact absurd hf h

/-- The loop over the mentions reaches its end unless it reads the ID of a null
author inside a guild. -/
theorem addMentions_isSome (G : Guild) (A : User) (rest : List UserJson) :
    ∀ (s : CDiscordClient) (acc : List GuildMember),
      (s.addMentions G A acc rest).isSome = (G.isNone || A.isSome || rest.isEmpty) := by
  induction rest with
  | nil => intro s acc; simp [addMentions]
  | cons e more ih =>
    intro s acc
    cases G with
    | none => simp [addMentions, ih]
    | some g =>
      cases A with
      | none => simp [addMentions]
      | some a =>
        cases hm : g.Members.find a.ID <;> simp [addMentions, hm, ih]

/-- When every mentioned user is cached the loop leaves the client as it is. -/
theorem addMentions_cached (G : Guild) (A : User) (rest : List UserJson) :
    ∀ (s : CDiscordClient) (acc : List GuildMember),
      (∀ e ∈ rest, s.m_Users.find e.id ≠ none) →
      ∀ r, s.addMentions G A acc rest = some r → r.1 = s := by
  induction rest with
  | nil =>
    intro s acc _ r hr
    simp [addMentions] at hr
    rw [← hr]
  | cons e more ih =>
    intro s acc hall r hr
    have hc := (findOrCreateUser_cached s e (hall e (List.mem_cons_self _ _))).1
    have hmore : ∀ x ∈ more, s.m_Users.find x.id ≠ none :=
      fun x hx => hall x (List.mem_cons_of_mem _ hx)
    cases G with
    | none =>
      simp only [addMentions, hc] at hr
      exact ih s _ hmore r hr
    | some g =>
      cases A with
      | none => simp [addMentions] at hr
      | some a =>
        cases hm : g.Members.find a.ID with
        | none =>
          simp only [addMentions, hm, hc] at hr
          exact ih s _ hmore r hr
        | some MIT =>
          simp only [addMentions, hm, hc] at hr
          exact ih s _ hmore r hr

/-- After the loop every mentioned user is cached, entries cached before stay as
they are, and nothing but `m_Users` has changed. -/
theorem addMentions_after (G : Guild) (A : User) (rest : List UserJson) :
    ∀ (s : CDiscordClient) (acc : List GuildMember) (r : CDiscordClient × List GuildMember),
      s.addMentions G A acc rest = some r →
      (∀ e ∈ rest, r.1.m_Users.find e.id ≠ none) ∧
      (∀ k, s.m_Users.find k ≠ none → r.1.m_Users.find k = s.m_Users.find k) ∧
      SameButUsers r.1 s := by
  induction rest with
  | nil =>
    intro s acc r hr
    simp [addMentions] at hr
    rw [← hr]
    exact ⟨fun e he => by simp at he, fun _ _ => rfl, SameButUsers.refl s⟩
  | cons e more ih =>
    intro s acc r hr
    obtain ⟨hself, hkeep, hframe⟩ := findOrCreateUser_after s e
    have hstep : ∀ acc1, (s.findOrCreateUser e).1.addMentions G A acc1 more = some r →
        (∀ x ∈ e :: more, r.1.m_Users.find x.id ≠ none) ∧
        (∀ k, s.m_Users.find k ≠ none → r.1.m_Users.find k = s.m_Users.find k) ∧
        SameButUsers r.1 s := by
      intro acc1 hrec
      obtain ⟨h1, h2, h3⟩ := ih _ acc1 r hrec
      refine ⟨?_, ?_, h3.trans hframe⟩
      · intro x hx
        rcases List.mem_cons.1 hx with hx | hx
        · subst hx
          rw [h2 x.id (by rw [hself]; simp), hself]
          simp
        · exact h1 x hx
      · intro k hk
        rw [h2 k (by rw [hkeep k hk]; exact hk), hkeep k hk]
    cases G with
    | none =>
      simp only [addMentions] at hr
      exact hstep _ hr
    | some g =>
      cases A with
      | none => simp [addMentions] at hr
      | some a =>
        cases hm : g.Members.find a.ID with
        | none =>
          simp only [addMentions, hm] at hr
          exact hstep _ hr
        | some MIT =>
          simp only [addMentions, hm] at hr
          exact hstep _ hr

/-- What a call of `CreateMessage` that returned leaves behind: the users it
named are cached, nothing but `m_Users` changed, and the conditions under which
it returns, which do not depend on `m_Users`. -/
theorem CreateMessage_after (s s1 : CDiscordClient) (json : MessageJson) (msg : CMessage)
    (h : s.CreateMessage json = Outcome.returned (s1, msg)) :
    (∀ juser, json.author = Nested.value juser → s1.m_Users.find juser.id ≠ none) ∧
    (∀ e ∈ json.mentions, s1.m_Users.find e.id ≠ none) ∧
    SameButUsers s1 s ∧ json.author ≠ Nested.malformed ∧
    (json.author = Nested.absent →
      (s.m_Guilds.find json.guild_id).isNone || json.mentions.isEmpty) := by
  cases ha : json.author with
  | malformed => simp [CreateMessage, ha] at h
  | absent =>
    simp only [CreateMessage, ha] at h
    cases hm : s.addMentions (s.m_Guilds.find json.guild_id) none [] json.mentions with
    | none => simp [hm] at h
    | some r =>
      rw [hm] at h
      have h1 := Outcome.returned.inj h
      have hs : r.1 = s1 := congrArg Prod.fst h1
      obtain ⟨a1, a2, a3⟩ := addMentions_after _ _ _ s [] r hm
      have hsome := addMentions_isSome (s.m_Guilds.find json.guild_id) none json.mentions s []
      rw [hm] at hsome
      rw [hs] at a1 a3
      refine ⟨?_, a1, a3, ?_, ?_⟩
      · intro j hj; cases hj
      · simp
      · intro _
        simpa using hsome.symm
  | value juser =>
    simp only [CreateMessage, ha] at h
    cases hm : (s.findOrCreateUser juser).1.addMentions (s.m_Guilds.find json.guild_id)
        (some (s.findOrCreateUser juser).2) [] json.mentions with
    | none => simp [hm] at h
    | some r =>
      rw [hm] at h
      have h1 := Outcome.returned.inj h
      have hs : r.1 = s1 := congrArg Prod.fst h1
      obtain ⟨a1, a2, a3⟩ := addMentions_after _ _ _ _ [] r hm
      obtain ⟨b1, b2, b3⟩ := findOrCreateUser_after s juser
      rw [hs] at a1 a2 a3
      refine ⟨?_, a1, a3.trans b3, ?_, ?_⟩
      · intro j hj
        cases hj
        rw [a2 juser.id (by rw [b1]; simp), b1]
        simp
      · simp
      · intro hj; cases hj

/-- When the users a message names are cached and the conditions for returning
hold, `CreateMessage` returns and leaves the client as it is. -/
theorem CreateMessage_cached (t : CDiscordClient) (json : MessageJson)
    (hauthor : ∀ juser, json.author = Nested.value juser → t.m_Users.find juser.id ≠ none)
    (hmentions : ∀ e ∈ json.mentions, t.m_Users.find e.id ≠ none)
    (hwell : json.author ≠ Nested.malformed)
    (hnull : json.author = Nested.absent →
      (t.m_Guilds.find json.guild_id).isNone || json.mentions.isEmpty) :
    ∃ msg, t.CreateMessage json = Outcome.returned (t, msg) := by
  cases ha : json.author with
  | malformed => exact absurd ha hwell
  | absent =>
    have hsome := addMentions_isSome (t.m_Guilds.find json.guild_id) none json.mentions t []
    have hn := hnull ha
    cases hm : t.addMentions (t.m_Guilds.find json.guild_id) none [] json.mentions with
    | none =>
      rw [hm] at hsome
      simp at hsome
      simp [hsome.2] at hn
      simp [hn] at hsome
    | some r =>
      have hr := addMentions_cached _ _ _ t [] hmentions r hm
      obtain ⟨r1, r2⟩ := r
      simp only at hr
      subst hr
      simp only [CreateMessage, ha, hm]
      exact ⟨_, rfl⟩
  | value juser =>
    obtain ⟨c1, c2⟩ := findOrCreateUser_cached t juser (hauthor juser ha)
    have hsome := addMentions_isSome (t.m_Guilds.find json.guild_id)
      (some (t.findOrCreateUser juser).2) json.mentions t []
    cases hm : t.addMentions (t.m_Guilds.find json.guild_id)
        (some (t.findOrCreateUser juser).2) [] json.mentions with
    | none =>
      rw [hm] at hsome
      simp at hsome
    | some r =>
      have hr := addMentions_cached _ _ _ t [] hmentions r hm
      obtain ⟨r1, r2⟩ := r
      simp only at hr
      subst hr
      simp only [CreateMessage, ha, c1, hm]
      exact ⟨_, rfl⟩

/-- Replaying `MESSAGE_CREATE`: the second call finds every user cached and
changes neither the cache nor anything but the log. -/
theorem MESSAGE_CREATE_replay (s s1 : CDiscordClient) (S : Int) (json : MessageJson)
    (h : MESSAGE_CREATE s S json = Outcome.returned s1) :
    ∃ s2, MESSAGE_CREATE s1 S json = Outcome.returned s2 ∧ cache s2 = cache s1 := by
  simp only [MESSAGE_CREATE] at h
  cases hc : ({ s with m_LastSeqNum := S } : CDiscordClient).CreateMessage json with
  | raised x => simp [hc] at h
  | crashed => simp [hc] at h
  | terminated x => simp [hc] at h
  | returned r =>
    obtain ⟨r1, msg⟩ := r
    simp only [hc] at h
    have h1 := Outcome.returned.inj h
    obtain ⟨a1, a2, a3, a4, a5⟩ := CreateMessage_after _ _ _ _ hc
    have husers : s1.m_Users = r1.m_Users := by
      rw [← h1]; split_ifs <;> rfl
    have hguilds : s1.m_Guilds = s.m_Guilds := by
      rw [← h1]
      have := a3.2.2.2.2.2.2.2.2.2.1
      split_ifs <;> simpa [emit] using this
    have hseq : s1.m_LastSeqNum = S := by
      rw [← h1]
      have := a3.2.2.1
      split_ifs <;> simpa [emit] using this
    have hsame : ({ s1 with m_LastSeqNum := S } : CDiscordClient) = s1 := by
      cases s1
      simp only at hseq
      subst hseq
      rfl
    obtain ⟨msg2, hm2⟩ := CreateMessage_cached s1 json
      (fun j hj => by rw [husers]; exact a1 j hj)
      (fun e he => by rw [husers]; exact a2 e he) a4
      (fun hj => by rw [hguilds]; exact a5 hj)
    have hrun : MESSAGE_CREATE s1 S json = Outcome.returned
        (if s1.m_Controller then s1.emit (Action.OnMessage msg2) else s1) := by
      unfold MESSAGE_CREATE
      simp only []
      rw [hsame, hm2]
    refine ⟨_, hrun, ?_⟩
    split_ifs <;> rfl

/-- Replaying `VOICE_SERVER_UPDATE` when no source is pending for the guild: the
second call stores a socket constructed from the same values. -/
theorem VOICE_SERVER_UPDATE_replay (rt : Runtime) (u : CVoiceSocket.Indeterminate)
    (s s1 : CDiscordClient) (S : Int) (json : CVoiceSocket.ServerUpdate)
    (hnone : ∀ g, s.m_Guilds.find json.guild_id = some g → s.m_AudioSources.find g.ID = none)
    (h : VOICE_SERVER_UPDATE rt u s S json = Outcome.returned s1) :
    ∃ s2, VOICE_SERVER_UPDATE rt u s1 S json = Outcome.returned s2 ∧ cache s2 = cache s1 := by
  cases hg : s.m_Guilds.find json.guild_id with
  | none =>
    have hg0 : Map.find s.m_Guilds json.guild_id = none := hg
    simp only [VOICE_SERVER_UPDATE, hg0] at h
    have h1 := Outcome.returned.inj h
    subst h1
    exact ⟨{ s with m_LastSeqNum := S }, by simp only [VOICE_SERVER_UPDATE, hg0], rfl⟩
  | some g =>
    have hg0 : Map.find s.m_Guilds json.guild_id = some g := hg
    have hsrc : Map.find s.m_AudioSources g.ID = none := hnone g hg
    cases hb : s.m_BotUser with
    | none => simp [VOICE_SERVER_UPDATE, hg0, hb] at h
    | some bot =>
      cases hm : g.Members.find bot.ID with
      | none =>
        simp only [VOICE_SERVER_UPDATE, hg0, hb, hm] at h
        have h1 := Outcome.returned.inj h
        subst h1
        exact ⟨{ s with m_LastSeqNum := S }, by simp only [VOICE_SERVER_UPDATE, hg0, hb, hm],
          rfl⟩
      | some Member =>
        cases hst : Member.State with
        | none => simp [VOICE_SERVER_UPDATE, hg0, hb, hm, hst] at h
        | some State =>
          cases hrep : (match s.m_VoiceSockets.find g.ID with
              | some Old => Old.joinable
              | none => false) with
          | true => simp [VOICE_SERVER_UPDATE, hg0, hb, hm, hst, hrep] at h
          | false =>
            simp only [VOICE_SERVER_UPDATE, hg0, hb, hm, hst, hsrc, hrep, Bool.false_eq_true,
              if_false] at h
            have h1 := Outcome.returned.inj h
            subst h1
            have hnew : (match (s.m_VoiceSockets.insert g.ID
                (CVoiceSocket.create json State.SessionID bot.ID u)).find g.ID with
                | some Old => Old.joinable
                | none => false) = false := by
              rw [table_find_insert, if_pos rfl]
              rfl
            refine ⟨{ s with
                m_LastSeqNum := S,
                m_VoiceSockets := Table.insert (Table.insert s.m_VoiceSockets g.ID
                  (CVoiceSocket.create json State.SessionID bot.ID u)) g.ID
                  (CVoiceSocket.create json State.SessionID bot.ID u) },
              by simp only [VOICE_SERVER_UPDATE, hg0, hb, hm, hst, hsrc, hnew,
                Bool.false_eq_true, if_false], ?_⟩
            simp [cache, table_insert_insert]

/-- When the user a member object names is cached, `CreateMember` leaves the
client as it is and its result depends on `m_Users` alone. -/
theorem CreateMember_stable (s : CDiscordClient) (JMember : MemberJson)
    (hc : ∀ ju, JMember.user = Nested.value ju → s.m_Users.find ju.id ≠ none) :
    ∃ r : Option CGuildMember, ∀ t : CDiscordClient, t.m_Users = s.m_Users →
      t.CreateMember JMember = r.map fun M => (t, M) := by
  cases hu : JMember.user with
  | absent =>
    exact ⟨some ⟨"", none, JMember.nick, JMember.roles, JMember.joined_at,
      JMember.premium_since, JMember.deaf, JMember.mute, none⟩,
      fun t _ => by simp only [CreateMember, hu]; rfl⟩
  | malformed => exact ⟨none, fun t _ => by simp only [CreateMember, hu]; rfl⟩
  | value ju =>
    cases hf : s.m_Users.find ju.id with
    | none => exact absurd hf (hc ju hu)
    | some x =>
      refine ⟨some ⟨"", some x, JMember.nick, JMember.roles, JMember.joined_at,
        JMember.premium_since, JMember.deaf, JMember.mute, none⟩, fun t ht => ?_⟩
      have hf1 : Map.find t.m_Users ju.id = some x := by rw [ht]; exact hf
      simp only [CreateMember, hu, hf1]
      rfl

/-- When the user of the payload's member object is cached, `findMember` leaves
the client as it is and its result depends on `m_Users` alone. -/
theorem findMember_stable (s : CDiscordClient) (json : VoiceStateJson) (g : CGuild)
    (hc : ∀ m ju, json.member = some m → m.user = Nested.value ju →
      s.m_Users.find ju.id ≠ none) :
    ∃ r : Option (CGuildMember × Option String × CGuild), ∀ t : CDiscordClient,
      t.m_Users = s.m_Users →
      t.findMember json g = r.map fun x => (x.1, x.2.1, t, x.2.2) := by
  cases hm : g.Members.find json.user_id with
  | some m => exact ⟨some (m, some json.user_id, g), fun t _ => by simp only [findMember, hm]; rfl⟩
  | none =>
    cases hj : json.member with
    | none => exact ⟨none, fun t _ => by simp only [findMember, hm, hj]; rfl⟩
    | some JMember =>
      obtain ⟨r, hr⟩ := CreateMember_stable s JMember (fun ju hu => hc JMember ju hj hu)
      cases r with
      | none =>
        refine ⟨none, fun t ht => ?_⟩
        have := hr t ht
        simp only [Option.map] at this
        simp only [findMember, hm, hj, this]
        rfl
      | some M =>
        cases hu : M.UserRef with
        | none =>
          refine ⟨some (M, none, g), fun t ht => ?_⟩
          have := hr t ht
          simp only [Option.map] at this
          simp only [findMember, hm, hj, this, hu]
          rfl
        | some u =>
          refine ⟨some (M, some u.ID, { g with Members := g.Members.insert u.ID M }),
            fun t ht => ?_⟩
          have := hr t ht
          simp only [Option.map] at this
          simp only [findMember, hm, hj, this, hu]
          rfl

/-- When the user of the payload's member object is cached, `CreateVoiceState`
for a guild handed in leaves the client as it is, returns that guild changed,
and its result depends on `m_Users` alone. -/
theorem CreateVoiceState_stable (s : CDiscordClient) (json : VoiceStateJson) (g : CGuild)
    (hc : ∀ m ju, json.member = some m → m.user = Nested.value ju →
      s.m_Users.find ju.id ≠ none) :
    ∃ (Ret : CVoiceState) (g2 : CGuild), g2.ID = g.ID ∧ g2.Channels = g.Channels ∧
      g2.Name = g.Name ∧
      ∀ t : CDiscordClient, t.m_Users = s.m_Users →
        t.CreateVoiceState json (some g) = { client := t, Ret := Ret, guild := some g2 } := by
  obtain ⟨r, hr⟩ := findMember_stable s json g hc
  cases r with
  | none =>
    refine ⟨(⟨some g.ID, s.m_Users.find json.user_id, g.Channels.find json.channel_id, "", false,
        false, false, false, false, false⟩ : CVoiceState), g, rfl, rfl, rfl, fun t ht => ?_⟩
    have := hr t ht
    simp only [Option.map] at this
    simp only [CreateVoiceState, this, ht]
    rfl
  | some x =>
    obtain ⟨Member, key, g1⟩ := x
    have hg1 : g1.ID = g.ID ∧ g1.Channels = g.Channels ∧ g1.Name = g.Name := by
      have h0 := hr s rfl
      simp only [Option.map] at h0
      unfold findMember at h0
      cases hm : g.Members.find json.user_id with
      | some m =>
        simp [hm] at h0
        obtain ⟨_, _, h2⟩ := h0
        subst h2
        exact ⟨rfl, rfl, rfl⟩
      | none =>
        simp only [hm] at h0
        cases hj : json.member with
        | none => simp [hj] at h0
        | some JMember =>
          simp only [hj] at h0
          cases hcm : s.CreateMember JMember with
          | none => simp [hcm] at h0
          | some p =>
            obtain ⟨p1, M⟩ := p
            simp only [hcm] at h0
            cases hu : M.UserRef with
            | none =>
              simp [hu] at h0
              obtain ⟨_, _, _, h2⟩ := h0
              subst h2
              exact ⟨rfl, rfl, rfl⟩
            | some u =>
              simp [hu] at h0
              obtain ⟨_, _, _, h2⟩ := h0
              subst h2
              exact ⟨rfl, rfl, rfl⟩
    by_cases hch : (g.Channels.find json.channel_id).isNone
    · refine ⟨(⟨some g.ID, s.m_Users.find json.user_id, g.Channels.find json.channel_id, "", false,
        false, false, false, false, false⟩ : CVoiceState), setState g1 Member key none, ?_, ?_, ?_, fun t ht => ?_⟩
      · rw [setState_ID]; exact hg1.1
      · cases key <;> simp [setState, hg1.2.1]
      · cases key <;> simp [setState, hg1.2.2]
      · have := hr t ht
        simp only [Option.map] at this
        simp only [CreateVoiceState, this, ht, hch, if_true, storeGuild, Option.isSome_some]
        rfl
    · refine ⟨(⟨some g.ID, s.m_Users.find json.user_id, g.Channels.find json.channel_id,
        json.session_id, json.deaf, json.mute, json.self_deaf, json.self_mute,
        json.self_stream, json.suppress⟩ : CVoiceState), setState g1 Member key (some (⟨some g.ID, s.m_Users.find json.user_id, g.Channels.find json.channel_id,
        json.session_id, json.deaf, json.mute, json.self_deaf, json.self_mute,
        json.self_stream, json.suppress⟩ : CVoiceState)), ?_, ?_, ?_, fun t ht => ?_⟩
      · rw [setState_ID]; exact hg1.1
      · cases key <;> simp [setState, hg1.2.1]
      · cases key <;> simp [setState, hg1.2.2]
      · have := hr t ht
        simp only [Option.map] at this
        simp only [CreateVoiceState, this, ht, hch, storeGuild, Option.isSome_some]
        rfl

/-- A cached user is returned whatever else the client holds. -/
theorem findOrCreateUser_stable (s : CDiscordClient) (json : UserJson)
    (hc : s.m_Users.find json.id ≠ none) :
    ∃ x : CUser, ∀ t : CDiscordClient, t.m_Users = s.m_Users →
      t.findOrCreateUser json = (t, x) := by
  cases hf : s.m_Users.find json.id with
  | none => exact absurd hf hc
  | some x =>
    refine ⟨x, fun t ht => ?_⟩
    have hf1 : Map.find t.m_Users json.id = some x := by rw [ht]; exact hf
    simp only [findOrCreateUser, hf1]

/-- The loop over the recipients of a channel, when all of them are cached. -/
theorem recipients_stable (s : CDiscordClient) (recipients : List UserJson) :
    (∀ ju ∈ recipients, s.m_Users.find ju.id ≠ none) →
    ∀ acc : List User, ∃ l : List User, ∀ t : CDiscordClient, t.m_Users = s.m_Users →
      recipients.foldl
        (fun (a : CDiscordClient × List User) (juser : UserJson) =>
          ((a.1.findOrCreateUser juser).1, a.2 ++ [some (a.1.findOrCreateUser juser).2]))
        (t, acc) = (t, l) := by
  induction recipients with
  | nil => intro _ acc; exact ⟨acc, fun t _ => rfl⟩
  | cons e more ih =>
    intro hall acc
    obtain ⟨x, hx⟩ := findOrCreateUser_stable s e (hall e (List.mem_cons_self _ _))
    obtain ⟨l, hl⟩ := ih (fun ju hju => hall ju (List.mem_cons_of_mem _ hju)) (acc ++ [some x])
    refine ⟨l, fun t ht => ?_⟩
    simp only [List.foldl_cons, hx t ht]
    exact hl t ht

/-- When its recipients are cached, `CreateChannel` leaves the client as it is
and its result depends on `m_Users` alone. -/
theorem CreateChannel_stable (s : CDiscordClient) (json : ChannelJson)
    (hc : ∀ ju ∈ json.recipients, s.m_Users.find ju.id ≠ none) :
    ∃ c : CChannel, ∀ t : CDiscordClient, t.m_Users = s.m_Users →
      t.CreateChannel json = (t, c) := by
  obtain ⟨l, hl⟩ := recipients_stable s json.recipients hc []
  refine ⟨⟨json.id, json.type, json.guild_id, json.position,
    json.permission_overwrites.map fun (jov : OverwriteJson) =>
      (⟨jov.id, jov.type, jov.allow, jov.deny⟩ : CPermissionOverwrites),
    json.name, json.topic, json.nsfw, json.last_message_id, json.bitrate, json.user_limit,
    json.rate_limit_per_user, l, json.icon, json.owner_id, json.application_id,
    json.parent_id, json.last_pin_timestamp⟩, fun t ht => ?_⟩
  have := hl t ht
  simp only [CreateChannel, this]

theorem addChannels_stable (s : CDiscordClient) (Array : List ChannelJson) :
    (∀ c ∈ Array, ∀ ju ∈ c.recipients, s.m_Users.find ju.id ≠ none) →
    ∀ guild : CGuild, ∃ g1 : CGuild, ∀ t : CDiscordClient, t.m_Users = s.m_Users →
      t.addChannels guild Array = (t, g1) := by
  induction Array with
  | nil => intro _ guild; exact ⟨guild, fun t _ => rfl⟩
  | cons e more ih =>
    intro hall guild
    obtain ⟨c, hcc⟩ := CreateChannel_stable s e (hall e (List.mem_cons_self _ _))
    obtain ⟨g1, hg1⟩ := ih (fun c hcm => hall c (List.mem_cons_of_mem _ hcm))
      { guild with Channels := guild.Channels.insert c.ID { c with GuildID := guild.ID } }
    refine ⟨g1, fun t ht => ?_⟩
    have h1 := hg1 t ht
    simp only [addChannels] at h1 ⊢
    simp only [List.foldl_cons, hcc t ht]
    exact h1

theorem addMembers_stable (s : CDiscordClient) (Array : List MemberJson) :
    (∀ m ∈ Array, ∀ ju, m.user = Nested.value ju → s.m_Users.find ju.id ≠ none) →
    ∀ guild : CGuild, ∃ r : Option CGuild, ∀ t : CDiscordClient, t.m_Users = s.m_Users →
      t.addMembers guild Array
        = match r with
          | some g2 => Outcome.returned (t, g2)
          | none => Outcome.raised t := by
  induction Array with
  | nil => intro _ guild; exact ⟨some guild, fun t _ => by simp [addMembers]⟩
  | cons e more ih =>
    intro hall guild
    obtain ⟨r, hr⟩ := CreateMember_stable s e (hall e (List.mem_cons_self _ _))
    have hmore : ∀ m ∈ more, ∀ ju, m.user = Nested.value ju → s.m_Users.find ju.id ≠ none :=
      fun m hm => hall m (List.mem_cons_of_mem _ hm)
    cases r with
    | none =>
      refine ⟨none, fun t ht => ?_⟩
      have := hr t ht
      simp only [Option.map] at this
      simp only [addMembers, this]
    | some M =>
      cases hu : M.UserRef with
      | none =>
        obtain ⟨r2, hr2⟩ := ih hmore guild
        refine ⟨r2, fun t ht => ?_⟩
        have := hr t ht
        simp only [Option.map] at this
        simp only [addMembers, this, hu]
        exact hr2 t ht
      | some u =>
        obtain ⟨r2, hr2⟩ := ih hmore { guild with Members := guild.Members.insert u.ID M }
        refine ⟨r2, fun t ht => ?_⟩
        have := hr t ht
        simp only [Option.map] at this
        simp only [addMembers, this, hu]
        exact hr2 t ht

theorem addVoiceStates_stable (s : CDiscordClient) (Array : List VoiceStateJson) :
    (∀ v ∈ Array, ∀ m ju, v.member = some m → m.user = Nested.value ju →
      s.m_Users.find ju.id ≠ none) →
    ∀ guild : CGuild, ∃ g3 : CGuild, ∀ t : CDiscordClient, t.m_Users = s.m_Users →
      t.addVoiceStates guild Array = (t, g3) := by
  induction Array with
  | nil => intro _ guild; exact ⟨guild, fun t _ => rfl⟩
  | cons e more ih =>
    intro hall guild
    obtain ⟨Ret, g2, _, _, _, hv⟩ := CreateVoiceState_stable s e guild
      (hall e (List.mem_cons_self _ _))
    obtain ⟨g3, hg3⟩ := ih (fun v hvm => hall v (List.mem_cons_of_mem _ hvm)) g2
    refine ⟨g3, fun t ht => ?_⟩
    have h1 := hg3 t ht
    simp only [addVoiceStates] at h1 ⊢
    simp only [List.foldl_cons, hv t ht, Option.getD_some]
    exact h1

theorem usersKept.self (a : Map CUser) : usersKept a a := fun _ _ h => h

theorem usersKept.chain {a b c : Map CUser} (h1 : usersKept a b) (h2 : usersKept b c) :
    usersKept a c := fun k u h => h2 k u (h1 k u h)

theorem usersKept.cached {a b : Map CUser} (h : usersKept a b) (k : String)
    (hk : a.find k ≠ none) : b.find k ≠ none := by
  cases hf : a.find k with
  | none => exact absurd hf hk
  | some u => rw [h k u hf]; exact Option.some_ne_none u

/-- The call `findOrCreateUser` keeps the users cached before and caches the
user asked for. -/
theorem findOrCreateUser_grows (s : CDiscordClient) (json : UserJson) :
    usersKept s.m_Users (s.findOrCreateUser json).1.m_Users ∧
    (s.findOrCreateUser json).1.m_Users.find json.id ≠ none := by
  obtain ⟨h1, h2, _⟩ := findOrCreateUser_after s json
  refine ⟨fun k u hk => ?_, by rw [h1]; exact Option.some_ne_none _⟩
  rw [h2 k (by rw [hk]; exact Option.some_ne_none u)]
  exact hk

/-- A client that holds the users `findOrCreateUser` leaves behind finds the
user that call returned. -/
theorem findOrCreateUser_sim (s t : CDiscordClient) (json : UserJson)
    (h : usersKept (s.findOrCreateUser json).1.m_Users t.m_Users) :
    t.findOrCreateUser json = (t, (s.findOrCreateUser json).2) := by
  have hf := h _ _ (findOrCreateUser_after s json).1
  have hf1 : Map.find t.m_Users json.id = some (s.findOrCreateUser json).2 := hf
  simp only [findOrCreateUser, hf1]

/-- The loop over the recipients of a channel: it keeps the users cached before,
caches every recipient, and a client that holds the users it leaves behind
builds the same list without a change. -/
theorem recipients_sim (recipients : List UserJson) :
    ∀ (s : CDiscordClient) (acc : List User),
      usersKept s.m_Users
        (recipients.foldl
          (fun (a : CDiscordClient × List User) (juser : UserJson) =>
            ((a.1.findOrCreateUser juser).1, a.2 ++ [some (a.1.findOrCreateUser juser).2]))
          (s, acc)).1.m_Users ∧
      (∀ ju ∈ recipients,
        (recipients.foldl
          (fun (a : CDiscordClient × List User) (juser : UserJson) =>
            ((a.1.findOrCreateUser juser).1, a.2 ++ [some (a.1.findOrCreateUser juser).2]))
          (s, acc)).1.m_Users.find ju.id ≠ none) ∧
      ∀ t : CDiscordClient,
        usersKept
          (recipients.foldl
            (fun (a : CDiscordClient × List User) (juser : UserJson) =>
              ((a.1.findOrCreateUser juser).1, a.2 ++ [some (a.1.findOrCreateUser juser).2]))
            (s, acc)).1.m_Users t.m_Users →
        recipients.foldl
          (fun (a : CDiscordClient × List User) (juser : UserJson) =>
            ((a.1.findOrCreateUser juser).1, a.2 ++ [some (a.1.findOrCreateUser juser).2]))
          (t, acc)
        = (t, (recipients.foldl
          (fun (a : CDiscordClient × List User) (juser : UserJson) =>
            ((a.1.findOrCreateUser juser).1, a.2 ++ [some (a.1.findOrCreateUser juser).2]))
          (s, acc)).2) := by
  induction recipients with
  | nil =>
    intro s acc
    exact ⟨usersKept.self _, fun _ h => absurd h (List.not_mem_nil _), fun t _ => rfl⟩
  | cons e more ih =>
    intro s acc
    obtain ⟨hg, hc⟩ := findOrCreateUser_grows s e
    obtain ⟨ih1, ih2, ih3⟩ := ih (s.findOrCreateUser e).1 (acc ++ [some (s.findOrCreateUser e).2])
    simp only [List.foldl_cons]
    refine ⟨hg.chain ih1, ?_, ?_⟩
    · intro ju hju
      rcases List.mem_cons.1 hju with h | h
      · subst h; exact ih1.cached _ hc
      · exact ih2 ju h
    · intro t ht
      rw [findOrCreateUser_sim s t e (ih1.chain ht)]
      exact ih3 t ht

/-- The call `CreateChannel` keeps the users cached before, caches the
recipients, and a client that holds the users it leaves behind builds the same
channel without a change. -/
theorem CreateChannel_sim (s : CDiscordClient) (json : ChannelJson) :
    usersKept s.m_Users (s.CreateChannel json).1.m_Users ∧
    (∀ ju ∈ json.recipients, (s.CreateChannel json).1.m_Users.find ju.id ≠ none) ∧
    ∀ t : CDiscordClient, usersKept (s.CreateChannel json).1.m_Users t.m_Users →
      t.CreateChannel json = (t, (s.CreateChannel json).2) := by
  obtain ⟨h1, h2, h3⟩ := recipients_sim json.recipients s []
  refine ⟨h1, h2, fun t ht => ?_⟩
  have := h3 t ht
  simp only [CreateChannel, this]

/-- The loop over the channels of a `GUILD_CREATE`. -/
theorem addChannels_sim (Array : List ChannelJson) :
    ∀ (s : CDiscordClient) (guild : CGuild),
      usersKept s.m_Users (s.addChannels guild Array).1.m_Users ∧
      (∀ c ∈ Array, ∀ ju ∈ c.recipients,
        (s.addChannels guild Array).1.m_Users.find ju.id ≠ none) ∧
      ∀ t : CDiscordClient, usersKept (s.addChannels guild Array).1.m_Users t.m_Users →
        t.addChannels guild Array = (t, (s.addChannels guild Array).2) := by
  induction Array with
  | nil =>
    intro s guild
    exact ⟨usersKept.self _, fun _ h => absurd h (List.not_mem_nil _), fun t _ => rfl⟩
  | cons e more ih =>
    intro s guild
    obtain ⟨hg, hc, hsim⟩ := CreateChannel_sim s e
    obtain ⟨ih1, ih2, ih3⟩ := ih (s.CreateChannel e).1 ⟨guild.ID, guild.Name,
      guild.Channels.insert (s.CreateChannel e).2.ID { (s.CreateChannel e).2 with GuildID := guild.ID },
      guild.Members⟩
    simp only [addChannels, List.foldl_cons] at ih1 ih2 ih3 ⊢
    refine ⟨hg.chain ih1, ?_, ?_⟩
    · intro c hcm ju hju
      rcases List.mem_cons.1 hcm with h | h
      · subst h; exact ih1.cached _ (hc ju hju)
      · exact ih2 c h ju hju
    · intro t ht
      rw [hsim t (ih1.chain ht)]
      exact ih3 t ht

/-- The call `CreateMember` when it returns: it keeps the users cached before,
caches the user of the member object, and a client that holds the users it
leaves behind builds the same member without a change. -/
theorem CreateMember_sim (s s1 : CDiscordClient) (JMember : MemberJson) (M : CGuildMember)
    (h : s.CreateMember JMember = some (s1, M)) :
    usersKept s.m_Users s1.m_Users ∧
    (∀ ju, JMember.user = Nested.value ju → s1.m_Users.find ju.id ≠ none) ∧
    ∀ t : CDiscordClient, usersKept s1.m_Users t.m_Users →
      t.CreateMember JMember = some (t, M) := by
  cases hu : JMember.user with
  | absent =>
    simp only [CreateMember, hu, Option.some.injEq, Prod.mk.injEq] at h
    obtain ⟨h1, h2⟩ := h
    subst h1 h2
    exact ⟨usersKept.self _, (fun ju hj => by cases hj),
      (fun t _ => by simp only [CreateMember, hu])⟩
  | malformed => simp [CreateMember, hu] at h
  | value ju =>
    have hfo := findOrCreateUser_grows s ju
    have hsim := findOrCreateUser_sim s
    have hres : s.CreateMember JMember = some ((s.findOrCreateUser ju).1,
        ⟨"", some (s.findOrCreateUser ju).2, JMember.nick, JMember.roles, JMember.joined_at,
          JMember.premium_since, JMember.deaf, JMember.mute, none⟩) := by
      simp only [CreateMember, hu, findOrCreateUser]
      cases hf : s.m_Users.find ju.id <;> simp [hf]
    rw [hres] at h
    simp only [Option.some.injEq, Prod.mk.injEq] at h
    obtain ⟨h1, h2⟩ := h
    subst h1 h2
    refine ⟨hfo.1, fun j hj => ?_, fun t ht => ?_⟩
    · have := Nested.value.inj hj
      subst this
      exact hfo.2
    · have hf := ht _ _ (findOrCreateUser_after s ju).1
      have hf1 : Map.find t.m_Users ju.id = some (s.findOrCreateUser ju).2 := hf
      simp only [CreateMember, hu, hf1]

/-- The loop over the members of a `GUILD_CREATE` when it returns. -/
theorem addMembers_sim (Array : List MemberJson) :
    ∀ (s s1 : CDiscordClient) (guild g1 : CGuild),
      s.addMembers guild Array = Outcome.returned (s1, g1) →
      usersKept s.m_Users s1.m_Users ∧
      (∀ m ∈ Array, ∀ ju, m.user = Nested.value ju → s1.m_Users.find ju.id ≠ none) ∧
      ∀ t : CDiscordClient, usersKept s1.m_Users t.m_Users →
        t.addMembers guild Array = Outcome.returned (t, g1) := by
  induction Array with
  | nil =>
    intro s s1 guild g1 h
    simp only [addMembers, Outcome.returned.injEq, Prod.mk.injEq] at h
    obtain ⟨h1, h2⟩ := h
    subst h1 h2
    exact ⟨usersKept.self _, fun _ h => absurd h (List.not_mem_nil _),
      fun t _ => by simp only [addMembers]⟩
  | cons e more ih =>
    intro s s1 guild g1 h
    cases hm : s.CreateMember e with
    | none => simp [addMembers, hm] at h
    | some r =>
      obtain ⟨sm, Tmp⟩ := r
      obtain ⟨hg, hc, hsim⟩ := CreateMember_sim s sm e Tmp hm
      cases hu : Tmp.UserRef with
      | none =>
        simp only [addMembers, hm, hu] at h
        obtain ⟨ih1, ih2, ih3⟩ := ih sm s1 guild g1 h
        refine ⟨hg.chain ih1, ?_, fun t ht => ?_⟩
        · intro m hmm ju hju
          rcases List.mem_cons.1 hmm with h0 | h0
          · subst h0; exact ih1.cached _ (hc ju hju)
          · exact ih2 m h0 ju hju
        · simp only [addMembers, hsim t (ih1.chain ht), hu]
          exact ih3 t ht
      | some u =>
        simp only [addMembers, hm, hu] at h
        obtain ⟨ih1, ih2, ih3⟩ := ih sm s1 _ g1 h
        refine ⟨hg.chain ih1, ?_, fun t ht => ?_⟩
        · intro m hmm ju hju
          rcases List.mem_cons.1 hmm with h0 | h0
          · subst h0; exact ih1.cached _ (hc ju hju)
          · exact ih2 m h0 ju hju
        · simp only [addMembers, hsim t (ih1.chain ht), hu]
          exact ih3 t ht

/-- Replaying `GUILD_CREATE` when the users held by the member objects of its
voice states are known by the time the voice states are read: the second call
finds every user the first call found or created, builds the same guild and
stores it under the same ID. -/
theorem GUILD_CREATE_replay (s s1 : CDiscordClient) (S : Int) (json : GuildJson)
    (hc : guildVoiceUsersKnown s.m_Users json)
    (h : GUILD_CREATE s S json = Outcome.returned s1) :
    ∃ s2, GUILD_CREATE s1 S json = Outcome.returned s2 ∧ cache s2 = cache s1 := by
  obtain ⟨c1, c2, c3⟩ := addChannels_sim json.channels { s with m_LastSeqNum := S }
    { ID := json.id, Name := json.name, Channels := Map.empty, Members := Map.empty }
  cases hm : (({ s with m_LastSeqNum := S } : CDiscordClient).addChannels
      { ID := json.id, Name := json.name, Channels := Map.empty, Members := Map.empty }
      json.channels).1.addMembers
      (({ s with m_LastSeqNum := S } : CDiscordClient).addChannels
      { ID := json.id, Name := json.name, Channels := Map.empty, Members := Map.empty }
      json.channels).2 json.members with
  | raised x => simp [GUILD_CREATE, hm] at h
  | crashed => simp [GUILD_CREATE, hm] at h
  | terminated x => simp [GUILD_CREATE, hm] at h
  | returned m =>
    obtain ⟨sm, gm⟩ := m
    obtain ⟨m1, m2, m3⟩ := addMembers_sim json.members _ sm _ gm hm
    have hknown : ∀ v ∈ json.voice_states, ∀ mo ju, v.member = some mo →
        mo.user = Nested.value ju → sm.m_Users.find ju.id ≠ none := by
      intro v hv mo ju hmo hju
      rcases hc v hv mo ju hmo hju with h0 | ⟨c, hcm, r, hr, hid⟩ | ⟨mm, hmm, mu, hmu, hid⟩
      · exact m1.cached _ (c1.cached _ h0)
      · rw [← hid]; exact m1.cached _ (c2 c hcm r hr)
      · rw [← hid]; exact m2 mm hmm mu hmu
    obtain ⟨g3, hg3⟩ := addVoiceStates_stable sm json.voice_states hknown gm
    simp only [GUILD_CREATE, hm, hg3 sm rfl] at h
    have h1 := Outcome.returned.inj h
    have hU : s1.m_Users = sm.m_Users := by subst h1; rfl
    have hG : s1.m_Guilds = sm.m_Guilds.insert g3.ID g3 := by subst h1; rfl
    have k1 : usersKept (({ s with m_LastSeqNum := S } : CDiscordClient).addChannels
        { ID := json.id, Name := json.name, Channels := Map.empty, Members := Map.empty }
        json.channels).1.m_Users ({ s1 with m_LastSeqNum := S } : CDiscordClient).m_Users := by
      show usersKept _ s1.m_Users
      rw [hU]; exact m1
    have k2 : usersKept sm.m_Users ({ s1 with m_LastSeqNum := S } : CDiscordClient).m_Users := by
      show usersKept _ s1.m_Users
      rw [hU]; exact usersKept.self _
    have a := c3 { s1 with m_LastSeqNum := S } k1
    have b := m3 { s1 with m_LastSeqNum := S } k2
    have c := hg3 { s1 with m_LastSeqNum := S } hU
    have hrun : GUILD_CREATE s1 S json = Outcome.returned
        { s1 with m_LastSeqNum := S, m_Guilds := s1.m_Guilds.insert g3.ID g3 } := by
      simp only [GUILD_CREATE, a, b, c]
    refine ⟨_, hrun, ?_⟩
    simp only [cache, hG, insert_insert]

theorem insert_find_self {V : Type} (m : Map V) (k : String) (v : V)
    (h : Map.find m k = some v) : Map.insert m k v = m := by
  funext x
  simp only [Map.insert]
  split_ifs with hx
  · subst hx; exact h.symm
  · rfl

/-- Handing `CreateVoiceState` the guild it returned changes nothing more. -/
theorem CreateVoiceState_again (s : CDiscordClient) (json : VoiceStateJson) (g g2 : CGuild)
    (Ret : CVoiceState)
    (hc : voiceStateUserCached s.m_Users json)
    (h : s.CreateVoiceState json (some g) = { client := s, Ret := Ret, guild := some g2 }) :
    s.CreateVoiceState json (some g2) = { client := s, Ret := Ret, guild := some g2 } := by
  cases hm : g.Members.find json.user_id with
  | some m =>
    by_cases hch : (g.Channels.find json.channel_id).isNone
    · simp [CreateVoiceState, findMember, hm, hch, setState, storeGuild] at h
      obtain ⟨hR, hG⟩ := h
      subst hR hG
      simp [CreateVoiceState, findMember, find_insert_self, hch, setState, storeGuild,
        insert_insert]
    · simp [CreateVoiceState, findMember, hm, hch, setState, storeGuild] at h
      obtain ⟨hR, hG⟩ := h
      subst hR hG
      simp [CreateVoiceState, findMember, find_insert_self, hch, setState, storeGuild,
        insert_insert]
  | none =>
    cases hj : json.member with
    | none =>
      have hg : g2 = g := by
        simp [CreateVoiceState, findMember, hm, hj] at h
        exact h.2.symm
      subst hg
      exact h
    | some JMember =>
      obtain ⟨r, hr⟩ := CreateMember_stable s JMember (fun ju hu => hc JMember ju hj hu)
      have hr1 := hr s rfl
      cases r with
      | none =>
        simp only [Option.map] at hr1
        have hg : g2 = g := by
          simp [CreateVoiceState, findMember, hm, hj, hr1] at h
          exact h.2.symm
        subst hg
        exact h
      | some M =>
        simp only [Option.map] at hr1
        cases hu : M.UserRef with
        | none =>
          have hg : g2 = g := by
            by_cases hch : (g.Channels.find json.channel_id).isNone
            · simp [CreateVoiceState, findMember, hm, hj, hr1, hu, hch, setState, storeGuild] at h
              exact h.2.symm
            · simp [CreateVoiceState, findMember, hm, hj, hr1, hu, hch, setState, storeGuild] at h
              exact h.2.symm
          subst hg
          exact h
        | some u =>
          by_cases hch : (g.Channels.find json.channel_id).isNone
          · simp [CreateVoiceState, findMember, hm, hj, hr1, hu, hch, setState, storeGuild] at h
            obtain ⟨hR, hG⟩ := h
            subst hR hG
            by_cases hid : u.ID = json.user_id
            · simp [CreateVoiceState, findMember, hid, find_insert_self, hch, setState, storeGuild,
                insert_insert]
            · have hne : json.user_id ≠ u.ID := fun e => hid e.symm
              simp [CreateVoiceState, findMember, find_insert_of_ne, hne, hm, hj, hr1, hu, hch,
                setState, storeGuild, insert_insert]
          · simp [CreateVoiceState, findMember, hm, hj, hr1, hu, hch, setState, storeGuild] at h
            obtain ⟨hR, hG⟩ := h
            subst hR hG
            by_cases hid : u.ID = json.user_id
            · simp [CreateVoiceState, findMember, hid, find_insert_self, hch, setState, storeGuild,
                insert_insert]
            · have hne : json.user_id ≠ u.ID := fun e => hid e.symm
              simp [CreateVoiceState, findMember, find_insert_of_ne, hne, hm, hj, hr1, hu, hch,
                setState, storeGuild, insert_insert]

/-- Looking the guild up in `m_Guilds` instead of taking it from the caller:
the same voice state and guild, and the guild is stored back under its key. -/
theorem CreateVoiceState_lookup (t : CDiscordClient) (json : VoiceStateJson) (g g2 : CGuild)
    (Ret : CVoiceState) (hg : t.m_Guilds.find json.guild_id = some g)
    (h : t.CreateVoiceState json (some g) = { client := t, Ret := Ret, guild := some g2 }) :
    t.CreateVoiceState json none
      = { client := { t with m_Guilds := t.m_Guilds.insert json.guild_id g2 }, Ret := Ret,
          guild := some g2 } := by
  cases hf : t.findMember json g with
  | none =>
    simp [CreateVoiceState, hf] at h
    obtain ⟨hR, hG⟩ := h
    subst hR hG
    simp [CreateVoiceState, hg, hf, insert_find_self _ _ _ hg]
  | some x =>
    obtain ⟨Member, key, s1, g1⟩ := x
    by_cases hch : (g.Channels.find json.channel_id).isNone
    · simp [CreateVoiceState, hf, hch, storeGuild] at h
      obtain ⟨hC, hR, hG⟩ := h
      subst hC hR hG
      simp [CreateVoiceState, hg, hf, hch, storeGuild]
    · simp [CreateVoiceState, hf, hch, storeGuild] at h
      obtain ⟨hC, hR, hG⟩ := h
      subst hC hR hG
      simp [CreateVoiceState, hg, hf, hch, storeGuild]

/-- Replaying `VOICE_STATE_UPDATE` when the user of the payload's member object
is cached: the second call stores the same guild and erases the same socket. -/
theorem VOICE_STATE_UPDATE_replay (s s1 : CDiscordClient) (S : Int) (json : VoiceStateJson)
    (hc : voiceStateUserCached s.m_Users json)
    (h : VOICE_STATE_UPDATE s S json = Outcome.returned s1) :
    ∃ s2, VOICE_STATE_UPDATE s1 S json = Outcome.returned s2 ∧ cache s2 = cache s1 := by
  cases hg : s.m_Guilds.find json.guild_id with
  | none =>
    have run : ∀ t : CDiscordClient, t.m_Guilds.find json.guild_id = none →
        VOICE_STATE_UPDATE t S json = Outcome.returned { t with m_LastSeqNum := S } := by
      intro t ht
      have ht0 : Map.find t.m_Guilds json.guild_id = none := ht
      simp only [VOICE_STATE_UPDATE, CreateVoiceState, ht0]
      cases t.m_Controller <;> rfl
    rw [run s hg] at h
    have h1 := Outcome.returned.inj h
    subst h1
    exact ⟨_, run _ hg, rfl⟩
  | some g =>
    obtain ⟨Ret, g2, _, _, _, hst⟩ := CreateVoiceState_stable s json g hc
    have hagain : ∀ t : CDiscordClient, t.m_Users = s.m_Users →
        t.CreateVoiceState json (some g2) = { client := t, Ret := Ret, guild := some g2 } := by
      obtain ⟨Ret3, g3, _, _, _, hst3⟩ := CreateVoiceState_stable s json g2 hc
      have h3 := CreateVoiceState_again s json g g2 Ret hc (hst s rfl)
      rw [hst3 s rfl] at h3
      simp only [VoiceStateResult.mk.injEq, Option.some.injEq, true_and] at h3
      obtain ⟨hR, hG⟩ := h3
      subst hR hG
      exact hst3
    have run : ∀ t : CDiscordClient, t.m_Users = s.m_Users →
        (t.m_Guilds.find json.guild_id = some g ∨ t.m_Guilds.find json.guild_id = some g2) →
        CreateVoiceState { t with m_LastSeqNum := S } json none
          = { client := { t with m_LastSeqNum := S,
                                 m_Guilds := t.m_Guilds.insert json.guild_id g2 },
              Ret := Ret, guild := some g2 } := by
      intro t ht hgt
      cases hgt with
      | inl hgt => exact CreateVoiceState_lookup _ json g g2 Ret hgt (hst _ ht)
      | inr hgt => exact CreateVoiceState_lookup _ json g2 g2 Ret hgt (hagain _ ht)
    have step : ∃ r : Option (Bool × List Action), ∀ t : CDiscordClient,
        t.m_Users = s.m_Users → t.m_Controller = s.m_Controller → t.m_BotUser = s.m_BotUser →
        (t.m_Guilds.find json.guild_id = some g ∨ t.m_Guilds.find json.guild_id = some g2) →
        VOICE_STATE_UPDATE t S json =
          match r with
          | none => Outcome.crashed
          | some x =>
            if x.1 = true ∧ ((t.m_VoiceSockets.find g2.ID).map CVoiceSocket.joinable) = some true
            then
              Outcome.terminated
                { t with m_LastSeqNum := S, m_Guilds := t.m_Guilds.insert json.guild_id g2 }
            else
              Outcome.returned
                { t with m_LastSeqNum := S, m_Guilds := t.m_Guilds.insert json.guild_id g2,
                         m_VoiceSockets :=
                           if x.1 then t.m_VoiceSockets.erase g2.ID else t.m_VoiceSockets,
                         log := t.log ++ x.2 } := by
      cases hctl : s.m_Controller with
      | false =>
        refine ⟨some (false, []), fun t hU hC hB hG => ?_⟩
        have hr := run t hU hG
        unfold VOICE_STATE_UPDATE
        simp only []
        rw [hr]
        simp [hC]
      | true =>
        cases hu : Ret.UserRef with
        | none =>
          refine ⟨some (false, []), fun t hU hC hB hG => ?_⟩
          have hr := run t hU hG
          unfold VOICE_STATE_UPDATE
          simp only []
          rw [hr]
          simp [hC, hu]
        | some UserRef =>
          cases hb : s.m_BotUser with
          | none =>
            refine ⟨none, fun t hU hC hB hG => ?_⟩
            have hr := run t hU hG
            unfold VOICE_STATE_UPDATE
            simp only []
            rw [hr]
            simp [hC, hu, hB, hb]
          | some BotUser =>
            by_cases hcond : UserRef.ID = BotUser.ID ∧ Ret.ChannelRef.isNone
            · cases hmem : g2.Members.find UserRef.ID with
              | none =>
                refine ⟨some (true, []), fun t hU hC hB hG => ?_⟩
                have hr := run t hU hG
                unfold VOICE_STATE_UPDATE
                simp only []
                rw [hr]
                simp only [hC, hu, hB, hb, hmem]
                rw [if_pos hcond]
                cases hf : t.m_VoiceSockets.find g2.ID with
                | none =>
                  simp [emit, table_erase_of_find_none _ _ hf]
                | some v =>
                  cases hj : v.joinable <;> simp [emit, hj]
              | some Member =>
                refine ⟨some (true, [Action.OnVoiceStateUpdate Member]), fun t hU hC hB hG => ?_⟩
                have hr := run t hU hG
                unfold VOICE_STATE_UPDATE
                simp only []
                rw [hr]
                simp only [hC, hu, hB, hb, hmem]
                rw [if_pos hcond]
                cases hf : t.m_VoiceSockets.find g2.ID with
                | none =>
                  simp [emit, table_erase_of_find_none _ _ hf]
                | some v =>
                  cases hj : v.joinable <;> simp [emit, hj]
            · cases hmem : g2.Members.find UserRef.ID with
              | none =>
                refine ⟨some (false, []), fun t hU hC hB hG => ?_⟩
                have hr := run t hU hG
                unfold VOICE_STATE_UPDATE
                simp only []
                rw [hr]
                simp only [hC, hu, hB, hb, hmem]
                rw [if_neg hcond]
                simp [emit]
              | some Member =>
                refine ⟨some (false, [Action.OnVoiceStateUpdate Member]), fun t hU hC hB hG => ?_⟩
                have hr := run t hU hG
                unfold VOICE_STATE_UPDATE
                simp only []
                rw [hr]
                simp only [hC, hu, hB, hb, hmem]
                rw [if_neg hcond]
                simp [emit]
    obtain ⟨r, hr⟩ := step
    cases r with
    | none =>
      rw [hr s rfl rfl rfl (Or.inl hg)] at h
      cases h
    | some x =>
      obtain ⟨e, l⟩ := x
      rw [hr s rfl rfl rfl (Or.inl hg)] at h
      simp only at h
      by_cases hterm : e = true ∧
          ((s.m_VoiceSockets.find g2.ID).map CVoiceSocket.joinable) = some true
      · rw [if_pos hterm] at h
        cases h
      · rw [if_neg hterm] at h
        have h1 := Outcome.returned.inj h
        have hU : s1.m_Users = s.m_Users := by subst h1; rfl
        have hC : s1.m_Controller = s.m_Controller := by subst h1; rfl
        have hB : s1.m_BotUser = s.m_BotUser := by subst h1; rfl
        have hG : s1.m_Guilds.find json.guild_id = some g2 := by
          subst h1; exact find_insert_self _ _ _
        have hS : s1.m_VoiceSockets
            = if e then s.m_VoiceSockets.erase g2.ID else s.m_VoiceSockets := by
          subst h1; rfl
        have hV : (if e then s1.m_VoiceSockets.erase g2.ID else s1.m_VoiceSockets)
            = s1.m_VoiceSockets := by
          rw [hS]
          cases e <;> simp [table_erase_erase]
        have hnot : ¬ (e = true ∧
            ((s1.m_VoiceSockets.find g2.ID).map CVoiceSocket.joinable) = some true) := by
          rintro ⟨he, hj⟩
          rw [hS, he] at hj
          simp [table_find_erase] at hj
        have h2 := hr s1 hU hC hB (Or.inr hG)
        simp only at h2
        rw [if_neg hnot] at h2
        refine ⟨_, h2, ?_⟩
        simp only [cache, hV, insert_find_self _ _ _ hG]

/-- C20 (the sentence as written fails): a `VOICE_SERVER_UPDATE` for `"guild"`
reaches a client that holds the pending source 1 for `"guild"`. After one
delivery the socket stored for `"guild"` plays source 1; after the same event is
delivered again the socket stored for `"guild"` has no source. And a voice state
whose member object names a user that is not cached, in a `VOICE_STATE_UPDATE`
or in a `GUILD_CREATE`, is stored without a user by the first delivery and with
the user by the second. -/
theorem voice_server_update_replay_counterexample :
    sourceInGuild (VOICE_SERVER_UPDATE littleEndianRuntime ⟨false, 0, 0⟩
        (joining (Map.insert Map.empty "guild" (some 1))) 7 serverUpdate) = some (some 1) ∧
      sourceInGuild ((VOICE_SERVER_UPDATE littleEndianRuntime ⟨false, 0, 0⟩
        (joining (Map.insert Map.empty "guild" (some 1))) 7 serverUpdate).again
        fun s => VOICE_SERVER_UPDATE littleEndianRuntime ⟨false, 0, 0⟩ s 7 serverUpdate)
        = some none ∧
      carolStateHasUser (VOICE_STATE_UPDATE withVoiceChannel 7 carolJoins) = some false ∧
      carolStateHasUser ((VOICE_STATE_UPDATE withVoiceChannel 7 carolJoins).again
        fun s => VOICE_STATE_UPDATE s 7 carolJoins) = some true ∧
      carolStateHasUser (GUILD_CREATE newClient 7 guildWithCarol) = some false ∧
      carolStateHasUser ((GUILD_CREATE newClient 7 guildWithCarol).again
        fun s => GUILD_CREATE s 7 guildWithCarol) = some true := by
  decide

/-- C20 (as amended): whenever the first delivery of a `DISPATCH` event returns,
so does a second delivery of the same event, and the two leave the same cache
(`m_Users`, `m_Guilds`, `m_VoiceSockets`, `m_AudioSources`) in these cases:
`READY`, where the user stored under the bot's ID is a new instance with the same
members; `GUILD_CREATE`, when every user object held by the member object of one
of its voice states is cached already or is also a recipient of one of its
channels or the user of one of its members; `GUILD_DELETE`;
`VOICE_STATE_UPDATE`, when the user of the payload's member object is cached
already; `VOICE_SERVER_UPDATE`, when no source is pending for the guild;
`MESSAGE_CREATE`; `RESUMED`. -/
theorem dispatch_replay (rt : Runtime) (u : CVoiceSocket.Indeterminate) (s : CDiscordClient)
    (S : Int) :
    (∀ (json : GatewayReadyJson) (s1 : CDiscordClient), READY s S json = Outcome.returned s1 →
      ∃ s2, READY s1 S json = Outcome.returned s2 ∧
        (∀ k, (s2.m_Users.find k).map content = (s1.m_Users.find k).map content) ∧
        s2.m_Guilds = s1.m_Guilds ∧ s2.m_VoiceSockets = s1.m_VoiceSockets ∧
        s2.m_AudioSources = s1.m_AudioSources) ∧
    (∀ (json : GuildJson) (s1 : CDiscordClient), guildVoiceUsersKnown s.m_Users json →
      GUILD_CREATE s S json = Outcome.returned s1 →
      ∃ s2, GUILD_CREATE s1 S json = Outcome.returned s2 ∧ cache s2 = cache s1) ∧
    (∀ (id : String) (s1 : CDiscordClient), GUILD_DELETE s S id = Outcome.returned s1 →
      ∃ s2, GUILD_DELETE s1 S id = Outcome.returned s2 ∧ cache s2 = cache s1) ∧
    (∀ (json : VoiceStateJson) (s1 : CDiscordClient), voiceStateUserCached s.m_Users json →
      VOICE_STATE_UPDATE s S json = Outcome.returned s1 →
      ∃ s2, VOICE_STATE_UPDATE s1 S json = Outcome.returned s2 ∧ cache s2 = cache s1) ∧
    (∀ (json : CVoiceSocket.ServerUpdate) (s1 : CDiscordClient),
      (∀ g, s.m_Guilds.find json.guild_id = some g → s.m_AudioSources.find g.ID = none) →
      VOICE_SERVER_UPDATE rt u s S json = Outcome.returned s1 →
      ∃ s2, VOICE_SERVER_UPDATE rt u s1 S json = Outcome.returned s2 ∧ cache s2 = cache s1) ∧
    (∀ (json : MessageJson) (s1 : CDiscordClient), MESSAGE_CREATE s S json = Outcome.returned s1 →
      ∃ s2, MESSAGE_CREATE s1 S json = Outcome.returned s2 ∧ cache s2 = cache s1) ∧
    cache (RESUMED (RESUMED s S) S) = cache (RESUMED s S) := by
  refine ⟨?_, ?_, ?_, ?_, ?_, ?_, ?_⟩
  · intro json s1 h
    obtain ⟨s2, h2, a, _, b, c, d, _⟩ := READY_replay s s1 S json h
    exact ⟨s2, h2, a, b, c, d⟩
  · intro json s1 hc h
    exact GUILD_CREATE_replay s s1 S json hc h
  · intro id s1 h
    exact GUILD_DELETE_replay s s1 S id h
  · intro json s1 hc h
    exact VOICE_STATE_UPDATE_replay s s1 S json hc h
  · intro json s1 hn h
    exact VOICE_SERVER_UPDATE_replay rt u s s1 S json hn h
  · intro json s1 h
    exact MESSAGE_CREATE_replay s s1 S json h
  · rw [RESUMED_replay]
    cases hc : s.m_Controller <;> simp [RESUMED, cache, hc, emit]

/-- The first `GUILD_CREATE` of a session, for a guild none of whose users is
cached, arrives twice: both deliveries return, and the second leaves the cache
of the first. -/
theorem dispatch_replay_witness :
    newClient.m_Users.find "bot" = none ∧
    ∃ s1 s2, GUILD_CREATE newClient 7 guildWithBot = Outcome.returned s1 ∧
      GUILD_CREATE s1 7 guildWithBot = Outcome.returned s2 ∧ cache s2 = cache s1 := by
  have hc : guildVoiceUsersKnown newClient.m_Users guildWithBot := by
    intro v hv m ju hm hu
    have hv1 := List.mem_singleton.1 hv
    subst hv1
    cases hm
  obtain ⟨s1, h1⟩ : ∃ s1, GUILD_CREATE newClient 7 guildWithBot = Outcome.returned s1 :=
    ⟨_, rfl⟩
  obtain ⟨s2, h2, h3⟩ :=
    (dispatch_replay littleEndianRuntime ⟨false, 0, 0⟩ newClient 7).2.1 guildWithBot s1 hc h1
  exact ⟨rfl, s1, s2, h1, h2, h3⟩

end CDiscordClient

/-! ## The gateway client: shutdown, invalid channels, parse errors -/

namespace CDiscordClient

/-- C21 (as amended): `Quit` is idempotent. A second call of `Quit` leaves every
member of the client as the first call left it and makes no call on the
controller; when a controller is registered the first call makes the calls
`OnDisconnect` and `OnQuit`, once each and in that order; when none is
registered the first call makes no call on a controller either. -/
theorem quit_idempotent (s : CDiscordClient) :
    members s.Quit.Quit = members s.Quit ∧
    s.Quit.Quit.log = s.Quit.log ++ [Action.socketClose] ∧
    callbacks s.Quit.Quit = callbacks s.Quit ∧
    (s.m_Controller = true →
      callbacks s.Quit = callbacks s ++ [Action.OnDisconnect, Action.OnQuit]) ∧
    (s.m_Controller = false → callbacks s.Quit = callbacks s) := by
  cases hc : s.m_Controller <;> cases hh : s.m_Heartbeat <;>
    simp [Quit, members, callbacks, emit, hc, hh]

/-- A connected client with a controller and a running heartbeat thread quits
twice. -/
theorem quit_idempotent_witness :
    connected.m_Controller = true ∧
    callbacks connected.Quit = callbacks connected ++ [Action.OnDisconnect, Action.OnQuit] ∧
    callbacks connected.Quit.Quit = callbacks connected.Quit :=
  ⟨rfl, (quit_idempotent connected).2.2.2.1 rfl, (quit_idempotent connected).2.2.1⟩

/-- C21 as stated fails: on a client without a registered controller two calls
of `Quit` invoke neither `OnDisconnect` nor `OnQuit`; a client that has quit
before is such a client. -/
theorem quit_without_controller_counterexample :
    (inVoice false true true).m_Controller = false ∧
    callbacks (inVoice false true true).Quit.Quit = [] ∧
    connected.Quit.m_Controller = false ∧
    callbacks connected.Quit.Quit.Quit = callbacks connected.Quit := by
  decide

/-- C22 (the code departs from it for `SendMessage`): `Join` and `Leave` return
without a call and without a change for a null channel and for a channel whose
guild ID or channel ID is empty; `SendMessage` does so for a channel whose type
is not `GUILD_TEXT`, but for a null channel it reads `channel->Type` through the
null handle. -/
theorem invalid_channel (s : CDiscordClient) (Text : String) (TTS : Bool) :
    Join s none = s ∧ Leave s none = s ∧
    (∀ c : CChannel, c.GuildID = "" ∨ c.ID = "" → Join s (some c) = s ∧ Leave s (some c) = s) ∧
    (∀ c : CChannel, c.Type_ ≠ GUILD_TEXT →
      SendMessage s (some c) Text TTS = Outcome.returned s) ∧
    SendMessage s none Text TTS = Outcome.crashed := by
  refine ⟨rfl, rfl, ?_, ?_, rfl⟩
  · intro c hc
    have he : (c.GuildID.isEmpty || c.ID.isEmpty) = true := by
      cases hc with
      | inl h => rw [h]; rfl
      | inr h =>
        rw [h, Bool.or_eq_true]
        exact Or.inr rfl
    simp only [Join, Leave, he, if_true, and_self]
  · intro c hc
    simp only [SendMessage, hc, ne_eq, not_false_eq_true, if_true]

/-- A voice channel without a guild ID is handed to `Join` and `Leave`, and to
`SendMessage`, which takes text channels only. -/
theorem invalid_channel_witness :
    (Join connected (some { newChannel with ID := "voice", Type_ := 2 }) = connected ∧
      Leave connected (some { newChannel with ID := "voice", Type_ := 2 }) = connected) ∧
    SendMessage connected (some { newChannel with ID := "voice", Type_ := 2 }) "hi" false
      = Outcome.returned connected :=
  ⟨(invalid_channel connected "hi" false).2.2.1 { newChannel with ID := "voice", Type_ := 2 }
      (Or.inl rfl),
    (invalid_channel connected "hi" false).2.2.2.1 { newChannel with ID := "voice", Type_ := 2 }
      (by decide)⟩

end CDiscordClient

/-! ## The hash of an event name -/

/-- On a string of `char`s below 128 the hash does not depend on the data
model, as long as `size_t` has 32 bits or more. -/
theorem Adler32loop_ascii (dm : DataModel) (hw : 32 ≤ dm.sizeBits) (Data : List Nat) :
    (∀ b ∈ Data, b < 128) → ∀ S1 S2 : Nat, S1 < BASE → S2 < BASE →
      Adler32loop dm S1 S2 Data = Adler32loop x86_64 S1 S2 Data := by
  have hpow : 2 ^ 32 ≤ 2 ^ dm.sizeBits := Nat.pow_le_pow_right (by decide) hw
  have hret : ∀ S1 S2 : Nat, S1 < BASE → S2 < BASE →
      ((S2 <<< 16) + S1) % 2 ^ dm.sizeBits = ((S2 <<< 16) + S1) % 2 ^ x86_64.sizeBits := by
    intro S1 S2 h1 h2
    have hlt : (S2 <<< 16) + S1 < 2 ^ 32 := by
      rw [Nat.shiftLeft_eq]
      simp only [BASE] at h1 h2
      omega
    rw [Nat.mod_eq_of_lt (lt_of_lt_of_le hlt hpow),
      Nat.mod_eq_of_lt (lt_of_lt_of_le hlt (by decide))]
  induction Data with
  | nil =>
    intro _ S1 S2 h1 h2
    simp only [Adler32loop]
    exact hret S1 S2 h1 h2
  | cons b rest ih =>
    intro hall S1 S2 h1 h2
    have hb : b < 128 := hall b (List.mem_cons_self _ _)
    have hrest : ∀ x ∈ rest, x < 128 := fun x hx => hall x (List.mem_cons_of_mem _ hx)
    simp only [Adler32loop]
    by_cases h0 : b = 0
    · simp only [h0, if_true]
      exact hret S1 S2 h1 h2
    · have hc : ∀ d : DataModel, charToSize d b = b := by
        intro d
        simp only [charToSize]
        rw [if_neg]
        omega
      have hB : (0 : Nat) < BASE := by decide
      have e1 : ∀ d : DataModel, 2 ^ 32 ≤ 2 ^ d.sizeBits →
          (S1 + b) % 2 ^ d.sizeBits % BASE = (S1 + b) % BASE := by
        intro d hd
        have hlt : S1 + b < 2 ^ d.sizeBits := by
          simp only [BASE] at h1
          omega
        rw [Nat.mod_eq_of_lt hlt]
      have e2 : ∀ d : DataModel, 2 ^ 32 ≤ 2 ^ d.sizeBits →
          (S2 + (S1 + b) % BASE) % 2 ^ d.sizeBits % BASE = (S2 + (S1 + b) % BASE) % BASE := by
        intro d hd
        have := Nat.mod_lt (S1 + b) hB
        have hlt : S2 + (S1 + b) % BASE < 2 ^ d.sizeBits := by
          simp only [BASE] at h2 this ⊢
          omega
        rw [Nat.mod_eq_of_lt hlt]
      simp only [h0, if_false, hc, e1 dm hpow, e1 x86_64 (by decide), e2 dm hpow,
        e2 x86_64 (by decide)]
      exact ih hrest _ _ (Nat.mod_lt _ hB) (Nat.mod_lt _ hB)

theorem Adler32_ascii (dm : DataModel) (hw : 32 ≤ dm.sizeBits) (T : String)
    (hT : ∀ b ∈ bytes T, b < 128) : Adler32 dm T = Adler32 x86_64 T :=
  Adler32loop_ascii dm hw (bytes T) hT _ _ (by decide) (by decide)

namespace CDiscordClient

theorem Handler.name_ascii (h : Handler) : ∀ b ∈ bytes h.name, b < 128 := by
  cases h <;> decide

/-- The eight labels are eight different numbers. -/
theorem Adler32_name_inj (dm : DataModel) (hw : 32 ≤ dm.sizeBits) (a b : Handler) :
    Adler32 dm a.name = Adler32 dm b.name ↔ a = b := by
  rw [Adler32_ascii dm hw _ (Handler.name_ascii a), Adler32_ascii dm hw _ (Handler.name_ascii b)]
  cases a <;> cases b <;> decide

/-- Each of the eight names selects its own handler. -/
theorem select_name (dm : DataModel) (hw : 32 ≤ dm.sizeBits) (h : Handler) :
    select dm h.name = some h := by
  have key := Adler32_name_inj dm hw h
  cases h <;> simp [select, Handler.all, key]

/-- C23 (the code departs from it for the dispatched events): when
`Deserialize` raises for the envelope, or `ParseObject(Pay.D)` raises for a
`HELLO`, the handler returns with the client unchanged; when `ParseObject(Pay.D)`
raises for a `DISPATCH` frame named `READY`, `GUILD_CREATE`, `GUILD_DELETE`,
`VOICE_STATE_UPDATE`, `VOICE_SERVER_UPDATE` or `MESSAGE_CREATE`, the exception
leaves `OnWebsocketEvent`; the client then has the new last sequence number and
its terminate and quit flags as before. -/
theorem parse_errors (dm : DataModel) (hw : 32 ≤ dm.sizeBits) (rt : Runtime)
    (u : CVoiceSocket.Indeterminate) (s : CDiscordClient) :
    OnWebsocketEvent dm rt u s (WebSocketMessage.Message none) = Outcome.returned s ∧
    (∀ Pay : SPayload, Pay.OP = OPCodes.HELLO.toNat → Pay.D.parses = false →
      OnWebsocketEvent dm rt u s (WebSocketMessage.Message (some Pay)) = Outcome.returned s) ∧
    (∀ (Pay : SPayload) (h : Handler), Pay.OP = OPCodes.DISPATCH.toNat → Pay.T = h.name →
      h ≠ Handler.RESUMED → h ≠ Handler.INVALID_SESSION → Pay.D.parses = false →
      OnWebsocketEvent dm rt u s (WebSocketMessage.Message (some Pay))
        = Outcome.raised { s with m_LastSeqNum := Pay.S }) := by
  refine ⟨rfl, ?_, ?_⟩
  · intro Pay hop hp
    simp [OnWebsocketEvent, hop, hp, OPCodes.toNat, HELLO]
  · intro Pay h hop hT h1 h2 hp
    have hsel : select dm Pay.T = some h := by rw [hT]; exact select_name dm hw h
    cases h <;> simp [OnWebsocketEvent, DISPATCH, hop, hsel, hp] at h1 h2 ⊢

/-- A `GUILD_DELETE` whose `d` cannot be parsed reaches a connected client. -/
theorem parse_errors_witness :
    OnWebsocketEvent x86_64 littleEndianRuntime ⟨false, 0, 0⟩ connected
        (WebSocketMessage.Message (some (payload 0 "GUILD_DELETE" false)))
      = Outcome.raised { connected with m_LastSeqNum := 7 } :=
  (parse_errors x86_64 (by decide) littleEndianRuntime ⟨false, 0, 0⟩ connected).2.2
    (payload 0 "GUILD_DELETE" false) Handler.GUILD_DELETE rfl rfl (by decide) (by decide) rfl

/-- The handler does nothing after `CreateVoiceState` when the voice state
returned has no user. -/
theorem VOICE_STATE_UPDATE_no_user (s : CDiscordClient) (S : Int) (json : VoiceStateJson)
    (h : (({ s with m_LastSeqNum := S } : CDiscordClient).CreateVoiceState json none).Ret.UserRef
      = none) :
    VOICE_STATE_UPDATE s S json
      = Outcome.returned
          (({ s with m_LastSeqNum := S } : CDiscordClient).CreateVoiceState json none).client := by
  unfold VOICE_STATE_UPDATE
  simp only []
  split
  · rw [h]
  · rfl

/-- C24 (the code departs from it): a `VOICE_STATE_UPDATE` for a cached guild names
a channel of that guild and carries a member object with the user `user_id`,
who is not in `m_Users` before the event. After the handler the guild has a
member under `user_id` whose voice state refers to the guild and to the channel,
but the user of that voice state is null: `Ret->UserRef` is looked up before the
member and its user are created. The member itself, when it was created by this
event, refers to the user now stored under `user_id`. -/
theorem voice_state_user_lookup (s : CDiscordClient) (S : Int) (json : VoiceStateJson)
    (g : CGuild) (c : CChannel) (JMember : MemberJson) (ju : UserJson)
    (hg : s.m_Guilds.find json.guild_id = some g)
    (hc : g.Channels.find json.channel_id = some c)
    (hm : json.member = some JMember) (hu : JMember.user = Nested.value ju)
    (hid : ju.id = json.user_id)
    (hnew : s.m_Users.find json.user_id = none) :
    ∃ s1 g1 M st, VOICE_STATE_UPDATE s S json = Outcome.returned s1 ∧
      s1.m_Guilds.find json.guild_id = some g1 ∧ g1.Members.find json.user_id = some M ∧
      M.State = some st ∧ st.GuildRef = some g.ID ∧ st.ChannelRef = some c ∧
      st.UserRef = none ∧
      (g.Members.find json.user_id = none →
        ∃ u, u.ID = json.user_id ∧ M.UserRef = some u ∧
          s1.m_Users.find json.user_id = some u) := by
  have hg0 : Map.find s.m_Guilds json.guild_id = some g := hg
  have hnew0 : Map.find s.m_Users ju.id = none := by rw [hid]; exact hnew
  have hnew1 : Map.find s.m_Users json.user_id = none := hnew
  have hc0 : Map.find g.Channels json.channel_id = some c := hc
  have hno : (({ s with m_LastSeqNum := S } : CDiscordClient).CreateVoiceState json none).Ret.UserRef
      = none := by
    rw [(CreateVoiceState_frame _ json).2.1]
    exact hnew
  obtain ⟨st, hst⟩ : ∃ st : CVoiceState, st = ⟨some g.ID, none, some c, json.session_id, json.deaf,
    json.mute, json.self_deaf, json.self_mute, json.self_stream, json.suppress⟩ := ⟨_, rfl⟩
  cases hmem : g.Members.find json.user_id with
  | some m =>
    have hmem0 : Map.find g.Members json.user_id = some m := hmem
    obtain ⟨M, hM⟩ : ∃ M : CGuildMember, M = ⟨m.GuildID, m.UserRef, m.Nick, m.Roles, m.JoinedAt,
      m.PremiumSince, m.Deaf, m.Mute, some st⟩ := ⟨_, rfl⟩
    refine ⟨_, ⟨g.ID, g.Name, g.Channels, g.Members.insert json.user_id M⟩, M, st,
      VOICE_STATE_UPDATE_no_user s S json hno, ?_, find_insert_self _ _ _, ?_, ?_, ?_, ?_, ?_⟩
    · simp [CreateVoiceState, hg0, hc0, hnew1, findMember, hmem0, setState, storeGuild,
        find_insert_self, hM, hst]
    · rw [hM]
    · rw [hst]
    · rw [hst]
    · rw [hst]
    · intro h; cases h
  | none =>
    have hmem0 : Map.find g.Members json.user_id = none := hmem
    obtain ⟨u, hu0⟩ : ∃ u : CUser, u = (({ s with m_LastSeqNum := S } : CDiscordClient).CreateUser ju).2 :=
      ⟨_, rfl⟩
    have huid : u.ID = json.user_id := by rw [hu0, ← hid]; rfl
    obtain ⟨M, hM⟩ : ∃ M : CGuildMember, M = ⟨"", some u, JMember.nick, JMember.roles,
      JMember.joined_at, JMember.premium_since, JMember.deaf, JMember.mute, some st⟩ := ⟨_, rfl⟩
    refine ⟨_, ⟨g.ID, g.Name, g.Channels, (g.Members.insert u.ID
        ⟨"", some u, JMember.nick, JMember.roles, JMember.joined_at, JMember.premium_since,
          JMember.deaf, JMember.mute, none⟩).insert u.ID M⟩, M, st,
      VOICE_STATE_UPDATE_no_user s S json hno, ?_, ?_, ?_, ?_, ?_, ?_, ?_⟩
    · simp [CreateVoiceState, hg0, hc0, hnew1, findMember, hmem0, hm, CreateMember, hu, hnew0,
        setState, storeGuild, find_insert_self, hM, hst, hu0]
    · rw [← huid]; exact find_insert_self _ _ _
    · rw [hM]
    · rw [hst]
    · rw [hst]
    · rw [hst]
    · intro _
      refine ⟨u, huid, by rw [hM], ?_⟩
      simp [CreateVoiceState, hg0, hc0, hnew1, findMember, hmem0, hm, CreateMember, hu, hnew0,
        setState, storeGuild, hu0, CreateUser]
      rw [← hid]
      exact find_insert_self _ _ _

/-- The user `"carol"`, not seen before, enters the channel `"voice"` of
`"guild"`: her member is stored with a voice state whose user is null. -/
theorem voice_state_user_lookup_witness :
    ∃ s1 g1 M st, VOICE_STATE_UPDATE withVoiceChannel 7 carolJoins = Outcome.returned s1 ∧
      s1.m_Guilds.find "guild" = some g1 ∧ g1.Members.find "carol" = some M ∧
      M.State = some st ∧ st.GuildRef = some "guild" ∧
      st.ChannelRef = some { newChannel with ID := "voice", Type_ := 2, GuildID := "guild" } ∧
      st.UserRef = none ∧
      ∃ u, u.ID = "carol" ∧ M.UserRef = some u ∧ s1.m_Users.find "carol" = some u := by
  obtain ⟨s1, g1, M, st, h1, h2, h3, h4, h5, h6, h7, h8⟩ :=
    voice_state_user_lookup withVoiceChannel 7 carolJoins _ _ _ (userJson "carol")
      rfl rfl rfl rfl rfl rfl
  exact ⟨s1, g1, M, st, h1, h2, h3, h4, h5, h6, h7, h8 rfl⟩

end CDiscordClient

/-! ## The gateway client: dispatch by the hash of the event name -/

namespace CDiscordClient

/-- The handler selected for `T` is the one whose label is the hash of `T`. -/
theorem select_eq_some (dm : DataModel) (hw : 32 ≤ dm.sizeBits) (T : String) (h : Handler) :
    select dm T = some h ↔ Adler32 dm T = Adler32 dm h.name := by
  constructor
  · intro hs
    have := List.find?_some hs
    simpa using this
  · intro e
    have hp : (fun x : Handler => decide (Adler32 dm T = Adler32 dm x.name))
        = fun x : Handler => decide (h = x) := by
      funext x
      rw [e]
      exact decide_eq_decide.mpr (Adler32_name_inj dm hw h x)
    unfold select
    rw [hp]
    cases h <;> decide

theorem select_eq_none (dm : DataModel) (T : String) :
    select dm T = none ↔ ∀ h : Handler, Adler32 dm T ≠ Adler32 dm h.name := by
  unfold select
  rw [List.find?_eq_none]
  constructor
  · intro hall h
    have := hall h (by cases h <;> decide)
    simpa using this
  · intro hall h _
    simpa using hall h

theorem selectByName_name (h : Handler) : selectByName h.name = some h := by
  cases h <;> decide

theorem selectByName_eq_none (T : String) :
    selectByName T = none ↔ ∀ h : Handler, T ≠ h.name := by
  unfold selectByName
  rw [List.find?_eq_none]
  constructor
  · intro hall h
    have := hall h (by cases h <;> decide)
    simpa using this
  · intro hall h _
    simpa using hall h

/-- C25 (the sentence as written fails): the string `SCBDY` is none of the eight
event names, and its hash is the hash of `READY`; a `DISPATCH` frame with this
name runs the handler of `READY`, which calls `OnReady`. -/
theorem dispatch_by_hash_counterexample :
    selectByName "SCBDY" = none ∧ select x86_64 "SCBDY" = some Handler.READY ∧
    (OnWebsocketEvent x86_64 littleEndianRuntime ⟨false, 0, 0⟩ connected
      (WebSocketMessage.Message (some (payload 0 "SCBDY" true)))).toOption.map callbacks
      = some [Action.OnReady] := by
  decide

/-- C25 (as amended): the `switch` over `Adler32(T)` selects the handler whose
name has the hash of `T`. Each of the eight names selects its own handler, as the
comparison of strings does; for every other `T` the two agree when the hash of
`T` is none of the eight hashes, and then no handler runs and the frame only
sets the last sequence number. -/
theorem dispatch_by_hash (dm : DataModel) (hw : 32 ≤ dm.sizeBits) :
    (∀ (T : String) (h : Handler), select dm T = some h ↔ Adler32 dm T = Adler32 dm h.name) ∧
    (∀ h : Handler, select dm h.name = selectByName h.name) ∧
    (∀ T : String, (∀ h : Handler, Adler32 dm T ≠ Adler32 dm h.name) →
      select dm T = selectByName T ∧ select dm T = none) ∧
    (∀ (rt : Runtime) (u : CVoiceSocket.Indeterminate) (s : CDiscordClient) (Pay : SPayload),
      select dm Pay.T = none →
      DISPATCH dm rt u s Pay = Outcome.returned { s with m_LastSeqNum := Pay.S }) := by
  refine ⟨select_eq_some dm hw, ?_, ?_, ?_⟩
  · intro h
    rw [select_name dm hw h, selectByName_name h]
  · intro T hT
    have h1 : select dm T = none := (select_eq_none dm T).mpr hT
    have h2 : selectByName T = none := by
      rw [selectByName_eq_none]
      intro h e
      exact hT h (by rw [e])
    exact ⟨by rw [h1, h2], h1⟩
  · intro rt u s Pay hsel
    simp only [DISPATCH, hsel]

/-- The event name `TYPING_START` has none of the eight hashes: no handler is
selected for it, by hash as by name. -/
theorem dispatch_by_hash_witness :
    select x86_64 "TYPING_START" = selectByName "TYPING_START" ∧
    select x86_64 "TYPING_START" = none :=
  (dispatch_by_hash x86_64 (by decide)).2.2.1 "TYPING_START"
    (by intro h; cases h <;> decide)

/-! ### The two maps of guilds and voice sockets -/

theorem findOrCreateUser_maps (s : CDiscordClient) (json : UserJson) :
    (s.findOrCreateUser json).1.m_Guilds = s.m_Guilds ∧
    (s.findOrCreateUser json).1.m_VoiceSockets = s.m_VoiceSockets := by
  unfold findOrCreateUser
  cases s.m_Users.find json.id <;> exact ⟨rfl, rfl⟩

theorem recipients_maps (recipients : List UserJson) :
    ∀ (s : CDiscordClient) (acc : List User),
      (recipients.foldl
        (fun (a : CDiscordClient × List User) (juser : UserJson) =>
          ((a.1.findOrCreateUser juser).1, a.2 ++ [some (a.1.findOrCreateUser juser).2]))
        (s, acc)).1.m_Guilds = s.m_Guilds ∧
      (recipients.foldl
        (fun (a : CDiscordClient × List User) (juser : UserJson) =>
          ((a.1.findOrCreateUser juser).1, a.2 ++ [some (a.1.findOrCreateUser juser).2]))
        (s, acc)).1.m_VoiceSockets = s.m_VoiceSockets := by
  induction recipients with
  | nil => intro s acc; exact ⟨rfl, rfl⟩
  | cons e more ih =>
    intro s acc
    simp only [List.foldl_cons]
    have h1 := ih (s.findOrCreateUser e).1 (acc ++ [some (s.findOrCreateUser e).2])
    have h2 := findOrCreateUser_maps s e
    exact ⟨h1.1.trans h2.1, h1.2.trans h2.2⟩

theorem CreateChannel_maps (s : CDiscordClient) (json : ChannelJson) :
    (s.CreateChannel json).1.m_Guilds = s.m_Guilds ∧
    (s.CreateChannel json).1.m_VoiceSockets = s.m_VoiceSockets := by
  simp only [CreateChannel]
  exact recipients_maps json.recipients s []

theorem addChannels_maps (Array : List ChannelJson) :
    ∀ (s : CDiscordClient) (guild : CGuild),
      (s.addChannels guild Array).1.m_Guilds = s.m_Guilds ∧
      (s.addChannels guild Array).1.m_VoiceSockets = s.m_VoiceSockets ∧
      (s.addChannels guild Array).2.ID = guild.ID := by
  induction Array with
  | nil => intro s guild; exact ⟨rfl, rfl, rfl⟩
  | cons e more ih =>
    intro s guild
    have h2 := CreateChannel_maps s e
    have h1 := ih (s.CreateChannel e).1 ⟨guild.ID, guild.Name, guild.Channels.insert
      (s.CreateChannel e).2.ID { (s.CreateChannel e).2 with GuildID := guild.ID }, guild.Members⟩
    simp only [addChannels, List.foldl_cons] at h1 ⊢
    exact ⟨h1.1.trans h2.1, h1.2.1.trans h2.2, h1.2.2⟩

theorem CreateMember_maps (s s1 : CDiscordClient) (json : MemberJson) (m : CGuildMember)
    (h : s.CreateMember json = some (s1, m)) :
    s1.m_Guilds = s.m_Guilds ∧ s1.m_VoiceSockets = s.m_VoiceSockets := by
  unfold CreateMember at h
  cases hu : json.user with
  | absent => simp [hu] at h; obtain ⟨h1, _⟩ := h; subst h1; exact ⟨rfl, rfl⟩
  | malformed => simp [hu] at h
  | value user =>
    simp only [hu] at h
    cases hf : s.m_Users.find user.id with
    | some it => simp [hf] at h; obtain ⟨h1, _⟩ := h; subst h1; exact ⟨rfl, rfl⟩
    | none => simp [hf, CreateUser] at h; obtain ⟨h1, _⟩ := h; subst h1; exact ⟨rfl, rfl⟩

theorem addMembers_maps (Array : List MemberJson) :
    ∀ (s : CDiscordClient) (guild : CGuild),
      (∀ r, s.addMembers guild Array = Outcome.returned r →
        r.1.m_Guilds = s.m_Guilds ∧ r.1.m_VoiceSockets = s.m_VoiceSockets ∧ r.2.ID = guild.ID) ∧
      (∀ t, s.addMembers guild Array = Outcome.raised t →
        t.m_Guilds = s.m_Guilds ∧ t.m_VoiceSockets = s.m_VoiceSockets) ∧
      s.addMembers guild Array ≠ Outcome.crashed := by
  induction Array with
  | nil =>
    intro s guild
    refine ⟨?_, ?_, ?_⟩
    · intro r h
      simp only [addMembers] at h
      have := Outcome.returned.inj h
      subst this
      exact ⟨rfl, rfl, rfl⟩
    · intro t h; simp [addMembers] at h
    · simp [addMembers]
  | cons e more ih =>
    intro s guild
    cases hc : s.CreateMember e with
    | none =>
      refine ⟨?_, ?_, ?_⟩
      · intro r h; simp [addMembers, hc] at h
      · intro t h
        simp only [addMembers, hc] at h
        have := Outcome.raised.inj h
        subst this
        exact ⟨rfl, rfl⟩
      · simp [addMembers, hc]
    | some p =>
      obtain ⟨s1, Tmp⟩ := p
      have hm := CreateMember_maps s s1 e Tmp hc
      cases hu : Tmp.UserRef with
      | none =>
        have h1 := ih s1 guild
        simp only [addMembers, hc, hu]
        refine ⟨?_, ?_, h1.2.2⟩
        · intro r h
          have := h1.1 r h
          exact ⟨this.1.trans hm.1, this.2.1.trans hm.2, this.2.2⟩
        · intro t h
          have := h1.2.1 t h
          exact ⟨this.1.trans hm.1, this.2.trans hm.2⟩
      | some u =>
        have h1 := ih s1 { guild with Members := guild.Members.insert u.ID Tmp }
        simp only [addMembers, hc, hu]
        refine ⟨?_, ?_, h1.2.2⟩
        · intro r h
          have := h1.1 r h
          exact ⟨this.1.trans hm.1, this.2.1.trans hm.2, this.2.2⟩
        · intro t h
          have := h1.2.1 t h
          exact ⟨this.1.trans hm.1, this.2.trans hm.2⟩

theorem findMember_maps (s : CDiscordClient) (json : VoiceStateJson) (g : CGuild)
    (Member : CGuildMember) (key : Option String) (s1 : CDiscordClient) (g1 : CGuild)
    (h : s.findMember json g = some (Member, key, s1, g1)) :
    s1.m_Guilds = s.m_Guilds ∧ s1.m_VoiceSockets = s.m_VoiceSockets ∧ g1.ID = g.ID := by
  unfold findMember at h
  cases hm : g.Members.find json.user_id with
  | some m =>
    simp [hm] at h
    obtain ⟨_, _, h1, h2⟩ := h
    subst h1; subst h2
    exact ⟨rfl, rfl, rfl⟩
  | none =>
    simp only [hm] at h
    cases hj : json.member with
    | none => simp [hj] at h
    | some JMember =>
      simp only [hj] at h
      cases hc : s.CreateMember JMember with
      | none => simp [hc] at h
      | some r =>
        obtain ⟨s2, M⟩ := r
        simp only [hc] at h
        have hframe := CreateMember_maps s s2 JMember M hc
        cases hu : M.UserRef with
        | none =>
          simp [hu] at h
          obtain ⟨_, _, h1, h2⟩ := h
          subst h1; subst h2
          exact ⟨hframe.1, hframe.2, rfl⟩
        | some u =>
          simp [hu] at h
          obtain ⟨_, _, h1, h2⟩ := h
          subst h1; subst h2
          exact ⟨hframe.1, hframe.2, rfl⟩

/-- What `CreateVoiceState` does to the two maps, for a guild handed in and for
a guild looked up. -/
theorem CreateVoiceState_maps (s : CDiscordClient) (json : VoiceStateJson) (guild : Guild) :
    (s.CreateVoiceState json guild).client.m_VoiceSockets = s.m_VoiceSockets ∧
    (∀ g, guild = some g → (s.CreateVoiceState json guild).client.m_Guilds = s.m_Guilds ∧
      ∃ g2, (s.CreateVoiceState json guild).guild = some g2 ∧ g2.ID = g.ID) ∧
    (guild = none →
      ((s.CreateVoiceState json guild).client.m_Guilds = s.m_Guilds ∨
        ∃ g g2, s.m_Guilds.find json.guild_id = some g ∧ g2.ID = g.ID ∧
          (s.CreateVoiceState json guild).client.m_Guilds
            = s.m_Guilds.insert json.guild_id g2) ∧
      ∀ gr, (s.CreateVoiceState json guild).guild = some gr →
        ∃ g, s.m_Guilds.find json.guild_id = some g ∧ gr.ID = g.ID) := by
  cases guild with
  | some g0 =>
    cases hf : s.findMember json g0 with
    | none =>
      simp only [CreateVoiceState, hf]
      refine ⟨by first | rfl | trivial, ?_, ?_⟩
      · intro g hg
        cases hg
        exact ⟨by first | rfl | trivial, g0, rfl, rfl⟩
      · intro h; cases h
    | some x =>
      obtain ⟨Member, key, s1, g1⟩ := x
      have hm := findMember_maps s json g0 Member key s1 g1 hf
      by_cases hch : (g0.Channels.find json.channel_id).isNone
      · simp only [CreateVoiceState, hf, hch, if_true, storeGuild, Option.isSome_some]
        refine ⟨hm.2.1, ?_, ?_⟩
        · intro g hg
          cases hg
          exact ⟨hm.1, _, rfl, by rw [setState_ID]; exact hm.2.2⟩
        · intro h; cases h
      · simp only [CreateVoiceState, hf, hch, storeGuild, Option.isSome_some]
        refine ⟨hm.2.1, ?_, ?_⟩
        · intro g hg
          cases hg
          exact ⟨hm.1, _, rfl, by rw [setState_ID]; exact hm.2.2⟩
        · intro h; cases h
  | none =>
    cases hg : s.m_Guilds.find json.guild_id with
    | none =>
      have hg0 : Map.find s.m_Guilds json.guild_id = none := hg
      simp only [CreateVoiceState, hg0]
      refine ⟨by first | rfl | trivial, ?_, ?_⟩
      · intro g h; cases h
      · intro _
        refine ⟨Or.inl (by first | rfl | trivial), ?_⟩
        intro gr h; cases h
    | some g =>
      have hg0 : Map.find s.m_Guilds json.guild_id = some g := hg
      cases hf : s.findMember json g with
      | none =>
        simp only [CreateVoiceState, hg0, hf]
        refine ⟨by first | rfl | trivial, ?_, ?_⟩
        · intro g h; cases h
        · intro _
          refine ⟨Or.inl (by first | rfl | trivial), ?_⟩
          intro gr h
          cases h
          exact ⟨_, rfl, rfl⟩
      | some x =>
        obtain ⟨Member, key, s1, g1⟩ := x
        have hm := findMember_maps s json g Member key s1 g1 hf
        by_cases hch : (g.Channels.find json.channel_id).isNone
        · simp only [CreateVoiceState, hg0, hf, hch, if_true, storeGuild, Option.isSome_none,
            Bool.false_eq_true, if_false]
          refine ⟨hm.2.1, ?_, ?_⟩
          · intro g h; cases h
          · intro _
            refine ⟨Or.inr ⟨g, _, rfl, ?_, by rw [hm.1]⟩, ?_⟩
            · rw [setState_ID]; exact hm.2.2
            · intro gr h
              cases h
              exact ⟨_, rfl, by rw [setState_ID]; exact hm.2.2⟩
        · simp only [CreateVoiceState, hg0, hf, hch, storeGuild, Option.isSome_none,
            Bool.false_eq_true, if_false]
          refine ⟨hm.2.1, ?_, ?_⟩
          · intro g h; cases h
          · intro _
            refine ⟨Or.inr ⟨g, _, rfl, ?_, by rw [hm.1]⟩, ?_⟩
            · rw [setState_ID]; exact hm.2.2
            · intro gr h
              cases h
              exact ⟨_, rfl, by rw [setState_ID]; exact hm.2.2⟩

theorem addVoiceStates_maps (Array : List VoiceStateJson) :
    ∀ (s : CDiscordClient) (guild : CGuild),
      (s.addVoiceStates guild Array).1.m_Guilds = s.m_Guilds ∧
      (s.addVoiceStates guild Array).1.m_VoiceSockets = s.m_VoiceSockets ∧
      (s.addVoiceStates guild Array).2.ID = guild.ID := by
  induction Array with
  | nil => intro s guild; exact ⟨rfl, rfl, rfl⟩
  | cons e more ih =>
    intro s guild
    have h2 := CreateVoiceState_maps s e (some guild)
    obtain ⟨hG, g2, hg2, hid⟩ := h2.2.1 guild rfl
    have h1 := ih (s.CreateVoiceState e (some guild)).client
      ((s.CreateVoiceState e (some guild)).guild.getD guild)
    simp only [addVoiceStates, List.foldl_cons] at h1 ⊢
    refine ⟨h1.1.trans hG, h1.2.1.trans h2.1, h1.2.2.trans ?_⟩
    rw [hg2]
    exact hid

/-- What `GUILD_CREATE` does to the two maps: when it returns, a guild is stored
under its own ID; when an exception leaves it, nothing is stored. -/
theorem GUILD_CREATE_maps (s : CDiscordClient) (S : Int) (json : GuildJson) :
    (∀ t, GUILD_CREATE s S json = Outcome.returned t →
      t.m_VoiceSockets = s.m_VoiceSockets ∧ ∃ g, t.m_Guilds = s.m_Guilds.insert g.ID g) ∧
    (∀ t, GUILD_CREATE s S json = Outcome.raised t →
      t.m_VoiceSockets = s.m_VoiceSockets ∧ t.m_Guilds = s.m_Guilds) ∧
    GUILD_CREATE s S json ≠ Outcome.crashed := by
  obtain ⟨c, hc⟩ : ∃ c, ({ s with m_LastSeqNum := S } : CDiscordClient).addChannels
    ⟨json.id, json.name, Map.empty, Map.empty⟩ json.channels = c := ⟨_, rfl⟩
  have h1 := addChannels_maps json.channels ({ s with m_LastSeqNum := S } : CDiscordClient)
    ⟨json.id, json.name, Map.empty, Map.empty⟩
  rw [hc] at h1
  have h2 := addMembers_maps json.members c.1 c.2
  have hrun : GUILD_CREATE s S json
      = match c.1.addMembers c.2 json.members with
        | Outcome.raised s1 => Outcome.raised s1
        | Outcome.crashed => Outcome.crashed
        | Outcome.terminated s1 => Outcome.terminated s1
        | Outcome.returned m =>
          Outcome.returned { (m.1.addVoiceStates m.2 json.voice_states).1 with
            m_Guilds := (m.1.addVoiceStates m.2 json.voice_states).1.m_Guilds.insert
              (m.1.addVoiceStates m.2 json.voice_states).2.ID
              (m.1.addVoiceStates m.2 json.voice_states).2 } := by
    rw [← hc]
    rfl
  rw [hrun]
  cases hm : c.1.addMembers c.2 json.members with
  | crashed => exact absurd hm h2.2.2
  | terminated t1 =>
    refine ⟨?_, ?_, ?_⟩
    · intro t h; cases h
    · intro t h; cases h
    · intro h; cases h
  | raised t1 =>
    have h3 := h2.2.1 t1 hm
    refine ⟨?_, ?_, ?_⟩
    · intro t h; cases h
    · intro t h
      have := Outcome.raised.inj h
      subst this
      exact ⟨h3.2.trans h1.2.1, h3.1.trans h1.1⟩
    · intro h; cases h
  | returned m =>
    have h3 := h2.1 m hm
    have h4 := addVoiceStates_maps json.voice_states m.1 m.2
    refine ⟨?_, ?_, ?_⟩
    · intro t h
      have := Outcome.returned.inj h
      subst this
      refine ⟨h4.2.1.trans (h3.2.1.trans h1.2.1), (m.1.addVoiceStates m.2 json.voice_states).2, ?_⟩
      show (m.1.addVoiceStates m.2 json.voice_states).1.m_Guilds.insert _ _ = _
      rw [h4.1, h3.1, h1.1]
    · intro t h; cases h
    · intro h; cases h

theorem Consistent.of_maps {s t : CDiscordClient} (h : Consistent s)
    (hg : t.m_Guilds = s.m_Guilds) (hv : t.m_VoiceSockets = s.m_VoiceSockets) :
    Consistent t := by
  unfold Consistent at h ⊢
  rw [hg, hv]
  exact h

theorem Consistent.insert_guild {s t : CDiscordClient} (h : Consistent s) (g : CGuild)
    (hg : t.m_Guilds = s.m_Guilds.insert g.ID g) (hv : t.m_VoiceSockets = s.m_VoiceSockets) :
    Consistent t := by
  unfold Consistent at h ⊢
  rw [hg, hv]
  refine ⟨?_, ?_⟩
  · intro k hk
    by_cases e : k = g.ID
    · simp [Map.find, Map.insert, e]
    · rw [find_insert_of_ne _ _ _ _ e]
      exact h.1 k hk
  · intro k g1 hk
    by_cases e : k = g.ID
    · rw [e, find_insert_self] at hk
      cases hk
      exact e.symm
    · rw [find_insert_of_ne _ _ _ _ e] at hk
      exact h.2 k g1 hk

theorem Consistent.erase_socket {s t : CDiscordClient} (h : Consistent s) (k : String)
    (hg : t.m_Guilds = s.m_Guilds) (hv : t.m_VoiceSockets = s.m_VoiceSockets.erase k) :
    Consistent t := by
  unfold Consistent at h ⊢
  rw [hg, hv]
  refine ⟨?_, h.2⟩
  intro x hx
  by_cases e : x = k
  · rw [e, table_find_erase, if_pos rfl] at hx
    exact absurd rfl hx
  · rw [table_find_erase, if_neg e] at hx
    exact h.1 x hx

theorem Consistent.insert_socket {s t : CDiscordClient} (h : Consistent s) (k : String)
    (v : CVoiceSocket) (hk : s.m_Guilds.find k ≠ none)
    (hg : t.m_Guilds = s.m_Guilds) (hv : t.m_VoiceSockets = s.m_VoiceSockets.insert k v) :
    Consistent t := by
  unfold Consistent at h ⊢
  rw [hg, hv]
  refine ⟨?_, h.2⟩
  intro x hx
  by_cases e : x = k
  · rw [e]; exact hk
  · rw [table_find_insert, if_neg e] at hx
    exact h.1 x hx

theorem Consistent.erase_guild {s t : CDiscordClient} (h : Consistent s) (k : String)
    (hg : t.m_Guilds = s.m_Guilds.erase k) (hv : t.m_VoiceSockets.find k = none)
    (hv2 : ∀ x, x ≠ k → t.m_VoiceSockets.find x = s.m_VoiceSockets.find x) :
    Consistent t := by
  unfold Consistent at h ⊢
  rw [hg]
  refine ⟨?_, ?_⟩
  · intro x hx
    by_cases e : x = k
    · rw [e] at hx; exact absurd hv hx
    · have e2 : Map.find (Map.erase s.m_Guilds k) x = Map.find s.m_Guilds x := by
        simp [Map.find, Map.erase, e]
      rw [hv2 x e] at hx
      rw [e2]
      exact h.1 x hx
  · intro x g hx
    by_cases e : x = k
    · rw [e, find_erase_self] at hx
      cases hx
    · have e2 : Map.find (Map.erase s.m_Guilds k) x = Map.find s.m_Guilds x := by
        simp [Map.find, Map.erase, e]
      rw [e2] at hx
      exact h.2 x g hx

theorem GUILD_DELETE_consistent (s t : CDiscordClient) (S : Int) (id : String)
    (hs : Consistent s)
    (h : GUILD_DELETE s S id = Outcome.returned t ∨ GUILD_DELETE s S id = Outcome.raised t) :
    Consistent t := by
  have hnone : ∀ x : CDiscordClient, x.m_VoiceSockets.find id = none →
      x.m_Guilds = s.m_Guilds →
      (∀ k, k ≠ id → x.m_VoiceSockets.find k = s.m_VoiceSockets.find k) →
      ∀ y, ((match x.m_Guilds.find id with
        | some _ => Outcome.returned { x with m_Guilds := x.m_Guilds.erase id }
        | none => Outcome.returned x) = Outcome.returned y ∨
        (match x.m_Guilds.find id with
        | some _ => Outcome.returned { x with m_Guilds := x.m_Guilds.erase id }
        | none => Outcome.returned x) = Outcome.raised y) → Consistent y := by
    intro x hxv hxg hxo y hy
    cases hgx : x.m_Guilds.find id with
    | none =>
      have hgx0 : Map.find x.m_Guilds id = none := hgx
      simp only [hgx0] at hy
      rcases hy with hy | hy
      · have := Outcome.returned.inj hy
        subst this
        have herase : x.m_Guilds = s.m_Guilds.erase id := by
          rw [← hxg]
          funext k
          simp only [Map.erase]
          split_ifs with e
          · rw [e]; exact hgx
          · rfl
        exact Consistent.erase_guild hs id herase hxv hxo
      · cases hy
    | some g =>
      have hgx0 : Map.find x.m_Guilds id = some g := hgx
      simp only [hgx0] at hy
      rcases hy with hy | hy
      · have := Outcome.returned.inj hy
        subst this
        exact Consistent.erase_guild hs id (by rw [← hxg]) hxv hxo
      · cases hy
  cases hf : s.m_VoiceSockets.find id with
  | none =>
    simp only [GUILD_DELETE, hf] at h
    exact hnone { s with m_LastSeqNum := S } hf rfl (fun _ _ => rfl) t h
  | some v =>
    cases hj : v.joinable with
    | true =>
      simp only [GUILD_DELETE, hf, hj, if_true] at h
      rcases h with h | h <;> cases h
    | false =>
      simp only [GUILD_DELETE, hf, hj, Bool.false_eq_true, if_false] at h
      refine hnone { s with m_LastSeqNum := S, m_VoiceSockets := s.m_VoiceSockets.erase id }
        ?_ rfl ?_ t h
      · show (s.m_VoiceSockets.erase id).find id = none
        rw [table_find_erase, if_pos rfl]
      · intro k hk
        show (s.m_VoiceSockets.erase id).find k = s.m_VoiceSockets.find k
        rw [table_find_erase, if_neg hk]

/-- After `CreateVoiceState` the handler of `VOICE_STATE_UPDATE` leaves `m_Guilds`
alone and at most erases one voice socket. -/
theorem VOICE_STATE_UPDATE_shape (s t : CDiscordClient) (S : Int) (json : VoiceStateJson)
    (h : VOICE_STATE_UPDATE s S json = Outcome.returned t ∨
      VOICE_STATE_UPDATE s S json = Outcome.raised t) :
    t.m_Guilds
      = (({ s with m_LastSeqNum := S } : CDiscordClient).CreateVoiceState json none).client.m_Guilds ∧
    (t.m_VoiceSockets = (({ s with m_LastSeqNum := S } : CDiscordClient).CreateVoiceState json
        none).client.m_VoiceSockets ∨
      ∃ k, t.m_VoiceSockets = Table.erase (({ s with m_LastSeqNum := S } :
        CDiscordClient).CreateVoiceState json none).client.m_VoiceSockets k) := by
  obtain ⟨r, hr⟩ : ∃ r, ({ s with m_LastSeqNum := S } : CDiscordClient).CreateVoiceState json none
      = r := ⟨_, rfl⟩
  rw [hr]
  unfold VOICE_STATE_UPDATE at h
  simp only [] at h
  rw [hr] at h
  cases hc : r.client.m_Controller with
  | false =>
    simp only [hc] at h
    rcases h with h | h
    · cases h; exact ⟨rfl, Or.inl rfl⟩
    · cases h
  | true =>
    cases hgd : r.guild with
    | none =>
      simp only [hc, hgd] at h
      rcases h with h | h
      · cases h; exact ⟨rfl, Or.inl rfl⟩
      · cases h
    | some GuildRef =>
      cases hu : r.Ret.UserRef with
      | none =>
        simp only [hc, hgd, hu] at h
        rcases h with h | h
        · cases h; exact ⟨rfl, Or.inl rfl⟩
        · cases h
      | some UserRef =>
        cases hb : r.client.m_BotUser with
        | none =>
          simp only [hc, hgd, hu, hb] at h
          rcases h with h | h <;> cases h
        | some BotUser =>
          simp only [hc, hgd, hu, hb] at h
          by_cases hcond : UserRef.ID = BotUser.ID ∧ r.Ret.ChannelRef.isNone
          · rw [if_pos hcond] at h
            cases hf : r.client.m_VoiceSockets.find GuildRef.ID with
            | none =>
              simp only [hf] at h
              cases hmem : GuildRef.Members.find UserRef.ID with
              | none =>
                have hmem0 : Map.find GuildRef.Members UserRef.ID = none := hmem
                simp only [hmem0] at h
                rcases h with h | h
                · cases h; exact ⟨rfl, Or.inl rfl⟩
                · cases h
              | some Member =>
                have hmem0 : Map.find GuildRef.Members UserRef.ID = some Member := hmem
                simp only [hmem0] at h
                rcases h with h | h
                · cases h; exact ⟨rfl, Or.inl rfl⟩
                · cases h
            | some v =>
              cases hj : v.joinable with
              | true =>
                simp only [hf, hj, if_true] at h
                rcases h with h | h <;> cases h
              | false =>
                simp only [hf, hj, Bool.false_eq_true, if_false] at h
                cases hmem : GuildRef.Members.find UserRef.ID with
                | none =>
                  have hmem0 : Map.find GuildRef.Members UserRef.ID = none := hmem
                  simp only [hmem0] at h
                  rcases h with h | h
                  · cases h; exact ⟨rfl, Or.inr ⟨_, rfl⟩⟩
                  · cases h
                | some Member =>
                  have hmem0 : Map.find GuildRef.Members UserRef.ID = some Member := hmem
                  simp only [hmem0] at h
                  rcases h with h | h
                  · cases h; exact ⟨rfl, Or.inr ⟨_, rfl⟩⟩
                  · cases h
          · rw [if_neg hcond] at h
            cases hmem : GuildRef.Members.find UserRef.ID with
            | none =>
              have hmem0 : Map.find GuildRef.Members UserRef.ID = none := hmem
              simp only [hmem0] at h
              rcases h with h | h
              · cases h; exact ⟨rfl, Or.inl rfl⟩
              · cases h
            | some Member =>
              have hmem0 : Map.find GuildRef.Members UserRef.ID = some Member := hmem
              simp only [hmem0] at h
              rcases h with h | h
              · cases h; exact ⟨rfl, Or.inl rfl⟩
              · cases h

theorem VOICE_STATE_UPDATE_consistent (s t : CDiscordClient) (S : Int) (json : VoiceStateJson)
    (hs : Consistent s)
    (h : VOICE_STATE_UPDATE s S json = Outcome.returned t ∨
      VOICE_STATE_UPDATE s S json = Outcome.raised t) : Consistent t := by
  have hm := CreateVoiceState_maps ({ s with m_LastSeqNum := S } : CDiscordClient) json none
  have hr : Consistent
      (({ s with m_LastSeqNum := S } : CDiscordClient).CreateVoiceState json none).client := by
    cases (hm.2.2 rfl).1 with
    | inl hsame => exact Consistent.of_maps hs hsame hm.1
    | inr hins =>
      obtain ⟨g, g2, hg, hid, hins⟩ := hins
      have hk : g2.ID = json.guild_id := hid.trans (hs.2 json.guild_id g hg)
      rw [← hk] at hins
      exact Consistent.insert_guild hs g2 hins hm.1
  have hsh := VOICE_STATE_UPDATE_shape s t S json h
  cases hsh.2 with
  | inl hv => exact Consistent.of_maps hr hsh.1 hv
  | inr hv =>
    obtain ⟨k, hv⟩ := hv
    exact Consistent.erase_socket hr k hsh.1 hv

theorem VOICE_SERVER_UPDATE_consistent (rt : Runtime) (u : CVoiceSocket.Indeterminate)
    (s t : CDiscordClient) (S : Int) (json : CVoiceSocket.ServerUpdate) (hs : Consistent s)
    (h : VOICE_SERVER_UPDATE rt u s S json = Outcome.returned t ∨
      VOICE_SERVER_UPDATE rt u s S json = Outcome.raised t) : Consistent t := by
  cases hg : s.m_Guilds.find json.guild_id with
  | none =>
    have hg0 : Map.find s.m_Guilds json.guild_id = none := hg
    simp only [VOICE_SERVER_UPDATE, hg0] at h
    cases h with
    | inl h => cases h; exact Consistent.of_maps hs rfl rfl
    | inr h => cases h
  | some g =>
    have hg0 : Map.find s.m_Guilds json.guild_id = some g := hg
    have hid : g.ID = json.guild_id := hs.2 json.guild_id g hg
    have hk : s.m_Guilds.find g.ID ≠ none := by rw [hid, hg]; simp
    cases hb : s.m_BotUser with
    | none =>
      simp only [VOICE_SERVER_UPDATE, hg0, hb] at h
      cases h with
      | inl h => cases h
      | inr h => cases h
    | some bot =>
      cases hmem : g.Members.find bot.ID with
      | none =>
        have hmem0 : Map.find g.Members bot.ID = none := hmem
        simp only [VOICE_SERVER_UPDATE, hg0, hb, hmem0] at h
        cases h with
        | inl h => cases h; exact Consistent.of_maps hs rfl rfl
        | inr h => cases h
      | some Member =>
        have hmem0 : Map.find g.Members bot.ID = some Member := hmem
        cases hst : Member.State with
        | none =>
          simp only [VOICE_SERVER_UPDATE, hg0, hb, hmem0, hst] at h
          cases h with
          | inl h => cases h
          | inr h => cases h
        | some State =>
          cases hrep : (match s.m_VoiceSockets.find g.ID with
              | some Old => Old.joinable
              | none => false) with
          | true =>
            simp only [VOICE_SERVER_UPDATE, hg0, hb, hmem0, hst, hrep, if_true] at h
            rcases h with h | h <;> cases h
          | false =>
            cases hsrc : s.m_AudioSources.find g.ID with
            | none =>
              have hsrc0 : Map.find s.m_AudioSources g.ID = none := hsrc
              simp only [VOICE_SERVER_UPDATE, hg0, hb, hmem0, hst, hsrc0, hrep,
                Bool.false_eq_true, if_false] at h
              cases h with
              | inl h =>
                cases h
                exact Consistent.insert_socket hs g.ID _ hk rfl rfl
              | inr h => cases h
            | some Source =>
              have hsrc0 : Map.find s.m_AudioSources g.ID = some Source := hsrc
              simp only [VOICE_SERVER_UPDATE, hg0, hb, hmem0, hst, hsrc0, hrep,
                Bool.false_eq_true, if_false] at h
              cases h with
              | inl h =>
                cases h
                refine Consistent.insert_socket hs g.ID (CVoiceSocket.StartSpeaking rt
                  (CVoiceSocket.create json State.SessionID bot.ID u) Source) hk rfl ?_
                exact table_insert_insert _ _ _ _
              | inr h => cases h

theorem READY_maps (s t : CDiscordClient) (S : Int) (json : GatewayReadyJson)
    (h : READY s S json = Outcome.returned t ∨ READY s S json = Outcome.raised t) :
    t.m_Guilds = s.m_Guilds ∧ t.m_VoiceSockets = s.m_VoiceSockets := by
  cases hu : json.user with
  | none =>
    simp only [READY, hu] at h
    cases h with
    | inl h => cases h
    | inr h => cases h; exact ⟨rfl, rfl⟩
  | some user =>
    simp only [READY, hu, CreateUser] at h
    cases h with
    | inl h =>
      cases h
      split_ifs <;> exact ⟨rfl, rfl⟩
    | inr h => cases h

theorem CreateMessage_raised (s x : CDiscordClient) (json : MessageJson)
    (h : s.CreateMessage json = Outcome.raised x) : x = s := by
  unfold CreateMessage at h
  simp only [] at h
  split at h
  · cases h; rfl
  · split at h <;> cases h

theorem MESSAGE_CREATE_maps (s t : CDiscordClient) (S : Int) (json : MessageJson)
    (h : MESSAGE_CREATE s S json = Outcome.returned t ∨
      MESSAGE_CREATE s S json = Outcome.raised t) :
    t.m_Guilds = s.m_Guilds ∧ t.m_VoiceSockets = s.m_VoiceSockets := by
  unfold MESSAGE_CREATE at h
  simp only [] at h
  cases hc : ({ s with m_LastSeqNum := S } : CDiscordClient).CreateMessage json with
  | crashed =>
    rw [hc] at h
    cases h with
    | inl h => cases h
    | inr h => cases h
  | terminated x =>
    rw [hc] at h
    cases h with
    | inl h => cases h
    | inr h => cases h
  | raised x =>
    rw [hc] at h
    have hx := CreateMessage_raised _ x json hc
    cases h with
    | inl h => cases h
    | inr h =>
      cases h
      rw [hx]
      exact ⟨rfl, rfl⟩
  | returned r =>
    rw [hc] at h
    obtain ⟨s2, msg⟩ := r
    have hsame := (CreateMessage_after _ s2 json msg hc).2.2.1
    simp only [SameButUsers] at hsame
    cases h with
    | inl h =>
      cases h
      split_ifs
      · exact ⟨hsame.2.2.2.2.2.2.2.2.2.1, hsame.2.2.2.2.2.2.2.2.2.2.1⟩
      · exact ⟨hsame.2.2.2.2.2.2.2.2.2.1, hsame.2.2.2.2.2.2.2.2.2.2.1⟩
    | inr h => cases h

theorem Consistent.of_empty {t : CDiscordClient} (hg : t.m_Guilds = Map.empty)
    (hv : t.m_VoiceSockets = Table.empty) : Consistent t := by
  unfold Consistent
  rw [hg, hv]
  refine ⟨?_, ?_⟩
  · intro k hk
    exact absurd rfl hk
  · intro k g hk
    cases hk

theorem Heartbeat_maps (s t : CDiscordClient)
    (h : Heartbeat s = Outcome.returned t ∨ Heartbeat s = Outcome.raised t) :
    (t.m_Guilds = s.m_Guilds ∧ t.m_VoiceSockets = s.m_VoiceSockets) ∨
    (t.m_Guilds = Map.empty ∧ t.m_VoiceSockets = Table.empty) := by
  cases h1 : s.m_Heartbeat <;> cases h0 : s.heartbeatReturned <;> cases h2 : s.m_Terminate <;>
    cases h3 : s.m_HeartACKReceived <;> cases h4 : s.m_Controller <;>
    cases h5 : s.m_VoiceSockets.values.any CVoiceSocket.joinable <;>
    simp [Heartbeat, h0, h1, h2, h3, h4, h5, emit, SendOP] at h <;>
    (subst h; simp)

theorem Heartbeat_consistent (s t : CDiscordClient) (hs : Consistent s)
    (h : Heartbeat s = Outcome.returned t ∨ Heartbeat s = Outcome.raised t) :
    Consistent t := by
  cases Heartbeat_maps s t h with
  | inl hm => exact Consistent.of_maps hs hm.1 hm.2
  | inr hm => exact Consistent.of_empty hm.1 hm.2

theorem Quit_maps (s : CDiscordClient) :
    s.Quit.m_Guilds = s.m_Guilds ∧ s.Quit.m_VoiceSockets = s.m_VoiceSockets := by
  cases hc : s.m_Controller <;> cases hh : s.m_Heartbeat <;> simp [Quit, emit, hc, hh]

theorem HELLO_consistent (s t : CDiscordClient) (interval : Option Nat) (hs : Consistent s)
    (h : HELLO s interval = Outcome.returned t ∨ HELLO s interval = Outcome.raised t) :
    Consistent t := by
  cases interval with
  | none =>
    simp only [HELLO] at h
    rcases h with h | h
    · cases h; exact hs
    · cases h
  | some i =>
    by_cases halive : s.m_Heartbeat = true ∧ s.heartbeatReturned = false
    · obtain ⟨t1, hret, hterm, _, _, _, hg, _⟩ := HELLO_alive s i halive.1 halive.2
      cases hj : s.m_VoiceSockets.values.any CVoiceSocket.joinable with
      | false =>
        obtain ⟨h1, hv, _⟩ := hret hj
        rw [h1] at h
        rcases h with h | h
        · cases h; exact Consistent.of_empty hg hv
        · cases h
      | true =>
        rw [(hterm hj).1] at h
        rcases h with h | h <;> cases h
    · have hfresh : s.m_Heartbeat = false ∨ s.heartbeatReturned = true := by
        cases hh : s.m_Heartbeat
        · exact Or.inl rfl
        · cases hr : s.heartbeatReturned
          · exact absurd ⟨hh, hr⟩ halive
          · exact Or.inr rfl
      obtain ⟨t1, h1, _, _, _, _, _, _, hg, hv, _⟩ := HELLO_fresh s i hfresh
      rw [h1] at h
      rcases h with h | h
      · cases h; exact Consistent.of_maps hs hg hv
      · cases h

theorem StartSpeaking_consistent (rt : Runtime) (s : CDiscordClient) (channel : Channel)
    (source : AudioSource) (h : Consistent s) :
    Consistent (StartSpeaking rt s channel source).1 := by
  cases channel with
  | none => exact h
  | some c =>
    simp only [StartSpeaking]
    split_ifs
    · exact h
    · cases hf : s.m_VoiceSockets.find c.GuildID with
      | none => exact Consistent.of_maps h rfl rfl
      | some Socket =>
        exact Consistent.insert_socket h c.GuildID _ (h.1 c.GuildID (by rw [hf]; simp)) rfl rfl

theorem INVALID_SESSION_maps (s : CDiscordClient) (S : Int) (D : String) :
    (INVALID_SESSION s S D).m_Guilds = s.m_Guilds ∧
    (INVALID_SESSION s S D).m_VoiceSockets = s.m_VoiceSockets := by
  unfold INVALID_SESSION
  simp only []
  split_ifs
  · exact ⟨rfl, rfl⟩
  · exact Quit_maps _

theorem RESUMED_maps (s : CDiscordClient) (S : Int) :
    (RESUMED s S).m_Guilds = s.m_Guilds ∧ (RESUMED s S).m_VoiceSockets = s.m_VoiceSockets := by
  unfold RESUMED
  simp only []
  split_ifs <;> exact ⟨rfl, rfl⟩

theorem Consistent.of_returned {y x : CDiscordClient} (hy : Consistent y)
    (h : (Outcome.returned y : Outcome CDiscordClient) = Outcome.returned x ∨
      (Outcome.returned y : Outcome CDiscordClient) = Outcome.raised x) : Consistent x := by
  cases h with
  | inl h => cases h; exact hy
  | inr h => cases h

theorem Consistent.of_raised {y x : CDiscordClient} (hy : Consistent y)
    (h : (Outcome.raised y : Outcome CDiscordClient) = Outcome.returned x ∨
      (Outcome.raised y : Outcome CDiscordClient) = Outcome.raised x) : Consistent x := by
  cases h with
  | inl h => cases h
  | inr h => cases h; exact hy

theorem DISPATCH_consistent (dm : DataModel) (rt : Runtime) (u : CVoiceSocket.Indeterminate)
    (s t : CDiscordClient) (Pay : SPayload) (hs : Consistent s)
    (h : DISPATCH dm rt u s Pay = Outcome.returned t ∨
      DISPATCH dm rt u s Pay = Outcome.raised t) : Consistent t := by
  have h0 : Consistent ({ s with m_LastSeqNum := Pay.S } : CDiscordClient) :=
    Consistent.of_maps hs rfl rfl
  cases hsel : select dm Pay.T with
  | none =>
    simp only [DISPATCH, hsel] at h
    exact Consistent.of_returned h0 h
  | some hd =>
    by_cases hp : Pay.D.parses = true
    · cases hd <;> simp only [DISPATCH, hsel, hp, if_true] at h
      · have := READY_maps s t Pay.S Pay.D.ready h
        exact Consistent.of_maps hs this.1 this.2
      · have hm := GUILD_CREATE_maps s Pay.S Pay.D.guild
        cases h with
        | inl h =>
          obtain ⟨hv, g, hg⟩ := hm.1 t h
          exact Consistent.insert_guild hs g hg hv
        | inr h =>
          have := hm.2.1 t h
          exact Consistent.of_maps hs this.2 this.1
      · exact GUILD_DELETE_consistent s t Pay.S Pay.D.id hs h
      · exact VOICE_STATE_UPDATE_consistent s t Pay.S Pay.D.voiceState hs h
      · exact VOICE_SERVER_UPDATE_consistent rt u s t Pay.S Pay.D.serverUpdate hs h
      · have := MESSAGE_CREATE_maps s t Pay.S Pay.D.message h
        exact Consistent.of_maps hs this.1 this.2
      · exact Consistent.of_returned
          (Consistent.of_maps hs (RESUMED_maps s Pay.S).1 (RESUMED_maps s Pay.S).2) h
      · exact Consistent.of_returned
          (Consistent.of_maps hs (INVALID_SESSION_maps s Pay.S Pay.D.raw).1
            (INVALID_SESSION_maps s Pay.S Pay.D.raw).2) h
    · cases hd <;> simp only [DISPATCH, hsel, hp, if_false, Bool.false_eq_true] at h
      · exact Consistent.of_raised h0 h
      · exact Consistent.of_raised h0 h
      · exact Consistent.of_raised h0 h
      · exact Consistent.of_raised h0 h
      · exact Consistent.of_raised h0 h
      · exact Consistent.of_raised h0 h
      · exact Consistent.of_returned
          (Consistent.of_maps hs (RESUMED_maps s Pay.S).1 (RESUMED_maps s Pay.S).2) h
      · exact Consistent.of_returned
          (Consistent.of_maps hs (INVALID_SESSION_maps s Pay.S Pay.D.raw).1
            (INVALID_SESSION_maps s Pay.S Pay.D.raw).2) h

theorem OnWebsocketEvent_consistent (dm : DataModel) (rt : Runtime)
    (u : CVoiceSocket.Indeterminate) (s t : CDiscordClient) (msg : WebSocketMessage)
    (hs : Consistent s)
    (h : OnWebsocketEvent dm rt u s msg = Outcome.returned t ∨
      OnWebsocketEvent dm rt u s msg = Outcome.raised t) : Consistent t := by
  cases msg with
  | Error => exact Consistent.of_returned hs h
  | Close =>
    have hc : Consistent ({ s with m_Terminate := true } : CDiscordClient) :=
      Consistent.of_maps hs rfl rfl
    exact Consistent.of_returned hc h
  | other => exact Consistent.of_returned hs h
  | Message Pay =>
    cases Pay with
    | none => exact Consistent.of_returned hs h
    | some Pay =>
      by_cases h0 : Pay.OP = OPCodes.DISPATCH.toNat
      · simp only [OnWebsocketEvent, h0, if_true] at h
        exact DISPATCH_consistent dm rt u s t Pay hs h
      · by_cases h1 : Pay.OP = OPCodes.HELLO.toNat
        · simp only [OnWebsocketEvent, h0, h1, if_true, if_false] at h
          exact HELLO_consistent s t _ hs h
        · by_cases h2 : Pay.OP = OPCodes.HEARTBEAT_ACK.toNat
          · simp only [OnWebsocketEvent, h0, h1, h2, if_true, if_false] at h
            have hc : Consistent ({ s with m_HeartACKReceived := true } : CDiscordClient) :=
              Consistent.of_maps hs rfl rfl
            exact Consistent.of_returned hc h
          · simp only [OnWebsocketEvent, h0, h1, h2, if_false] at h
            exact Consistent.of_returned hs h

theorem step_consistent (dm : DataModel) (rt : Runtime) (s t : CDiscordClient) (i : Input)
    (hs : Consistent s)
    (h : step dm rt s i = Outcome.returned t ∨ step dm rt s i = Outcome.raised t) :
    Consistent t := by
  cases i with
  | message u msg => exact OnWebsocketEvent_consistent dm rt u s t msg hs h
  | heartbeat => exact Heartbeat_consistent s t hs h
  | startSpeaking channel source =>
    exact Consistent.of_returned (StartSpeaking_consistent rt s channel source hs) h
  | join channel =>
    refine Consistent.of_returned (Consistent.of_maps hs ?_ ?_) h
    · cases channel with
      | none => rfl
      | some c => simp only [Join]; split_ifs <;> rfl
    · cases channel with
      | none => rfl
      | some c => simp only [Join]; split_ifs <;> rfl
  | leave channel =>
    refine Consistent.of_returned (Consistent.of_maps hs ?_ ?_) h
    · cases channel with
      | none => rfl
      | some c => simp only [Leave]; split_ifs <;> rfl
    · cases channel with
      | none => rfl
      | some c => simp only [Leave]; split_ifs <;> rfl
  | quit =>
    exact Consistent.of_returned (Consistent.of_maps hs (Quit_maps s).1 (Quit_maps s).2) h

theorem run_consistent (dm : DataModel) (rt : Runtime) (inputs : List Input) :
    ∀ s t : CDiscordClient, Consistent s →
      (run dm rt s inputs = Outcome.returned t ∨ run dm rt s inputs = Outcome.raised t) →
      Consistent t := by
  induction inputs with
  | nil =>
    intro s t hs h
    exact Consistent.of_returned hs h
  | cons i rest ih =>
    intro s t hs h
    simp only [run] at h
    cases hstep : step dm rt s i with
    | returned s1 =>
      rw [hstep] at h
      exact ih s1 t (step_consistent dm rt s s1 i hs (Or.inl hstep)) h
    | raised s1 =>
      rw [hstep] at h
      exact Consistent.of_raised (step_consistent dm rt s s1 i hs (Or.inr hstep)) h
    | crashed =>
      rw [hstep] at h
      cases h with
      | inl h => cases h
      | inr h => cases h
    | terminated s1 =>
      rw [hstep] at h
      cases h with
      | inl h => cases h
      | inr h => cases h

/-- C26: start from a client whose maps of guilds and voice sockets are empty and
let websocket messages, passes of the heartbeat thread and calls of
`StartSpeaking`, `Join`, `Leave` and `Quit` reach it in any order. In the client
that results (after the last input, or at the moment an exception leaves a
handler) every key of `m_VoiceSockets` is a key of `m_Guilds`, and every guild is
stored in `m_Guilds` under its own ID. -/
theorem cache_consistent (dm : DataModel) (rt : Runtime) (s t : CDiscordClient)
    (inputs : List Input) (hg : s.m_Guilds = Map.empty) (hv : s.m_VoiceSockets = Table.empty)
    (h : run dm rt s inputs = Outcome.returned t ∨ run dm rt s inputs = Outcome.raised t) :
    (∀ k, t.m_VoiceSockets.find k ≠ none → t.m_Guilds.find k ≠ none) ∧
    (∀ k g, t.m_Guilds.find k = some g → g.ID = k) := by
  have hs : Consistent s := by
    unfold Consistent
    rw [hg, hv]
    exact ⟨fun k hk => absurd rfl hk, fun k g hk => by cases hk⟩
  exact run_consistent dm rt inputs s t hs h

/-- A new client receives `READY`, `GUILD_CREATE` and `VOICE_SERVER_UPDATE` for
`"guild"` and is told to speak there: it then holds a voice socket for `"guild"`,
and the two maps are as the claim says. -/
theorem cache_consistent_witness :
    ∃ t, run x86_64 littleEndianRuntime newClient session = Outcome.returned t ∧
      (t.m_VoiceSockets.find "guild").isSome = true ∧
      (∀ k, t.m_VoiceSockets.find k ≠ none → t.m_Guilds.find k ≠ none) ∧
      (∀ k g, t.m_Guilds.find k = some g → g.ID = k) := by
  have hsome : ((run x86_64 littleEndianRuntime newClient session).toOption.map
      fun t => (t.m_VoiceSockets.find "guild").isSome) = some true := by decide
  obtain ⟨t, ht⟩ : ∃ t, run x86_64 littleEndianRuntime newClient session = Outcome.returned t :=
    ⟨_, rfl⟩
  rw [ht] at hsome
  exact ⟨t, ht, Option.some.inj hsome,
    cache_consistent x86_64 littleEndianRuntime newClient t session rfl rfl (Or.inl ht)⟩

end CDiscordClient

/-! ## The command controller: the parameters of a command -/

namespace IController

/-- C27 (the code departs from it): with the prefix `!` and the command `cmd`
registered with the delimiter `,`, the message `!cmd a,b,c` gives the parameters
`a`, `b,c`, `c` (the second argument of `substr(Beg, Pos)` is a count, and the
loop hands it a position), and for the message `!cmd a,`, which ends with the
delimiter, `substr` throws `std::out_of_range`. A text with two fields, as in
`!cmd a,b`, is split as the claim says. -/
theorem params_split :
    OnMessage x86_64 "!" (commands ",") false "!cmd a,b,c" = Built.params ["a", "b,c", "c"] true ∧
    OnMessage x86_64 "!" (commands ",") false "!cmd a," = Built.out_of_range ∧
    OnMessage x86_64 "!" (commands ",") false "!cmd a,b" = Built.params ["a", "b"] true := by
  decide

end IController

end DiscordBot
